import Mathlib

/-!
# qq51529210/jwt : a shallow embedding of the sign / verify pipeline

The Go sources embedded here are `jwt.go` (algorithm codes and the ECDSA
`bigint` codec), `claims.go`, `provider.go`, `sign.go` and `verify.go`.

Conventions of the embedding

* a Go `[]byte` or `string` is a `List (Fin 256)`;
* a `*big.Int` that holds a non-negative value is a `Nat`;
* a nil map, nil interface or nil pointer is `none`;
* a Go panic is `Outcome.panicked` (or `none` for the index checks of
  `bigint.Encode`);
* the standard library primitives the package calls (`encoding/json`,
  `crypto/hmac`, `crypto/rsa`, `crypto/ecdsa`, `strings.ToUpper`) are the
  fields of the structure `Lib`; `encoding/base64` is written out.
-/

namespace Jwt

/-! ## Bytes -/

abbrev Byte := Fin 256
abbrev Bytes := List Byte

/-- Go conversion `byte(d)` of an unsigned word. -/
def byte (d : Nat) : Byte := ⟨d % 256, Nat.mod_lt _ (by decide)⟩

/-- The bytes of an ASCII string literal. -/
def ascii (s : String) : Bytes := s.toList.map (fun c => byte c.toNat)

/-- The byte `'.'`. -/
def dot : Byte := 46

/-! ## Errors and outcomes -/

/-- Error values that the package returns.  `ErrInvalidToken` and
`ErrUnsupportedAlg` are the two package level sentinels of `verify.go`;
`unsupportedAlgorithm alg` is the value built by
`fmt.Errorf("unsupported algorithm <%s>", alg)`; `corruptInput` is
`base64.CorruptInputError`; `lib code` is any other error value handed back by
a library primitive (json, rsa, the writer). -/
inductive Error
  | ErrInvalidToken
  | ErrUnsupportedAlg
  | unsupportedAlgorithm (alg : String)
  | corruptInput
  | lib (code : Nat)
  deriving DecidableEq, Repr

instance instDecidableEqExcept {ε α : Type} [DecidableEq ε] [DecidableEq α] :
    DecidableEq (Except ε α)
  | .ok a, .ok b => if h : a = b then isTrue (by rw [h]) else isFalse (by intro h1; cases h1; exact h rfl)
  | .error a, .error b =>
      if h : a = b then isTrue (by rw [h]) else isFalse (by intro h1; cases h1; exact h rfl)
  | .ok _, .error _ => isFalse (by intro h; cases h)
  | .error _, .ok _ => isFalse (by intro h; cases h)

/-- Result of running Go code that may panic. -/
inductive Outcome (α : Type)
  | returned (a : α)
  | panicked
  deriving DecidableEq, Repr

/-! ## encoding/base64, `RawURLEncoding` -/

namespace base64

/-- The URL alphabet: index to character. -/
def encodeURL (n : Nat) : Byte :=
  if n < 26 then byte (65 + n)
  else if n < 52 then byte (97 + (n - 26))
  else if n < 62 then byte (48 + (n - 52))
  else if n = 62 then 45
  else 95

/-- The decode map of the URL alphabet: character to index, `none` for a byte
outside the alphabet (`0xff` in Go). -/
def decodeMap (c : Byte) : Option Nat :=
  if 65 ≤ c.val ∧ c.val ≤ 90 then some (c.val - 65)
  else if 97 ≤ c.val ∧ c.val ≤ 122 then some (c.val - 97 + 26)
  else if 48 ≤ c.val ∧ c.val ≤ 57 then some (c.val - 48 + 52)
  else if c.val = 45 then some 62
  else if c.val = 95 then some 63
  else none

/-- `base64.RawURLEncoding.Encode`: three bytes give four characters, a final
group of two bytes gives three characters and a final single byte two; no
padding is written. -/
def Encode : Bytes → Bytes
  | a :: b :: c :: rest =>
      encodeURL (a.val / 4) :: encodeURL ((a.val % 4) * 16 + b.val / 16) ::
        encodeURL ((b.val % 16) * 4 + c.val / 64) :: encodeURL (c.val % 64) :: Encode rest
  | [a, b] =>
      [encodeURL (a.val / 4), encodeURL ((a.val % 4) * 16 + b.val / 16),
        encodeURL ((b.val % 16) * 4)]
  | [a] => [encodeURL (a.val / 4), encodeURL ((a.val % 4) * 16)]
  | [] => []

/-- The six-bit values of the input characters.  As in Go, `'\n'` and `'\r'`
are skipped and any other byte outside the alphabet is a
`CorruptInputError` (with no padding character, `'='` is such a byte). -/
def sextets : Bytes → Except Error (List Nat)
  | [] => .ok []
  | c :: cs =>
      match decodeMap c with
      | some v =>
          match sextets cs with
          | .ok vs => .ok (v :: vs)
          | .error e => .error e
      | none => if c.val = 10 ∨ c.val = 13 then sextets cs else .error .corruptInput

/-- Quanta of four six-bit values give three bytes; a final quantum of three
gives two bytes, of two gives one byte, and a single left over value is a
`CorruptInputError`.  The encoding is not strict: unused low bits are
dropped. -/
def pack : List Nat → Except Error Bytes
  | s1 :: s2 :: s3 :: s4 :: rest =>
      match pack rest with
      | .ok bs =>
          .ok (byte (s1 * 4 + s2 / 16) :: byte ((s2 % 16) * 16 + s3 / 4) ::
            byte ((s3 % 4) * 64 + s4) :: bs)
      | .error e => .error e
  | [s1, s2, s3] => .ok [byte (s1 * 4 + s2 / 16), byte ((s2 % 16) * 16 + s3 / 4)]
  | [s1, s2] => .ok [byte (s1 * 4 + s2 / 16)]
  | [_] => .error .corruptInput
  | [] => .ok []

/-- The six-bit values that `Encode` writes as characters. -/
def values : Bytes → List Nat
  | a :: b :: c :: rest =>
      a.val / 4 :: ((a.val % 4) * 16 + b.val / 16) :: ((b.val % 16) * 4 + c.val / 64) ::
        c.val % 64 :: values rest
  | [a, b] => [a.val / 4, (a.val % 4) * 16 + b.val / 16, (b.val % 16) * 4]
  | [a] => [a.val / 4, (a.val % 4) * 16]
  | [] => []

/-- `base64.RawURLEncoding.Decode`. -/
def Decode (src : Bytes) : Except Error Bytes :=
  match sextets src with
  | .ok vs => pack vs
  | .error e => .error e

end base64

/-! ## jwt.go : the ECDSA `bigint` codec -/

/-- Bytes per machine word, `bits.UintSize / 8` on a 64-bit platform. -/
def _s : Nat := 8

/-- Little-endian words of `x` in base `256 ^ w`, without a leading zero word:
`(*big.Int).Bits()`.  The first argument is recursion fuel. -/
def natWords (w : Nat) : Nat → Nat → List Nat
  | 0, _ => []
  | fuel + 1, x => if x = 0 then [] else x % 256 ^ w :: natWords w fuel (x / 256 ^ w)

/-- `x.Bits()` for a non-negative `x`. -/
def Bits (x : Nat) : List Nat := natWords _s x x

/-- `x.Bytes()`: the minimal big-endian byte string of `x` (empty for `0`, no
leading zero byte). -/
def bigBytes (x : Nat) : Bytes := ((natWords 1 x x).map byte).reverse

/-- `x.SetBytes(buf)`: `buf` read as a big-endian unsigned integer. -/
def SetBytes (buf : Bytes) : Nat := buf.foldl (fun acc b => acc * 256 + b.val) 0

/-- Fixed width form used to describe the loops of `Encode`: the `k` low
bytes of `x`, big-endian. -/
def beBytes : Nat → Nat → Bytes
  | 0, _ => []
  | k + 1, x => beBytes k (x / 256) ++ [byte x]

/-- The bytes that the word loop of `Encode` lays down for the little-endian
words `ds`: the most significant word first, each word big-endian in `_s`
bytes. -/
def wordsBE : List Nat → Bytes
  | [] => []
  | d :: ds => wordsBE ds ++ beBytes _s d

/-- Receiver of `Encode` and `Decode`.  `b` is the backing array of the slice
`b.b` from its start to its capacity, so `b.length` is `cap(b.b)`. -/
structure bigint where
  b : Bytes
  r : Nat
  s : Nat
  deriving DecidableEq, Repr

/-- Inner loop `for j := 0; j < _s; j++ { i--; b.b[i] = byte(d); d >>= 8 }`,
run `j` times.  `none` is the index-out-of-range panic. -/
def putWord : Nat → Bytes → Nat → Nat → Option (Bytes × Nat)
  | 0, b, i, _ => some (b, i)
  | j + 1, b, i, d =>
      if 0 < i ∧ i - 1 < b.length then
        putWord j (b.set (i - 1) (byte d)) (i - 1) (d / 256)
      else none

/-- Outer loop `for _, d := range words { ... }`. -/
def putWords : List Nat → Bytes → Nat → Option (Bytes × Nat)
  | [], b, i => some (b, i)
  | d :: ds, b, i =>
      match putWord _s b i d with
      | some (b1, i1) => putWords ds b1 i1
      | none => none

/-- Loop `for i < len(b.b) && b.b[i] == 0 { i++ }`; the first argument is
recursion fuel. -/
def skipZeros : Nat → Bytes → Nat → Nat
  | 0, _, i => i
  | fuel + 1, b, i =>
      if i < b.length ∧ b.getD i 0 = 0 then skipZeros fuel b (i + 1) else i

/-- `func (b *bigint) Encode(r, s *big.Int) []byte`.  Returns the receiver
after the call and the returned slice `b.b[i:]`. -/
def bigint.Encode (b : bigint) (r s : Nat) : Option (bigint × Bytes) :=
  let sz := Bits s
  let rz := Bits r
  let n := (sz.length + rz.length) * _s
  let buf : Bytes := if b.b.length < n then List.replicate n 0 else b.b.take n
  match putWords sz buf buf.length with
  | none => none
  | some (buf1, i1) =>
      let i2 := skipZeros buf1.length buf1 i1
      match putWords rz buf1 i2 with
      | none => none
      | some (buf2, i3) =>
          let i4 := skipZeros buf2.length buf2 i3
          some ({ b with b := buf2 ++ (if b.b.length < n then [] else b.b.drop n) },
            buf2.drop i4)

/-- `func (b *bigint) Decode(buf []byte)`. -/
def bigint.Decode (b : bigint) (buf : Bytes) : bigint :=
  let n := buf.length / 2
  { b with r := SetBytes (buf.take n), s := SetBytes (buf.drop n) }

/-- `func IsSupportedAlg(alg string) bool`. -/
def IsSupportedAlg (alg : String) : Bool :=
  if alg = "HS256" ∨ alg = "HS384" ∨ alg = "HS512" ∨
      alg = "RS256" ∨ alg = "RS384" ∨ alg = "RS512" ∨
      alg = "ES256" ∨ alg = "ES384" ∨ alg = "ES512" ∨
      alg = "PS256" ∨ alg = "PS384" ∨ alg = "PS512" then true
  else false

/-! ## claims.go -/

/-- A dynamic Go value stored in a `map[string]interface{}`.  `str` is a value
of dynamic type `string`, `alg` a value of the named type `Alg` (the encoder
stores such a value under `"alg"`), `other` stands for every dynamic type the
package never inspects (slices, maps, structs, ...); a `float64` is given by
its bit pattern. -/
inductive Value
  | null
  | bool (b : Bool)
  | int (n : Int)
  | float64 (bits : Nat)
  | str (s : String)
  | alg (a : String)
  | other (tag : Nat)
  deriving DecidableEq, Repr

/-- `type Claims map[string]interface{}`: a non-nil map, as an association
list with at most one entry per key. -/
abbrev Claims := List (String × Value)

/-- Map read `m[k]`. -/
def Claims.get (m : Claims) (k : String) : Option Value :=
  match m with
  | [] => none
  | (k1, v1) :: rest => if k1 = k then some v1 else Claims.get rest k

/-- Map write `m[k] = v`. -/
def Claims.set (m : Claims) (k : String) (v : Value) : Claims :=
  match m with
  | [] => [(k, v)]
  | (k1, v1) :: rest => if k1 = k then (k, v) :: rest else (k1, v1) :: Claims.set rest k v

/-- `func (h Header) SetTYP()`. -/
def Header.SetTYP (h : Claims) : Claims := h.set "typ" (.str "JWT")

/-! ## Library primitives -/

/-- The three hash functions. -/
inductive Sha
  | SHA256
  | SHA384
  | SHA512
  deriving DecidableEq, Repr

/-- A `hash.Hash` object: the hash function, the HMAC key (`none` for a plain
digest) and the bytes written since the last `Reset`. -/
structure Hash where
  sha : Sha
  key : Option Bytes
  data : Bytes
  deriving DecidableEq, Repr

/-- `h.Write(p)`. -/
def Hash.Write (h : Hash) (p : Bytes) : Hash := { h with data := h.data ++ p }

/-- `hmac.New(sha.New, key)`. -/
def hmac.New (sha : Sha) (key : Bytes) : Hash := { sha := sha, key := some key, data := [] }

/-- `*rsa.PrivateKey` (non-nil). -/
structure RSAKey where
  id : Nat
  deriving DecidableEq, Repr

/-- `*ecdsa.PrivateKey` (non-nil). -/
structure ECKey where
  id : Nat
  deriving DecidableEq, Repr

/-- `*rsa.PSSOptions` (non-nil). -/
structure PSSOptions where
  saltLength : Int
  deriving DecidableEq, Repr

/-- The standard library primitives used by the package.

* `digest sha key data` is `h.Sum(nil)` of a hash object with that function
  and key after `data` was written (HMAC when the key is present);
* `jsonEncode m` is what `json.Encoder.Encode(m)` appends to its buffer (the
  JSON text and the newline the encoder adds);
* `jsonDecode pending input` is `json.Decoder.Decode` into a fresh map, for a
  decoder that still buffers the unread bytes `pending` and whose reader now
  holds `input`: the decoded map (`none` for the nil map of JSON `null`) and
  the bytes left buffered in the decoder;
* `rnd` is the state of `rand.Reader`. -/
structure Lib where
  digest : Sha → Option Bytes → Bytes → Bytes
  jsonEncode : Option Claims → Except Error Bytes
  jsonDecode : Bytes → Bytes → Except Error (Option Claims × Bytes)
  toUpper : String → String
  signPKCS1v15 : Nat → RSAKey → Sha → Bytes → Except Error Bytes
  verifyPKCS1v15 : RSAKey → Sha → Bytes → Bytes → Option Error
  signPSS : Nat → RSAKey → Sha → Bytes → Option PSSOptions → Except Error Bytes
  verifyPSS : RSAKey → Sha → Bytes → Bytes → Option PSSOptions → Option Error
  ecdsaSign : Nat → ECKey → Bytes → Except Error (Nat × Nat)
  ecdsaVerify : ECKey → Bytes → Nat → Nat → Bool

/-- `h.Sum(b)`. -/
def Hash.Sum (L : Lib) (h : Hash) (b : Bytes) : Bytes := b ++ L.digest h.sha h.key h.data

/-! ## provider.go -/

/-- `type Provider interface`: what each method returns.  A nil `hash.Hash`,
key or options pointer is `none`. -/
structure Provider where
  GetHS256 : Option Hash
  GetHS384 : Option Hash
  GetHS512 : Option Hash
  GetSha256 : Option Hash
  GetSha384 : Option Hash
  GetSha512 : Option Hash
  RS256Key : Option RSAKey
  RS384Key : Option RSAKey
  RS512Key : Option RSAKey
  ES256Key : Option ECKey
  ES384Key : Option ECKey
  ES512Key : Option ECKey
  PS256Key : Option RSAKey
  PS384Key : Option RSAKey
  PS512Key : Option RSAKey
  PS256Opt : Option PSSOptions
  PS384Opt : Option PSSOptions
  PS512Opt : Option PSSOptions

/-- A call of a `Provider` method, with the hash object handed to a `Put`. -/
inductive Call
  | GetHS256
  | GetHS384
  | GetHS512
  | PutHS256 (h : Option Hash)
  | PutHS384 (h : Option Hash)
  | PutHS512 (h : Option Hash)
  | GetSha256
  | GetSha384
  | GetSha512
  | PutSha256 (h : Option Hash)
  | PutSha384 (h : Option Hash)
  | PutSha512 (h : Option Hash)
  | RS256Key
  | RS384Key
  | RS512Key
  | ES256Key
  | ES384Key
  | ES512Key
  | PS256Key
  | PS384Key
  | PS512Key
  | PS256Opt
  | PS384Opt
  | PS512Opt
  deriving DecidableEq, Repr

/-! ## sign.go -/

/-- `type signer struct`.  The two JSON encoders write into `jsonHeader` and
`jsonPayload`. -/
structure signer where
  jsonHeader : Bytes
  jsonPayload : Bytes
  base64Buffer : Bytes
  tokenBuffer : Bytes
  signBuffer : Bytes
  bigint : bigint
  deriving DecidableEq, Repr

/-- An `io.Writer`: the error that `Write` returns for the bytes it is given. -/
abbrev Writer := Bytes → Option Error

/-- `func (s *signer) base64(b []byte)`: the buffer is resized to the encoded
length and completely overwritten by `base64.RawURLEncoding.Encode`. -/
def signer.base64 (s : signer) (b : Bytes) : signer :=
  { s with base64Buffer := base64.Encode b }

/-- `func (s *signer) encode(alg Alg, header, payload Claims) (err error)`,
with the two maps given by content.  Returns the signer, the caller's header
map after the call and the result.  Writing into a nil header map panics.
`payload` is the content of the payload map when it is serialised: the
caller's payload map, unless the caller passed the header's own map object as
payload; `signer.encodeRef` below takes the two references and covers that
call. -/
def signer.encode (L : Lib) (s : signer) (alg : String) (header payload : Option Claims) :
    signer × Option Claims × Outcome (Option Error) :=
  match header with
  | none => (s, none, .panicked)
  | some h0 =>
      let h1 := h0.set "jwt" (.str "JWT")
      let h2 := h1.set "alg" (.alg alg)
      let s1 := { s with jsonHeader := [] }
      match L.jsonEncode (some h2) with
      | .error e => (s1, some h2, .returned (some e))
      | .ok hb =>
          let s2 := { s1 with jsonHeader := hb, jsonPayload := [] }
          match L.jsonEncode payload with
          | .error e => (s2, some h2, .returned (some e))
          | .ok pb =>
              let s3 := { s2 with jsonPayload := pb, tokenBuffer := [] }
              let s4 := s3.base64 s3.jsonHeader
              let s5 := { s4 with tokenBuffer := s4.tokenBuffer ++ s4.base64Buffer }
              let s6 := { s5 with tokenBuffer := s5.tokenBuffer ++ [dot] }
              let s7 := s6.base64 s6.jsonPayload
              let s8 := { s7 with tokenBuffer := s7.tokenBuffer ++ s7.base64Buffer }
              (s8, some h2, .returned none)

/-- What a family method of the signer did: the signer and the caller's header
after the call, the hash object after the call, the byte strings passed to
`w.Write` in order, and the result. -/
structure SignerEffect where
  s : signer
  header : Option Claims
  hash : Option Hash
  written : List Bytes
  result : Outcome (Option Error)
  deriving DecidableEq, Repr

/-- Common tail `s.base64(sign); tokenBuffer = append(tokenBuffer, '.');
tokenBuffer = append(tokenBuffer, base64Buffer...); _, err = w.Write(tokenBuffer)`. -/
def signer.finish (s : signer) (w : Writer) (header : Option Claims) (hash : Option Hash)
    (sign : Bytes) : SignerEffect :=
  let s1 := s.base64 sign
  let s2 := { s1 with tokenBuffer := s1.tokenBuffer ++ [dot] }
  let s3 := { s2 with tokenBuffer := s2.tokenBuffer ++ s2.base64Buffer }
  { s := s3, header := header, hash := hash, written := [s3.tokenBuffer],
    result := .returned (w s3.tokenBuffer) }

/-- `func (s *signer) hs(w, alg, header, payload, hash) (err error)`.  Calling
`Write` on a nil `hash.Hash` panics. -/
def signer.hs (L : Lib) (s : signer) (w : Writer) (alg : String) (header payload : Option Claims)
    (hash : Option Hash) : SignerEffect :=
  match s.encode L alg header payload with
  | (s1, hdr, .panicked) =>
      { s := s1, header := hdr, hash := hash, written := [], result := .panicked }
  | (s1, hdr, .returned (some e)) =>
      { s := s1, header := hdr, hash := hash, written := [], result := .returned (some e) }
  | (s1, hdr, .returned none) =>
      match hash with
      | none => { s := s1, header := hdr, hash := none, written := [], result := .panicked }
      | some h =>
          let h1 := h.Write s1.tokenBuffer
          let s2 := { s1 with signBuffer := [] }
          let s3 := { s2 with signBuffer := h1.Sum L s2.signBuffer }
          s3.finish w hdr (some h1) s3.signBuffer

/-- `func (s *signer) rs(w, alg, header, payload, hash, sha, key) (err error)`.
`rsa.SignPKCS1v15` dereferences the key, so a nil key panics. -/
def signer.rs (L : Lib) (s : signer) (w : Writer) (rnd : Nat) (alg : String)
    (header payload : Option Claims) (hash : Option Hash) (sha : Sha) (key : Option RSAKey) :
    SignerEffect :=
  match s.encode L alg header payload with
  | (s1, hdr, .panicked) =>
      { s := s1, header := hdr, hash := hash, written := [], result := .panicked }
  | (s1, hdr, .returned (some e)) =>
      { s := s1, header := hdr, hash := hash, written := [], result := .returned (some e) }
  | (s1, hdr, .returned none) =>
      match hash with
      | none => { s := s1, header := hdr, hash := none, written := [], result := .panicked }
      | some h =>
          let h1 := h.Write s1.tokenBuffer
          let s2 := { s1 with signBuffer := [] }
          let s3 := { s2 with signBuffer := h1.Sum L s2.signBuffer }
          match key with
          | none =>
              { s := s3, header := hdr, hash := some h1, written := [], result := .panicked }
          | some k =>
              match L.signPKCS1v15 rnd k sha s3.signBuffer with
              | .error e =>
                  { s := s3, header := hdr, hash := some h1, written := [],
                    result := .returned (some e) }
              | .ok sign => s3.finish w hdr (some h1) sign

/-- `func (s *signer) es(w, alg, header, payload, hash, key) (err error)`.
`ecdsa.Sign` dereferences the key, so a nil key panics. -/
def signer.es (L : Lib) (s : signer) (w : Writer) (rnd : Nat) (alg : String)
    (header payload : Option Claims) (hash : Option Hash) (key : Option ECKey) : SignerEffect :=
  match s.encode L alg header payload with
  | (s1, hdr, .panicked) =>
      { s := s1, header := hdr, hash := hash, written := [], result := .panicked }
  | (s1, hdr, .returned (some e)) =>
      { s := s1, header := hdr, hash := hash, written := [], result := .returned (some e) }
  | (s1, hdr, .returned none) =>
      match hash with
      | none => { s := s1, header := hdr, hash := none, written := [], result := .panicked }
      | some h =>
          let h1 := h.Write s1.tokenBuffer
          let s2 := { s1 with signBuffer := [] }
          let s3 := { s2 with signBuffer := h1.Sum L s2.signBuffer }
          match key with
          | none =>
              { s := s3, header := hdr, hash := some h1, written := [], result := .panicked }
          | some k =>
              match L.ecdsaSign rnd k s3.signBuffer with
              | .error e =>
                  { s := s3, header := hdr, hash := some h1, written := [],
                    result := .returned (some e) }
              | .ok (rb, sb) =>
                  match s3.bigint.Encode rb sb with
                  | none =>
                      { s := s3, header := hdr, hash := some h1, written := [],
                        result := .panicked }
                  | some (bi, enc) =>
                      let s4 := { s3 with bigint := bi }
                      s4.finish w hdr (some h1) enc

/-- `func (s *signer) ps(w, alg, header, payload, hash, sha, key, opt) (err error)`.
`rsa.SignPSS` dereferences the key, so a nil key panics. -/
def signer.ps (L : Lib) (s : signer) (w : Writer) (rnd : Nat) (alg : String)
    (header payload : Option Claims) (hash : Option Hash) (sha : Sha) (key : Option RSAKey)
    (opt : Option PSSOptions) : SignerEffect :=
  match s.encode L alg header payload with
  | (s1, hdr, .panicked) =>
      { s := s1, header := hdr, hash := hash, written := [], result := .panicked }
  | (s1, hdr, .returned (some e)) =>
      { s := s1, header := hdr, hash := hash, written := [], result := .returned (some e) }
  | (s1, hdr, .returned none) =>
      match hash with
      | none => { s := s1, header := hdr, hash := none, written := [], result := .panicked }
      | some h =>
          let h1 := h.Write s1.tokenBuffer
          let s2 := { s1 with signBuffer := [] }
          let s3 := { s2 with signBuffer := h1.Sum L s2.signBuffer }
          match key with
          | none =>
              { s := s3, header := hdr, hash := some h1, written := [], result := .panicked }
          | some k =>
              match L.signPSS rnd k sha s3.signBuffer opt with
              | .error e =>
                  { s := s3, header := hdr, hash := some h1, written := [],
                    result := .returned (some e) }
              | .ok sign => s3.finish w hdr (some h1) sign

/-- What a package level sign function did: the signer it took from
`signerPool` as it is after the call, the caller's header after the call, the
byte strings passed to `w.Write`, the calls made on the provider, and the
result.  After a panic the calls that follow the family method are not made. -/
structure SignEffect where
  s : signer
  header : Option Claims
  written : List Bytes
  calls : List Call
  result : Outcome (Option Error)
  deriving DecidableEq, Repr

/-- Shared shape `err := s.family(...); provider.Put(h); signerPool.Put(s);
return err` of the twelve `SignXxxTo` functions: `pre` are the provider calls
made before the family method runs and `put` the `Put` call after it. -/
def SignEffect.ofFamily (pre : List Call) (put : Option Hash → Call) (e : SignerEffect) :
    SignEffect :=
  match e.result with
  | .panicked =>
      { s := e.s, header := e.header, written := e.written, calls := pre, result := .panicked }
  | .returned err =>
      { s := e.s, header := e.header, written := e.written, calls := pre ++ [put e.hash],
        result := .returned err }

/-- `func SignHS256To(w io.Writer, header, payload Claims, provider Provider) error`. -/
def SignHS256To (L : Lib) (s : signer) (w : Writer) (header payload : Option Claims)
    (provider : Provider) : SignEffect :=
  let h := provider.GetHS256
  SignEffect.ofFamily [.GetHS256] .PutHS256 (s.hs L w "HS256" header payload h)

/-- `func SignHS384To(w io.Writer, header, payload Claims, provider Provider) error`. -/
def SignHS384To (L : Lib) (s : signer) (w : Writer) (header payload : Option Claims)
    (provider : Provider) : SignEffect :=
  let h := provider.GetHS384
  SignEffect.ofFamily [.GetHS384] .PutHS384 (s.hs L w "HS384" header payload h)

/-- `func SignHS512To(w io.Writer, header, payload Claims, provider Provider) error`. -/
def SignHS512To (L : Lib) (s : signer) (w : Writer) (header payload : Option Claims)
    (provider : Provider) : SignEffect :=
  let h := provider.GetHS512
  SignEffect.ofFamily [.GetHS512] .PutHS512 (s.hs L w "HS512" header payload h)

/-- `func SignRS256To(w io.Writer, header, payload Claims, provider Provider) error`. -/
def SignRS256To (L : Lib) (s : signer) (w : Writer) (rnd : Nat) (header payload : Option Claims)
    (provider : Provider) : SignEffect :=
  let h := provider.GetSha256
  SignEffect.ofFamily [.GetSha256, .RS256Key] .PutSha256
    (s.rs L w rnd "RS256" header payload h .SHA256 provider.RS256Key)

/-- `func SignRS384To(w io.Writer, header, payload Claims, provider Provider) error`. -/
def SignRS384To (L : Lib) (s : signer) (w : Writer) (rnd : Nat) (header payload : Option Claims)
    (provider : Provider) : SignEffect :=
  let h := provider.GetSha384
  SignEffect.ofFamily [.GetSha384, .RS384Key] .PutSha384
    (s.rs L w rnd "RS384" header payload h .SHA384 provider.RS384Key)

/-- `func SignRS512To(w io.Writer, header, payload Claims, provider Provider) error`. -/
def SignRS512To (L : Lib) (s : signer) (w : Writer) (rnd : Nat) (header payload : Option Claims)
    (provider : Provider) : SignEffect :=
  let h := provider.GetSha512
  SignEffect.ofFamily [.GetSha512, .RS512Key] .PutSha512
    (s.rs L w rnd "RS512" header payload h .SHA512 provider.RS512Key)

/-- `func SignES256To(w io.Writer, header, payload Claims, provider Provider) error`. -/
def SignES256To (L : Lib) (s : signer) (w : Writer) (rnd : Nat) (header payload : Option Claims)
    (provider : Provider) : SignEffect :=
  let h := provider.GetSha256
  SignEffect.ofFamily [.GetSha256, .ES256Key] .PutSha256
    (s.es L w rnd "ES256" header payload h provider.ES256Key)

/-- `func SignES384To(w io.Writer, header, payload Claims, provider Provider) error`. -/
def SignES384To (L : Lib) (s : signer) (w : Writer) (rnd : Nat) (header payload : Option Claims)
    (provider : Provider) : SignEffect :=
  let h := provider.GetSha384
  SignEffect.ofFamily [.GetSha384, .ES384Key] .PutSha384
    (s.es L w rnd "ES384" header payload h provider.ES384Key)

/-- `func SignES512To(w io.Writer, header, payload Claims, provider Provider) error`. -/
def SignES512To (L : Lib) (s : signer) (w : Writer) (rnd : Nat) (header payload : Option Claims)
    (provider : Provider) : SignEffect :=
  let h := provider.GetSha512
  SignEffect.ofFamily [.GetSha512, .ES512Key] .PutSha512
    (s.es L w rnd "ES512" header payload h provider.ES512Key)

/-- `func SignPS256To(w io.Writer, header, payload Claims, provider Provider) error`. -/
def SignPS256To (L : Lib) (s : signer) (w : Writer) (rnd : Nat) (header payload : Option Claims)
    (provider : Provider) : SignEffect :=
  let h := provider.GetSha256
  SignEffect.ofFamily [.GetSha256, .PS256Key, .PS256Opt] .PutSha256
    (s.ps L w rnd "PS256" header payload h .SHA256 provider.PS256Key provider.PS256Opt)

/-- `func SignPS384To(w io.Writer, header, payload Claims, provider Provider) error`. -/
def SignPS384To (L : Lib) (s : signer) (w : Writer) (rnd : Nat) (header payload : Option Claims)
    (provider : Provider) : SignEffect :=
  let h := provider.GetSha384
  SignEffect.ofFamily [.GetSha384, .PS384Key, .PS384Opt] .PutSha384
    (s.ps L w rnd "PS384" header payload h .SHA384 provider.PS384Key provider.PS384Opt)

/-- `func SignPS512To(w io.Writer, header, payload Claims, provider Provider) error`. -/
def SignPS512To (L : Lib) (s : signer) (w : Writer) (rnd : Nat) (header payload : Option Claims)
    (provider : Provider) : SignEffect :=
  let h := provider.GetSha512
  SignEffect.ofFamily [.GetSha512, .PS512Key, .PS512Opt] .PutSha512
    (s.ps L w rnd "PS512" header payload h .SHA512 provider.PS512Key provider.PS512Opt)

/-- `func SignTo(w io.Writer, alg Alg, header, payload Claims, provider Provider) error`.
The default case panics before anything else is done. -/
def SignTo (L : Lib) (s : signer) (w : Writer) (rnd : Nat) (alg : String)
    (header payload : Option Claims) (provider : Provider) : SignEffect :=
  if alg = "HS256" then SignHS256To L s w header payload provider
  else if alg = "HS384" then SignHS384To L s w header payload provider
  else if alg = "HS512" then SignHS512To L s w header payload provider
  else if alg = "RS256" then SignRS256To L s w rnd header payload provider
  else if alg = "RS384" then SignRS384To L s w rnd header payload provider
  else if alg = "RS512" then SignRS512To L s w rnd header payload provider
  else if alg = "ES256" then SignES256To L s w rnd header payload provider
  else if alg = "ES384" then SignES384To L s w rnd header payload provider
  else if alg = "ES512" then SignES512To L s w rnd header payload provider
  else if alg = "PS256" then SignPS256To L s w rnd header payload provider
  else if alg = "PS384" then SignPS384To L s w rnd header payload provider
  else if alg = "PS512" then SignPS512To L s w rnd header payload provider
  else { s := s, header := header, written := [], calls := [], result := .panicked }

/-- `func SignHS256WithSecretTo(w io.Writer, header, payload Claims, secret string) error`.
The secret is copied into `tokenBuffer`, from which `hmac.New` takes its key. -/
def SignHS256WithSecretTo (L : Lib) (s : signer) (w : Writer) (header payload : Option Claims)
    (secret : Bytes) : SignEffect :=
  let s1 := { s with tokenBuffer := [] }
  let s2 := { s1 with tokenBuffer := s1.tokenBuffer ++ secret }
  let e := s2.hs L w "HS256" header payload (some (hmac.New .SHA256 s2.tokenBuffer))
  { s := e.s, header := e.header, written := e.written, calls := [], result := e.result }

/-- `func SignHS384WithSecretTo(w io.Writer, header, payload Claims, secret string) error`.
The secret is copied into `tokenBuffer`, from which `hmac.New` takes its key. -/
def SignHS384WithSecretTo (L : Lib) (s : signer) (w : Writer) (header payload : Option Claims)
    (secret : Bytes) : SignEffect :=
  let s1 := { s with tokenBuffer := [] }
  let s2 := { s1 with tokenBuffer := s1.tokenBuffer ++ secret }
  let e := s2.hs L w "HS384" header payload (some (hmac.New .SHA384 s2.tokenBuffer))
  { s := e.s, header := e.header, written := e.written, calls := [], result := e.result }

/-- `func SignHS512WithSecretTo(w io.Writer, header, payload Claims, secret string) error`.
The secret is copied into `tokenBuffer`, from which `hmac.New` takes its key. -/
def SignHS512WithSecretTo (L : Lib) (s : signer) (w : Writer) (header payload : Option Claims)
    (secret : Bytes) : SignEffect :=
  let s1 := { s with tokenBuffer := [] }
  let s2 := { s1 with tokenBuffer := s1.tokenBuffer ++ secret }
  let e := s2.hs L w "HS512" header payload (some (hmac.New .SHA512 s2.tokenBuffer))
  { s := e.s, header := e.header, written := e.written, calls := [], result := e.result }

/-- A `strings.Builder`. -/
structure Builder where
  buf : Bytes
  deriving DecidableEq, Repr

/-- `func (b *Builder) String() string`. -/
def Builder.String (b : Builder) : Bytes := b.buf

/-- `func (b *Builder) Write(p []byte) (int, error)`: appends, never fails. -/
def Builder.Write (b : Builder) (p : Bytes) : Builder := { buf := b.buf ++ p }

/-- A `strings.Builder` used as the `io.Writer` of a sign function. -/
def Builder.writer : Writer := fun _ => none

/-- The builder after the writes recorded in `written`. -/
def Builder.after (b : Builder) (written : List Bytes) : Builder := written.foldl Builder.Write b

/-- What a string returning sign function did: the two returned values and
the builder `str` when the function returns. -/
structure SignResult where
  token : Bytes
  effect : SignEffect
  str : Builder
  deriving DecidableEq, Repr

/-- Shape `var str strings.Builder; return str.String(), SignXxxTo(&str, ...)`
shared by the sixteen string returning functions.  The operands of the return
statement are evaluated in lexical left-to-right order: `str.String()` is
called on the builder as declared, then `run` (the `...To` call with `&str` as
its writer) is called. -/
def returnStringThen (run : Writer → SignEffect) : SignResult :=
  let str : Builder := { buf := [] }
  let token := str.String
  let effect := run Builder.writer
  { token := token, effect := effect, str := str.after effect.written }

/-- `func Sign(alg Alg, header, payload Claims, provider Provider) (string, error)`. -/
def Sign (L : Lib) (s : signer) (rnd : Nat) (alg : String) (header payload : Option Claims)
    (provider : Provider) : SignResult :=
  returnStringThen (fun w => SignTo L s w rnd alg header payload provider)

/-- `func SignHS256(header, payload Claims, provider Provider) (string, error)`. -/
def SignHS256 (L : Lib) (s : signer) (header payload : Option Claims) (provider : Provider) :
    SignResult :=
  returnStringThen (fun w => SignHS256To L s w header payload provider)

/-- `func SignHS384(header, payload Claims, provider Provider) (string, error)`. -/
def SignHS384 (L : Lib) (s : signer) (header payload : Option Claims) (provider : Provider) :
    SignResult :=
  returnStringThen (fun w => SignHS384To L s w header payload provider)

/-- `func SignHS512(header, payload Claims, provider Provider) (string, error)`. -/
def SignHS512 (L : Lib) (s : signer) (header payload : Option Claims) (provider : Provider) :
    SignResult :=
  returnStringThen (fun w => SignHS512To L s w header payload provider)

/-- `func SignRS256(header, payload Claims, provider Provider) (string, error)`. -/
def SignRS256 (L : Lib) (s : signer) (rnd : Nat) (header payload : Option Claims)
    (provider : Provider) : SignResult :=
  returnStringThen (fun w => SignRS256To L s w rnd header payload provider)

/-- `func SignRS384(header, payload Claims, provider Provider) (string, error)`. -/
def SignRS384 (L : Lib) (s : signer) (rnd : Nat) (header payload : Option Claims)
    (provider : Provider) : SignResult :=
  returnStringThen (fun w => SignRS384To L s w rnd header payload provider)

/-- `func SignRS512(header, payload Claims, provider Provider) (string, error)`. -/
def SignRS512 (L : Lib) (s : signer) (rnd : Nat) (header payload : Option Claims)
    (provider : Provider) : SignResult :=
  returnStringThen (fun w => SignRS512To L s w rnd header payload provider)

/-- `func SignES256(header, payload Claims, provider Provider) (string, error)`. -/
def SignES256 (L : Lib) (s : signer) (rnd : Nat) (header payload : Option Claims)
    (provider : Provider) : SignResult :=
  returnStringThen (fun w => SignES256To L s w rnd header payload provider)

/-- `func SignES384(header, payload Claims, provider Provider) (string, error)`. -/
def SignES384 (L : Lib) (s : signer) (rnd : Nat) (header payload : Option Claims)
    (provider : Provider) : SignResult :=
  returnStringThen (fun w => SignES384To L s w rnd header payload provider)

/-- `func SignES512(header, payload Claims, provider Provider) (string, error)`. -/
def SignES512 (L : Lib) (s : signer) (rnd : Nat) (header payload : Option Claims)
    (provider : Provider) : SignResult :=
  returnStringThen (fun w => SignES512To L s w rnd header payload provider)

/-- `func SignPS256(header, payload Claims, provider Provider) (string, error)`. -/
def SignPS256 (L : Lib) (s : signer) (rnd : Nat) (header payload : Option Claims)
    (provider : Provider) : SignResult :=
  returnStringThen (fun w => SignPS256To L s w rnd header payload provider)

/-- `func SignPS384(header, payload Claims, provider Provider) (string, error)`. -/
def SignPS384 (L : Lib) (s : signer) (rnd : Nat) (header payload : Option Claims)
    (provider : Provider) : SignResult :=
  returnStringThen (fun w => SignPS384To L s w rnd header payload provider)

/-- `func SignPS512(header, payload Claims, provider Provider) (string, error)`. -/
def SignPS512 (L : Lib) (s : signer) (rnd : Nat) (header payload : Option Claims)
    (provider : Provider) : SignResult :=
  returnStringThen (fun w => SignPS512To L s w rnd header payload provider)

/-- `func SignHS256WithSecret(header, payload Claims, secret string) (string, error)`. -/
def SignHS256WithSecret (L : Lib) (s : signer) (header payload : Option Claims) (secret : Bytes) :
    SignResult :=
  returnStringThen (fun w => SignHS256WithSecretTo L s w header payload secret)

/-- `func SignHS384WithSecret(header, payload Claims, secret string) (string, error)`. -/
def SignHS384WithSecret (L : Lib) (s : signer) (header payload : Option Claims) (secret : Bytes) :
    SignResult :=
  returnStringThen (fun w => SignHS384WithSecretTo L s w header payload secret)

/-- `func SignHS512WithSecret(header, payload Claims, secret string) (string, error)`. -/
def SignHS512WithSecret (L : Lib) (s : signer) (header payload : Option Claims) (secret : Bytes) :
    SignResult :=
  returnStringThen (fun w => SignHS512WithSecretTo L s w header payload secret)

/-! ## verify.go -/

/-- `type verifier struct`.  `jsonPending` is the part of the state of
`jsonDecoder` that survives a call: the bytes it has read from `jsonBuffer`
but not yet consumed.  `jsonBuffer` is the byte string last written to the
buffer after its `Reset`. -/
structure verifier where
  bigint : bigint
  headerToken : Bytes
  payloadToken : Bytes
  headerPayloadToken : Bytes
  signToken : Bytes
  jsonPending : Bytes
  jsonBuffer : Bytes
  base64Buffer : Bytes
  hashBuffer : Bytes
  deriving DecidableEq, Repr

/-- `strings.IndexByte(s, c)`; `none` is the result `-1`. -/
def IndexByte : Bytes → Byte → Option Nat
  | [], _ => none
  | b :: bs, c =>
      if b = c then some 0
      else
        match IndexByte bs c with
        | some i => some (i + 1)
        | none => none

/-- `func (v *verifier) base64Decode(b []byte) (err error)`.  After a failed
decode the buffer is not read again. -/
def verifier.base64Decode (v : verifier) (b : Bytes) : verifier × Option Error :=
  match base64.Decode b with
  | .error e => (v, some e)
  | .ok out => ({ v with base64Buffer := out }, none)

/-- `func (v *verifier) base64Encode(b []byte)`. -/
def verifier.base64Encode (v : verifier) (b : Bytes) : verifier :=
  { v with base64Buffer := base64.Encode b }

/-- `func (v *verifier) parseToken(token string) error`. -/
def verifier.parseToken (v : verifier) (token : Bytes) : verifier × Option Error :=
  match IndexByte token dot with
  | none => (v, some .ErrInvalidToken)
  | some i1 =>
      let v1 := { v with headerToken := token.take i1 }
      let i1 := i1 + 1
      match IndexByte (token.drop i1) dot with
      | none => (v1, some .ErrInvalidToken)
      | some i2 =>
          let i2 := i2 + i1
          let v2 := { v1 with payloadToken := (token.take i2).drop i1 }
          let v3 := { v2 with headerPayloadToken := token.take i2 }
          let v4 := { v3 with signToken := token.drop (i2 + 1) }
          (v4, none)

/-- `func (v *verifier) hashHeaderPayload(h hash.Hash)`: returns the verifier
and the hash object after the write. -/
def verifier.hashHeaderPayload (L : Lib) (v : verifier) (h : Hash) : verifier × Hash :=
  let v1 := { v with hashBuffer := [] }
  let h1 := h.Write v1.headerPayloadToken
  ({ v1 with hashBuffer := h1.Sum L v1.hashBuffer }, h1)

/-- Loop `for i := 0; i < len(a); i++ { if a[i] != b[i] { return ErrInvalidToken } }`
from index `i` on; the first argument is recursion fuel. -/
def compareLoop (a b : Bytes) : Nat → Nat → Option Error
  | 0, _ => none
  | fuel + 1, i =>
      if i < a.length then
        if a.getD i 0 ≠ b.getD i 0 then some .ErrInvalidToken
        else compareLoop a b fuel (i + 1)
      else none

/-- `func (v *verifier) hs(h hash.Hash) error`. -/
def verifier.hs (L : Lib) (v : verifier) (h : Option Hash) : verifier × Option Hash × Option Error :=
  match h with
  | none => (v, none, some .ErrUnsupportedAlg)
  | some h0 =>
      let (v1, h1) := v.hashHeaderPayload L h0
      let v2 := v1.base64Encode v1.hashBuffer
      if v2.signToken.length ≠ v2.base64Buffer.length then (v2, some h1, some .ErrInvalidToken)
      else (v2, some h1, compareLoop v2.signToken v2.base64Buffer v2.signToken.length 0)

/-- `func (v *verifier) es(h hash.Hash, k *ecdsa.PrivateKey) error`. -/
def verifier.es (L : Lib) (v : verifier) (h : Option Hash) (k : Option ECKey) :
    verifier × Option Hash × Option Error :=
  match h, k with
  | none, _ => (v, h, some .ErrUnsupportedAlg)
  | some _, none => (v, h, some .ErrUnsupportedAlg)
  | some h0, some k0 =>
      let (v1, h1) := v.hashHeaderPayload L h0
      match v1.base64Decode v1.signToken with
      | (v2, some err) => (v2, some h1, some err)
      | (v2, none) =>
          let v3 := { v2 with bigint := v2.bigint.Decode v2.base64Buffer }
          if ¬ L.ecdsaVerify k0 v3.hashBuffer v3.bigint.r v3.bigint.s then
            (v3, some h1, some .ErrInvalidToken)
          else (v3, some h1, none)

/-- `func (v *verifier) rs(h hash.Hash, c crypto.Hash, k *rsa.PrivateKey) error`. -/
def verifier.rs (L : Lib) (v : verifier) (h : Option Hash) (c : Sha) (k : Option RSAKey) :
    verifier × Option Hash × Option Error :=
  match h, k with
  | none, _ => (v, h, some .ErrUnsupportedAlg)
  | some _, none => (v, h, some .ErrUnsupportedAlg)
  | some h0, some k0 =>
      let (v1, h1) := v.hashHeaderPayload L h0
      match v1.base64Decode v1.signToken with
      | (v2, some err) => (v2, some h1, some err)
      | (v2, none) => (v2, some h1, L.verifyPKCS1v15 k0 c v2.hashBuffer v2.base64Buffer)

/-- `func (v *verifier) ps(h hash.Hash, c crypto.Hash, k *rsa.PrivateKey, o *rsa.PSSOptions) error`. -/
def verifier.ps (L : Lib) (v : verifier) (h : Option Hash) (c : Sha) (k : Option RSAKey)
    (o : Option PSSOptions) : verifier × Option Hash × Option Error :=
  match h, k with
  | none, _ => (v, h, some .ErrUnsupportedAlg)
  | some _, none => (v, h, some .ErrUnsupportedAlg)
  | some h0, some k0 =>
      let (v1, h1) := v.hashHeaderPayload L h0
      match v1.base64Decode v1.signToken with
      | (v2, some err) => (v2, some h1, some err)
      | (v2, none) => (v2, some h1, L.verifyPSS k0 c v2.hashBuffer v2.base64Buffer o)

/-- What `Verify` did: the three returned values, the calls made on the
provider, and the verifier handed back to `verifierPool` (`none` when the
function returned before `verifierPool.Put(v)`). -/
structure VerifyEffect where
  header : Option Claims
  payload : Option Claims
  err : Option Error
  calls : List Call
  pooled : Option verifier
  deriving DecidableEq, Repr

/-- The `switch strings.ToUpper(alg)` of `Verify`: the verifier after the
family check, the provider calls in order, and `err`. -/
def verifier.dispatch (L : Lib) (v : verifier) (alg : String) (provider : Provider) :
    verifier × List Call × Option Error :=
  let u := L.toUpper alg
  if u = "HS256" then
    let r := v.hs L provider.GetHS256
    (r.1, [.GetHS256, .PutHS256 r.2.1], r.2.2)
  else if u = "HS384" then
    let r := v.hs L provider.GetHS384
    (r.1, [.GetHS384, .PutHS384 r.2.1], r.2.2)
  else if u = "HS512" then
    let r := v.hs L provider.GetHS512
    (r.1, [.GetHS512, .PutHS512 r.2.1], r.2.2)
  else if u = "ES256" then
    let r := v.es L provider.GetSha256 provider.ES256Key
    (r.1, [.GetSha256, .ES256Key, .PutSha256 r.2.1], r.2.2)
  else if u = "ES384" then
    let r := v.es L provider.GetSha384 provider.ES384Key
    (r.1, [.GetSha384, .ES384Key, .PutSha384 r.2.1], r.2.2)
  else if u = "ES512" then
    let r := v.es L provider.GetSha512 provider.ES512Key
    (r.1, [.GetSha512, .ES512Key, .PutSha512 r.2.1], r.2.2)
  else if u = "RS256" then
    let r := v.rs L provider.GetSha256 .SHA256 provider.RS256Key
    (r.1, [.GetSha256, .RS256Key, .PutSha256 r.2.1], r.2.2)
  else if u = "RS384" then
    let r := v.rs L provider.GetSha384 .SHA384 provider.RS384Key
    (r.1, [.GetSha384, .RS384Key, .PutSha384 r.2.1], r.2.2)
  else if u = "RS512" then
    let r := v.rs L provider.GetSha512 .SHA512 provider.RS512Key
    (r.1, [.GetSha512, .RS512Key, .PutSha512 r.2.1], r.2.2)
  else if u = "PS256" then
    let r := v.ps L provider.GetSha256 .SHA256 provider.PS256Key provider.PS256Opt
    (r.1, [.GetSha256, .PS256Key, .PS256Opt, .PutSha256 r.2.1], r.2.2)
  else if u = "PS384" then
    let r := v.ps L provider.GetSha384 .SHA384 provider.PS384Key provider.PS384Opt
    (r.1, [.GetSha384, .PS384Key, .PS384Opt, .PutSha384 r.2.1], r.2.2)
  else if u = "PS512" then
    let r := v.ps L provider.GetSha512 .SHA512 provider.PS512Key provider.PS512Opt
    (r.1, [.GetSha512, .PS512Key, .PS512Opt, .PutSha512 r.2.1], r.2.2)
  else (v, [], some (.unsupportedAlgorithm alg))

/-- `func Verify(token string, provider Provider) (header, payload Claims, err error)`,
run on the verifier `v` that `verifierPool.Get()` returned. -/
def Verify (L : Lib) (v : verifier) (token : Bytes) (provider : Provider) : VerifyEffect :=
  match v.parseToken token with
  | (_, some err) => { header := none, payload := none, err := some err, calls := [], pooled := none }
  | (v1, none) =>
      match v1.base64Decode v1.headerToken with
      | (_, some err) =>
          { header := none, payload := none, err := some err, calls := [], pooled := none }
      | (v2, none) =>
          let v3 := { v2 with jsonBuffer := v2.base64Buffer }
          match L.jsonDecode v3.jsonPending v3.jsonBuffer with
          | .error err =>
              { header := none, payload := none, err := some err, calls := [], pooled := none }
          | .ok (header, pending) =>
              let v4 := { v3 with jsonPending := pending }
              let s := match header with
                | none => none
                | some m => m.get "alg"
              match s with
              | some (.str alg) =>
                  match v4.dispatch L alg provider with
                  | (_, calls, some err) =>
                      { header := none, payload := none, err := some err, calls := calls,
                        pooled := none }
                  | (v5, calls, none) =>
                      match v5.base64Decode v5.payloadToken with
                      | (_, some err) =>
                          { header := none, payload := none, err := some err, calls := calls,
                            pooled := none }
                      | (v6, none) =>
                          let v7 := { v6 with jsonBuffer := v6.base64Buffer }
                          match L.jsonDecode v7.jsonPending v7.jsonBuffer with
                          | .error err =>
                              { header := none, payload := none, err := some err,
                                calls := calls, pooled := none }
                          | .ok (payload, pending1) =>
                              let v8 := { v7 with jsonPending := pending1 }
                              { header := header, payload := payload, err := none,
                                calls := calls, pooled := some v8 }
              | _ =>
                  { header := none, payload := none, err := some .ErrInvalidToken, calls := [],
                    pooled := none }

/-! ## Statement vocabulary -/

/-- The digest object a provider hands out for an HS algorithm code. -/
def Provider.GetHS (p : Provider) (alg : String) : Option Hash :=
  if alg = "HS256" then p.GetHS256
  else if alg = "HS384" then p.GetHS384
  else if alg = "HS512" then p.GetHS512
  else none

/-- JSON white space. -/
def isSpace (b : Byte) : Bool := b.val = 32 || b.val = 9 || b.val = 10 || b.val = 13

/-- A byte string of JSON white space only. -/
def onlySpace (bs : Bytes) : Prop := ∀ x ∈ bs, isSpace x = true

/-- What reading back the JSON text of a map keeps: a nil map stays nil; a
non-nil map keeps every key, and a value of dynamic type `string` or `Alg`
comes back as the same `string`. -/
def JsonImage : Option Claims → Option Claims → Prop
  | none, none => True
  | some m, some m1 =>
      (∀ k, (m.get k).isSome = true → (m1.get k).isSome = true) ∧
      (∀ k a, (m.get k = some (.str a) ∨ m.get k = some (.alg a)) → m1.get k = some (.str a))
  | _, _ => False

/-- Entry by entry form of `JsonImage` for two non-nil maps. -/
def imageOK (m m1 : Claims) : Bool :=
  m.all fun kv =>
    match kv.2 with
    | .str a => decide (m1.get kv.1 = some (.str a))
    | .alg a => decide (m1.get kv.1 = some (.str a))
    | _ => (m1.get kv.1).isSome

/-! ## A small library instance and sample values, for evaluation -/

/-- Sample header map of a caller. -/
def demoHeader : Claims := [("kid", .str "k1")]

/-- Sample payload map of a caller. -/
def demoPayload : Claims := [("role", .str "admin")]

/-- The sample header as the encoder leaves it for `HS256`. -/
def demoHeaderSigned : Claims := [("kid", .str "k1"), ("jwt", .str "JWT"), ("alg", .alg "HS256")]

/-- The sample header as a JSON decoder returns it. -/
def demoHeaderDecoded : Claims := [("alg", .str "HS256"), ("jwt", .str "JWT"), ("kid", .str "k1")]

/-- The sample header as the encoder leaves it for `ES256`. -/
def demoHeaderSignedES : Claims :=
  [("kid", .str "k1"), ("jwt", .str "JWT"), ("alg", .alg "ES256")]

/-- The `ES256` sample header as a JSON decoder returns it. -/
def demoHeaderDecodedES : Claims :=
  [("alg", .str "ES256"), ("jwt", .str "JWT"), ("kid", .str "k1")]

/-- The sample header as the encoder leaves it for `RS256`. -/
def demoHeaderSignedRS : Claims :=
  [("kid", .str "k1"), ("jwt", .str "JWT"), ("alg", .alg "RS256")]

/-- The `RS256` sample header as a JSON decoder returns it. -/
def demoHeaderDecodedRS : Claims :=
  [("alg", .str "RS256"), ("jwt", .str "JWT"), ("kid", .str "k1")]

/-- A stand-in for the library: the digest is the key followed by the length
of the data; the JSON codec knows the sample maps, the nil map (`null`) and a
header with the algorithm `XX999`; an RSA signature is the key number followed
by the digest (after the random byte for PSS) and RSA verification accepts
exactly that; ECDSA signing returns the pair `(256, 1)` and ECDSA verification
accepts that pair only. -/
def demoLib : Lib where
  digest := fun _ key data => key.getD [] ++ [byte data.length]
  jsonEncode := fun c =>
    if c = some demoHeaderSigned then .ok (ascii "H\n")
    else if c = some demoHeaderSignedES then .ok (ascii "E\n")
    else if c = some demoPayload then .ok (ascii "P\n")
    else if c = some demoHeaderSignedRS then .ok (ascii "R\n")
    else if c = none then .ok (ascii "null\n")
    else .error (.lib 1)
  jsonDecode := fun _ b =>
    if b = ascii "H\n" then .ok (some demoHeaderDecoded, [10])
    else if b = ascii "E\n" then .ok (some demoHeaderDecodedES, [10])
    else if b = ascii "P\n" then .ok (some demoPayload, [10])
    else if b = ascii "R\n" then .ok (some demoHeaderDecodedRS, [10])
    else if b = ascii "null\n" then .ok (none, [10])
    else if b = ascii "X\n" then .ok (some [("alg", .str "XX999")], [10])
    else .error (.lib 2)
  toUpper := fun a => String.mk (a.data.map Char.toUpper)
  signPKCS1v15 := fun _ k _ d => .ok (byte k.id :: d)
  verifyPKCS1v15 := fun k _ d sig => if sig = byte k.id :: d then none else some (.lib 4)
  signPSS := fun rnd k _ d _ => .ok (byte rnd :: byte k.id :: d)
  verifyPSS := fun k _ d sig _ => if sig.drop 1 = byte k.id :: d then none else some (.lib 6)
  ecdsaSign := fun _ _ _ => .ok (256, 1)
  ecdsaVerify := fun _ _ r s => decide (r = 256 ∧ s = 1)

/-- A provider with the secret `"k"` for the HS algorithms, plain digests and
no asymmetric key. -/
def demoProvider : Provider where
  GetHS256 := some (hmac.New .SHA256 (ascii "k"))
  GetHS384 := some (hmac.New .SHA384 (ascii "k"))
  GetHS512 := some (hmac.New .SHA512 (ascii "k"))
  GetSha256 := some { sha := .SHA256, key := none, data := [] }
  GetSha384 := some { sha := .SHA384, key := none, data := [] }
  GetSha512 := some { sha := .SHA512, key := none, data := [] }
  RS256Key := none
  RS384Key := none
  RS512Key := none
  ES256Key := none
  ES384Key := none
  ES512Key := none
  PS256Key := none
  PS384Key := none
  PS512Key := none
  PS256Opt := none
  PS384Opt := none
  PS512Opt := none

/-- The sample provider with an ECDSA key for `ES256`. -/
def demoProviderES : Provider := { demoProvider with ES256Key := some { id := 7 } }

/-- The sample provider with an RSA key for `RS256`. -/
def demoProviderRS : Provider := { demoProvider with RS256Key := some { id := 9 } }

/-- A signer as `signerPool.New` makes it. -/
def newSigner : signer :=
  { jsonHeader := [], jsonPayload := [], base64Buffer := [], tokenBuffer := [], signBuffer := [],
    bigint := { b := [], r := 0, s := 0 } }

/-- A verifier as `verifierPool.New` makes it. -/
def newVerifier : verifier :=
  { bigint := { b := [], r := 0, s := 0 }, headerToken := [], payloadToken := [],
    headerPayloadToken := [], signToken := [], jsonPending := [], jsonBuffer := [],
    base64Buffer := [], hashBuffer := [] }

/-! ## Statement vocabulary for the asymmetric algorithms and for letter case -/

/-- ASCII upper-casing of a string: what `strings.ToUpper` does to a string of
ASCII characters. -/
def asciiUpper (a : String) : String := String.mk (a.data.map Char.toUpper)

/-- Assumption on `strings.ToUpper`: on a string of ASCII characters it is
ASCII upper-casing. -/
def ToUpperASCII (L : Lib) : Prop :=
  ∀ a : String, (∀ c ∈ a.data, c.toNat < 128) → L.toUpper a = asciiUpper a

/-- The plain digest object a provider hands out for an RS, ES or PS code. -/
def Provider.shaOf (p : Provider) (alg : String) : Option Hash :=
  if alg = "RS256" ∨ alg = "ES256" ∨ alg = "PS256" then p.GetSha256
  else if alg = "RS384" ∨ alg = "ES384" ∨ alg = "PS384" then p.GetSha384
  else if alg = "RS512" ∨ alg = "ES512" ∨ alg = "PS512" then p.GetSha512
  else none

/-- The RSA key a provider returns for an RS or PS code. -/
def Provider.rsaKeyOf (p : Provider) (alg : String) : Option RSAKey :=
  if alg = "RS256" then p.RS256Key
  else if alg = "RS384" then p.RS384Key
  else if alg = "RS512" then p.RS512Key
  else if alg = "PS256" then p.PS256Key
  else if alg = "PS384" then p.PS384Key
  else if alg = "PS512" then p.PS512Key
  else none

/-- The ECDSA key a provider returns for an ES code. -/
def Provider.ecKeyOf (p : Provider) (alg : String) : Option ECKey :=
  if alg = "ES256" then p.ES256Key
  else if alg = "ES384" then p.ES384Key
  else if alg = "ES512" then p.ES512Key
  else none

/-- The PSS options a provider returns for a PS code. -/
def Provider.pssOptOf (p : Provider) (alg : String) : Option PSSOptions :=
  if alg = "PS256" then p.PS256Opt
  else if alg = "PS384" then p.PS384Opt
  else if alg = "PS512" then p.PS512Opt
  else none

/-- The `crypto.Hash` constant the package passes to the RSA primitives for a
code. -/
def cryptoHashOf (alg : String) : Sha :=
  if alg = "RS256" ∨ alg = "PS256" then .SHA256
  else if alg = "RS384" ∨ alg = "PS384" then .SHA384
  else .SHA512

/-- The RS codes. -/
def isRS (alg : String) : Bool := alg = "RS256" ∨ alg = "RS384" ∨ alg = "RS512"

/-- The PS codes. -/
def isPS (alg : String) : Bool := alg = "PS256" ∨ alg = "PS384" ∨ alg = "PS512"

/-- The ES codes. -/
def isES (alg : String) : Bool := alg = "ES256" ∨ alg = "ES384" ∨ alg = "ES512"

/-- The RSA signing primitive of a code: `rsa.SignPKCS1v15` for RS,
`rsa.SignPSS` otherwise. -/
def rsaSign (L : Lib) (alg : String) (rnd : Nat) (k : RSAKey) (d : Bytes)
    (o : Option PSSOptions) : Except Error Bytes :=
  if isRS alg then L.signPKCS1v15 rnd k (cryptoHashOf alg) d
  else L.signPSS rnd k (cryptoHashOf alg) d o

/-- The RSA verification primitive of a code: `rsa.VerifyPKCS1v15` for RS,
`rsa.VerifyPSS` otherwise. -/
def rsaVerify (L : Lib) (alg : String) (k : RSAKey) (d sig : Bytes) (o : Option PSSOptions) :
    Option Error :=
  if isRS alg then L.verifyPKCS1v15 k (cryptoHashOf alg) d sig
  else L.verifyPSS k (cryptoHashOf alg) d sig o

/-- The provider calls `Verify` makes for an RS, ES or PS code when the
provider has no key for it: the digest is taken, the key (and for PS the
options) asked for, and the untouched digest handed back. -/
def absentKeyCalls (p : Provider) (alg : String) : List Call :=
  if alg = "ES256" then [.GetSha256, .ES256Key, .PutSha256 p.GetSha256]
  else if alg = "ES384" then [.GetSha384, .ES384Key, .PutSha384 p.GetSha384]
  else if alg = "ES512" then [.GetSha512, .ES512Key, .PutSha512 p.GetSha512]
  else if alg = "RS256" then [.GetSha256, .RS256Key, .PutSha256 p.GetSha256]
  else if alg = "RS384" then [.GetSha384, .RS384Key, .PutSha384 p.GetSha384]
  else if alg = "RS512" then [.GetSha512, .RS512Key, .PutSha512 p.GetSha512]
  else if alg = "PS256" then [.GetSha256, .PS256Key, .PS256Opt, .PutSha256 p.GetSha256]
  else if alg = "PS384" then [.GetSha384, .PS384Key, .PS384Opt, .PutSha384 p.GetSha384]
  else if alg = "PS512" then [.GetSha512, .PS512Key, .PS512Opt, .PutSha512 p.GetSha512]
  else []

/-- An error value that a library call returned and that the package hands on
unchanged: `base64.CorruptInputError`, the error of `json.Decoder.Decode`, or
the error of `rsa.VerifyPKCS1v15` or `rsa.VerifyPSS`. -/
def LibraryError (L : Lib) (e : Error) : Prop :=
  e = .corruptInput ∨
    (∃ pend b, L.jsonDecode pend b = .error e) ∨
    (∃ k c d sg, L.verifyPKCS1v15 k c d sg = some e) ∨
    (∃ k c d sg o, L.verifyPSS k c d sg o = some e)

/-! ## provider.go : DefaultProvider -/

/-- `sync.Pool` holding digests: the `New` function (nil when unset) and the
objects that were put back.  `Get` hands out the object put back last, and
calls `New` when there is none. -/
structure Pool where
  New : Option (Unit → Hash)
  items : List Hash

/-- `pool.Get()`: nil when the pool is empty and `New` is nil. -/
def Pool.Get (p : Pool) : Option Hash × Pool :=
  match p.items with
  | h :: rest => (some h, { p with items := rest })
  | [] => (p.New.map fun f => f (), p)

/-- `pool.Put(h)`. -/
def Pool.Put (p : Pool) (h : Hash) : Pool := { p with items := h :: p.items }

/-- `crypto.SHA256.New()`, `crypto.SHA384.New()`, `crypto.SHA512.New()`. -/
def Sha.New (sha : Sha) : Hash := { sha := sha, key := none, data := [] }

/-- `type DefaultProvider struct`. -/
structure DefaultProvider where
  sha256 : Pool
  sha384 : Pool
  sha512 : Pool
  hs256 : Pool
  hs384 : Pool
  hs512 : Pool
  rs256 : Option RSAKey
  rs384 : Option RSAKey
  rs512 : Option RSAKey
  es256 : Option ECKey
  es384 : Option ECKey
  es512 : Option ECKey
  ps256 : Option RSAKey
  ps384 : Option RSAKey
  ps512 : Option RSAKey
  ps256Opt : Option PSSOptions
  ps384Opt : Option PSSOptions
  ps512Opt : Option PSSOptions

/-- The keys that `rsa.GenerateKey(rand.Reader, 2048)` and
`ecdsa.GenerateKey(curve, rand.Reader)` return at their n-th call; nil when
the call fails (the error is dropped by the `Gen` methods). -/
structure KeyGen where
  rsa : Nat → Option RSAKey
  ecdsa : Nat → Option ECKey

/-- `new(DefaultProvider)`: the zero value. -/
def DefaultProvider.zero : DefaultProvider where
  sha256 := { New := none, items := [] }
  sha384 := { New := none, items := [] }
  sha512 := { New := none, items := [] }
  hs256 := { New := none, items := [] }
  hs384 := { New := none, items := [] }
  hs512 := { New := none, items := [] }
  rs256 := none
  rs384 := none
  rs512 := none
  es256 := none
  es384 := none
  es512 := none
  ps256 := none
  ps384 := none
  ps512 := none
  ps256Opt := none
  ps384Opt := none
  ps512Opt := none

/-- `func NewDefaultProvider(hsSecret256, hsSecret384, hsSecret512 string)
*DefaultProvider`.  The nine `Gen` calls are made in the order RS, ES, PS. -/
def NewDefaultProvider (g : KeyGen) (hsSecret256 hsSecret384 hsSecret512 : Bytes) :
    DefaultProvider :=
  { DefaultProvider.zero with
    sha256 := { New := some fun _ => Sha.New .SHA256, items := [] }
    sha384 := { New := some fun _ => Sha.New .SHA384, items := [] }
    sha512 := { New := some fun _ => Sha.New .SHA512, items := [] }
    hs256 := { New := some fun _ => hmac.New .SHA256 hsSecret256, items := [] }
    hs384 := { New := some fun _ => hmac.New .SHA384 hsSecret384, items := [] }
    hs512 := { New := some fun _ => hmac.New .SHA512 hsSecret512, items := [] }
    rs256 := g.rsa 0
    rs384 := g.rsa 1
    rs512 := g.rsa 2
    es256 := g.ecdsa 0
    es384 := g.ecdsa 1
    es512 := g.ecdsa 2
    ps256 := g.rsa 3
    ps384 := g.rsa 4
    ps512 := g.rsa 5 }

/-- `func (p *DefaultProvider) GetHS256() hash.Hash`: the type assertion
panics on a nil object. -/
def DefaultProvider.GetHS256 (p : DefaultProvider) : Outcome Hash × DefaultProvider :=
  match p.hs256.Get with
  | (some h, pool) => (.returned h, { p with hs256 := pool })
  | (none, pool) => (.panicked, { p with hs256 := pool })

/-- `func (p *DefaultProvider) GetHS384() hash.Hash`. -/
def DefaultProvider.GetHS384 (p : DefaultProvider) : Outcome Hash × DefaultProvider :=
  match p.hs384.Get with
  | (some h, pool) => (.returned h, { p with hs384 := pool })
  | (none, pool) => (.panicked, { p with hs384 := pool })

/-- `func (p *DefaultProvider) GetHS512() hash.Hash`. -/
def DefaultProvider.GetHS512 (p : DefaultProvider) : Outcome Hash × DefaultProvider :=
  match p.hs512.Get with
  | (some h, pool) => (.returned h, { p with hs512 := pool })
  | (none, pool) => (.panicked, { p with hs512 := pool })

/-- `func (p *DefaultProvider) SetHS256Key(secret string)`. -/
def DefaultProvider.SetHS256Key (p : DefaultProvider) (secret : Bytes) : DefaultProvider :=
  { p with hs256 := { p.hs256 with New := some fun _ => hmac.New .SHA256 secret } }

/-- `func (p *DefaultProvider) SetHS384Key(secret string)`: the source passes
`crypto.SHA256.New` to `hmac.New`. -/
def DefaultProvider.SetHS384Key (p : DefaultProvider) (secret : Bytes) : DefaultProvider :=
  { p with hs384 := { p.hs384 with New := some fun _ => hmac.New .SHA256 secret } }

/-- `func (p *DefaultProvider) SetHS512Key(secret string)`: the source passes
`crypto.SHA256.New` to `hmac.New`. -/
def DefaultProvider.SetHS512Key (p : DefaultProvider) (secret : Bytes) : DefaultProvider :=
  { p with hs512 := { p.hs512 with New := some fun _ => hmac.New .SHA256 secret } }

/-- The digest that the constructor of a pool builds, nil when `New` is nil. -/
def Pool.fresh (p : Pool) : Option Hash := p.New.map fun f => f ()

/-- A key generator whose calls all fail. -/
def noKeys : KeyGen := { rsa := fun _ => none, ecdsa := fun _ => none }

/-- A library whose digest starts with a byte naming the hash function (1, 2,
3 for SHA-256, SHA-384, SHA-512) and agrees with `demoLib` elsewhere. -/
def demoLibSha : Lib :=
  { demoLib with
    digest := fun sha key data =>
      (match sha with
        | .SHA256 => (1 : Byte)
        | .SHA384 => 2
        | .SHA512 => 3) :: (key.getD [] ++ [byte data.length]) }

/-! ## Caller-owned maps -/

/-- Address of a map object: a Go map value is a reference to it. -/
abbrev Ref := Nat

/-- The content of every map object. -/
abbrev Heap := Ref → Claims

/-- Map write `m[k] = v` through the reference `a`. -/
def Heap.store (M : Heap) (a : Ref) (k : String) (v : Value) : Heap :=
  fun c => if c = a then (M c).set k v else M c

/-- `func (s *signer) encode(alg Alg, header, payload Claims) (err error)`
with the two map arguments as references (`none` is the nil map) into the
caller's map objects `M`.  Returns the signer, the map objects after the call
and the result.  The payload is serialised after the two writes through
`header`. -/
def signer.encodeRef (L : Lib) (s : signer) (alg : String) (M : Heap)
    (header payload : Option Ref) : signer × Heap × Outcome (Option Error) :=
  match header with
  | none => (s, M, .panicked)
  | some a =>
      let M1 := M.store a "jwt" (.str "JWT")
      let M2 := M1.store a "alg" (.alg alg)
      let s1 := { s with jsonHeader := [] }
      match L.jsonEncode (some (M2 a)) with
      | .error e => (s1, M2, .returned (some e))
      | .ok hb =>
          let s2 := { s1 with jsonHeader := hb, jsonPayload := [] }
          match L.jsonEncode (payload.map M2) with
          | .error e => (s2, M2, .returned (some e))
          | .ok pb =>
              let s3 := { s2 with jsonPayload := pb, tokenBuffer := [] }
              let s4 := s3.base64 s3.jsonHeader
              let s5 := { s4 with tokenBuffer := s4.tokenBuffer ++ s4.base64Buffer }
              let s6 := { s5 with tokenBuffer := s5.tokenBuffer ++ [dot] }
              let s7 := s6.base64 s6.jsonPayload
              let s8 := { s7 with tokenBuffer := s7.tokenBuffer ++ s7.base64Buffer }
              (s8, M2, .returned none)

/-- Two map objects: the sample header at address 0 and the sample payload at
every other address. -/
def demoHeap : Heap := fun c => if c = 0 then demoHeader else demoPayload

/-! ## sign.go on map references

The sign functions with their two `Claims` arguments as references into the
caller's map objects, built on `signer.encodeRef`.  They differ from the
functions above in what the payload argument denotes when the caller passes
the same map object as header and as payload. -/

/-- What a family method of the signer did: the signer and the caller's map
objects after the call, the hash object after the call, the byte strings
passed to `w.Write` in order, and the result. -/
structure SignerEffectRef where
  s : signer
  maps : Heap
  hash : Option Hash
  written : List Bytes
  result : Outcome (Option Error)

/-- Common tail `s.base64(sign); tokenBuffer = append(tokenBuffer, '.');
tokenBuffer = append(tokenBuffer, base64Buffer...); _, err = w.Write(tokenBuffer)`. -/
def signer.finishRef (s : signer) (w : Writer) (maps : Heap) (hash : Option Hash)
    (sign : Bytes) : SignerEffectRef :=
  let s1 := s.base64 sign
  let s2 := { s1 with tokenBuffer := s1.tokenBuffer ++ [dot] }
  let s3 := { s2 with tokenBuffer := s2.tokenBuffer ++ s2.base64Buffer }
  { s := s3, maps := maps, hash := hash, written := [s3.tokenBuffer],
    result := .returned (w s3.tokenBuffer) }

/-- `func (s *signer) hs(w, alg, header, payload, hash) (err error)` on map
references.  Calling `Write` on a nil `hash.Hash` panics. -/
def signer.hsRef (L : Lib) (s : signer) (w : Writer) (alg : String) (M : Heap)
    (header payload : Option Ref) (hash : Option Hash) : SignerEffectRef :=
  match s.encodeRef L alg M header payload with
  | (s1, M1, .panicked) =>
      { s := s1, maps := M1, hash := hash, written := [], result := .panicked }
  | (s1, M1, .returned (some e)) =>
      { s := s1, maps := M1, hash := hash, written := [], result := .returned (some e) }
  | (s1, M1, .returned none) =>
      match hash with
      | none => { s := s1, maps := M1, hash := none, written := [], result := .panicked }
      | some h =>
          let h1 := h.Write s1.tokenBuffer
          let s2 := { s1 with signBuffer := [] }
          let s3 := { s2 with signBuffer := h1.Sum L s2.signBuffer }
          s3.finishRef w M1 (some h1) s3.signBuffer

/-- `func (s *signer) rs(w, alg, header, payload, hash, sha, key) (err error)`
on map references.  `rsa.SignPKCS1v15` dereferences the key, so a nil key
panics. -/
def signer.rsRef (L : Lib) (s : signer) (w : Writer) (rnd : Nat) (alg : String) (M : Heap)
    (header payload : Option Ref) (hash : Option Hash) (sha : Sha) (key : Option RSAKey) :
    SignerEffectRef :=
  match s.encodeRef L alg M header payload with
  | (s1, M1, .panicked) =>
      { s := s1, maps := M1, hash := hash, written := [], result := .panicked }
  | (s1, M1, .returned (some e)) =>
      { s := s1, maps := M1, hash := hash, written := [], result := .returned (some e) }
  | (s1, M1, .returned none) =>
      match hash with
      | none => { s := s1, maps := M1, hash := none, written := [], result := .panicked }
      | some h =>
          let h1 := h.Write s1.tokenBuffer
          let s2 := { s1 with signBuffer := [] }
          let s3 := { s2 with signBuffer := h1.Sum L s2.signBuffer }
          match key with
          | none =>
              { s := s3, maps := M1, hash := some h1, written := [], result := .panicked }
          | some k =>
              match L.signPKCS1v15 rnd k sha s3.signBuffer with
              | .error e =>
                  { s := s3, maps := M1, hash := some h1, written := [],
                    result := .returned (some e) }
              | .ok sign => s3.finishRef w M1 (some h1) sign

/-- `func (s *signer) es(w, alg, header, payload, hash, key) (err error)` on
map references.  `ecdsa.Sign` dereferences the key, so a nil key panics. -/
def signer.esRef (L : Lib) (s : signer) (w : Writer) (rnd : Nat) (alg : String) (M : Heap)
    (header payload : Option Ref) (hash : Option Hash) (key : Option ECKey) : SignerEffectRef :=
  match s.encodeRef L alg M header payload with
  | (s1, M1, .panicked) =>
      { s := s1, maps := M1, hash := hash, written := [], result := .panicked }
  | (s1, M1, .returned (some e)) =>
      { s := s1, maps := M1, hash := hash, written := [], result := .returned (some e) }
  | (s1, M1, .returned none) =>
      match hash with
      | none => { s := s1, maps := M1, hash := none, written := [], result := .panicked }
      | some h =>
          let h1 := h.Write s1.tokenBuffer
          let s2 := { s1 with signBuffer := [] }
          let s3 := { s2 with signBuffer := h1.Sum L s2.signBuffer }
          match key with
          | none =>
              { s := s3, maps := M1, hash := some h1, written := [], result := .panicked }
          | some k =>
              match L.ecdsaSign rnd k s3.signBuffer with
              | .error e =>
                  { s := s3, maps := M1, hash := some h1, written := [],
                    result := .returned (some e) }
              | .ok (rb, sb) =>
                  match s3.bigint.Encode rb sb with
                  | none =>
                      { s := s3, maps := M1, hash := some h1, written := [],
                        result := .panicked }
                  | some (bi, enc) =>
                      let s4 := { s3 with bigint := bi }
                      s4.finishRef w M1 (some h1) enc

/-- `func (s *signer) ps(w, alg, header, payload, hash, sha, key, opt) (err error)`
on map references.  `rsa.SignPSS` dereferences the key, so a nil key panics. -/
def signer.psRef (L : Lib) (s : signer) (w : Writer) (rnd : Nat) (alg : String) (M : Heap)
    (header payload : Option Ref) (hash : Option Hash) (sha : Sha) (key : Option RSAKey)
    (opt : Option PSSOptions) : SignerEffectRef :=
  match s.encodeRef L alg M header payload with
  | (s1, M1, .panicked) =>
      { s := s1, maps := M1, hash := hash, written := [], result := .panicked }
  | (s1, M1, .returned (some e)) =>
      { s := s1, maps := M1, hash := hash, written := [], result := .returned (some e) }
  | (s1, M1, .returned none) =>
      match hash with
      | none => { s := s1, maps := M1, hash := none, written := [], result := .panicked }
      | some h =>
          let h1 := h.Write s1.tokenBuffer
          let s2 := { s1 with signBuffer := [] }
          let s3 := { s2 with signBuffer := h1.Sum L s2.signBuffer }
          match key with
          | none =>
              { s := s3, maps := M1, hash := some h1, written := [], result := .panicked }
          | some k =>
              match L.signPSS rnd k sha s3.signBuffer opt with
              | .error e =>
                  { s := s3, maps := M1, hash := some h1, written := [],
                    result := .returned (some e) }
              | .ok sign => s3.finishRef w M1 (some h1) sign

/-- What a package level sign function did: the signer it took from
`signerPool` as it is after the call, the caller's map objects after the call,
the byte strings passed to `w.Write`, the calls made on the provider, and the
result.  After a panic the calls that follow the family method are not made. -/
structure SignEffectRef where
  s : signer
  maps : Heap
  written : List Bytes
  calls : List Call
  result : Outcome (Option Error)

/-- Shared shape `err := s.family(...); provider.Put(h); signerPool.Put(s);
return err` of the twelve `SignXxxTo` functions. -/
def SignEffectRef.ofFamily (pre : List Call) (put : Option Hash → Call) (e : SignerEffectRef) :
    SignEffectRef :=
  match e.result with
  | .panicked =>
      { s := e.s, maps := e.maps, written := e.written, calls := pre, result := .panicked }
  | .returned err =>
      { s := e.s, maps := e.maps, written := e.written, calls := pre ++ [put e.hash],
        result := .returned err }

/-- `func SignHS256To(w io.Writer, header, payload Claims, provider Provider) error`. -/
def SignHS256ToRef (L : Lib) (s : signer) (w : Writer) (M : Heap) (header payload : Option Ref)
    (provider : Provider) : SignEffectRef :=
  let h := provider.GetHS256
  SignEffectRef.ofFamily [.GetHS256] .PutHS256 (s.hsRef L w "HS256" M header payload h)

/-- `func SignHS384To(w io.Writer, header, payload Claims, provider Provider) error`. -/
def SignHS384ToRef (L : Lib) (s : signer) (w : Writer) (M : Heap) (header payload : Option Ref)
    (provider : Provider) : SignEffectRef :=
  let h := provider.GetHS384
  SignEffectRef.ofFamily [.GetHS384] .PutHS384 (s.hsRef L w "HS384" M header payload h)

/-- `func SignHS512To(w io.Writer, header, payload Claims, provider Provider) error`. -/
def SignHS512ToRef (L : Lib) (s : signer) (w : Writer) (M : Heap) (header payload : Option Ref)
    (provider : Provider) : SignEffectRef :=
  let h := provider.GetHS512
  SignEffectRef.ofFamily [.GetHS512] .PutHS512 (s.hsRef L w "HS512" M header payload h)

/-- `func SignRS256To(w io.Writer, header, payload Claims, provider Provider) error`. -/
def SignRS256ToRef (L : Lib) (s : signer) (w : Writer) (rnd : Nat) (M : Heap)
    (header payload : Option Ref) (provider : Provider) : SignEffectRef :=
  let h := provider.GetSha256
  SignEffectRef.ofFamily [.GetSha256, .RS256Key] .PutSha256
    (s.rsRef L w rnd "RS256" M header payload h .SHA256 provider.RS256Key)

/-- `func SignRS384To(w io.Writer, header, payload Claims, provider Provider) error`. -/
def SignRS384ToRef (L : Lib) (s : signer) (w : Writer) (rnd : Nat) (M : Heap)
    (header payload : Option Ref) (provider : Provider) : SignEffectRef :=
  let h := provider.GetSha384
  SignEffectRef.ofFamily [.GetSha384, .RS384Key] .PutSha384
    (s.rsRef L w rnd "RS384" M header payload h .SHA384 provider.RS384Key)

/-- `func SignRS512To(w io.Writer, header, payload Claims, provider Provider) error`. -/
def SignRS512ToRef (L : Lib) (s : signer) (w : Writer) (rnd : Nat) (M : Heap)
    (header payload : Option Ref) (provider : Provider) : SignEffectRef :=
  let h := provider.GetSha512
  SignEffectRef.ofFamily [.GetSha512, .RS512Key] .PutSha512
    (s.rsRef L w rnd "RS512" M header payload h .SHA512 provider.RS512Key)

/-- `func SignES256To(w io.Writer, header, payload Claims, provider Provider) error`. -/
def SignES256ToRef (L : Lib) (s : signer) (w : Writer) (rnd : Nat) (M : Heap)
    (header payload : Option Ref) (provider : Provider) : SignEffectRef :=
  let h := provider.GetSha256
  SignEffectRef.ofFamily [.GetSha256, .ES256Key] .PutSha256
    (s.esRef L w rnd "ES256" M header payload h provider.ES256Key)

/-- `func SignES384To(w io.Writer, header, payload Claims, provider Provider) error`. -/
def SignES384ToRef (L : Lib) (s : signer) (w : Writer) (rnd : Nat) (M : Heap)
    (header payload : Option Ref) (provider : Provider) : SignEffectRef :=
  let h := provider.GetSha384
  SignEffectRef.ofFamily [.GetSha384, .ES384Key] .PutSha384
    (s.esRef L w rnd "ES384" M header payload h provider.ES384Key)

/-- `func SignES512To(w io.Writer, header, payload Claims, provider Provider) error`. -/
def SignES512ToRef (L : Lib) (s : signer) (w : Writer) (rnd : Nat) (M : Heap)
    (header payload : Option Ref) (provider : Provider) : SignEffectRef :=
  let h := provider.GetSha512
  SignEffectRef.ofFamily [.GetSha512, .ES512Key] .PutSha512
    (s.esRef L w rnd "ES512" M header payload h provider.ES512Key)

/-- `func SignPS256To(w io.Writer, header, payload Claims, provider Provider) error`. -/
def SignPS256ToRef (L : Lib) (s : signer) (w : Writer) (rnd : Nat) (M : Heap)
    (header payload : Option Ref) (provider : Provider) : SignEffectRef :=
  let h := provider.GetSha256
  SignEffectRef.ofFamily [.GetSha256, .PS256Key, .PS256Opt] .PutSha256
    (s.psRef L w rnd "PS256" M header payload h .SHA256 provider.PS256Key provider.PS256Opt)

/-- `func SignPS384To(w io.Writer, header, payload Claims, provider Provider) error`. -/
def SignPS384ToRef (L : Lib) (s : signer) (w : Writer) (rnd : Nat) (M : Heap)
    (header payload : Option Ref) (provider : Provider) : SignEffectRef :=
  let h := provider.GetSha384
  SignEffectRef.ofFamily [.GetSha384, .PS384Key, .PS384Opt] .PutSha384
    (s.psRef L w rnd "PS384" M header payload h .SHA384 provider.PS384Key provider.PS384Opt)

/-- `func SignPS512To(w io.Writer, header, payload Claims, provider Provider) error`. -/
def SignPS512ToRef (L : Lib) (s : signer) (w : Writer) (rnd : Nat) (M : Heap)
    (header payload : Option Ref) (provider : Provider) : SignEffectRef :=
  let h := provider.GetSha512
  SignEffectRef.ofFamily [.GetSha512, .PS512Key, .PS512Opt] .PutSha512
    (s.psRef L w rnd "PS512" M header payload h .SHA512 provider.PS512Key provider.PS512Opt)

/-- `func SignTo(w io.Writer, alg Alg, header, payload Claims, provider Provider) error`
on map references.  The default case panics before anything else is done. -/
def SignToRef (L : Lib) (s : signer) (w : Writer) (rnd : Nat) (alg : String) (M : Heap)
    (header payload : Option Ref) (provider : Provider) : SignEffectRef :=
  if alg = "HS256" then SignHS256ToRef L s w M header payload provider
  else if alg = "HS384" then SignHS384ToRef L s w M header payload provider
  else if alg = "HS512" then SignHS512ToRef L s w M header payload provider
  else if alg = "RS256" then SignRS256ToRef L s w rnd M header payload provider
  else if alg = "RS384" then SignRS384ToRef L s w rnd M header payload provider
  else if alg = "RS512" then SignRS512ToRef L s w rnd M header payload provider
  else if alg = "ES256" then SignES256ToRef L s w rnd M header payload provider
  else if alg = "ES384" then SignES384ToRef L s w rnd M header payload provider
  else if alg = "ES512" then SignES512ToRef L s w rnd M header payload provider
  else if alg = "PS256" then SignPS256ToRef L s w rnd M header payload provider
  else if alg = "PS384" then SignPS384ToRef L s w rnd M header payload provider
  else if alg = "PS512" then SignPS512ToRef L s w rnd M header payload provider
  else { s := s, maps := M, written := [], calls := [], result := .panicked }

/-! ## Statement vocabulary for the round trips -/

/-- The caller's map objects after the two header writes of the encoder
through the reference `a`. -/
def Heap.inject (M : Heap) (alg : String) (a : Ref) : Heap :=
  (M.store a "jwt" (.str "JWT")).store a "alg" (.alg alg)

/-- Assumption on `encoding/json` for one JSON text `b`: a decoder that
buffers white space only reads `b` as `c1` and is left buffering white space
only. -/
def JsonReadsBack (L : Lib) (b : Bytes) (c1 : Option Claims) : Prop :=
  ∀ pend, onlySpace pend → ∃ pend1, L.jsonDecode pend b = .ok (c1, pend1) ∧ onlySpace pend1

/-- Drop leading JSON white space. -/
def skipSpace : Bytes → Bytes
  | [] => []
  | b :: rest => if isSpace b then skipSpace rest else b :: rest

/-- The sample library with a decoder that reads as a stream decoder does:
the value is taken from the buffered bytes followed by the new input, after
leading white space, and the bytes after the value stay buffered.  One letter
stands for a JSON text: `H`, `R` for the sample headers, `r` for a header with
the algorithm `rs384`, `P` for the sample payload. -/
def demoLibStream : Lib :=
  { demoLib with
    jsonDecode := fun pend b =>
      match skipSpace (pend ++ b) with
      | [] => .error (.lib 3)
      | c :: rest =>
          if c = 72 then .ok (some demoHeaderDecoded, rest)
          else if c = 82 then .ok (some demoHeaderDecodedRS, rest)
          else if c = 114 then .ok (some [("alg", .str "rs384")], rest)
          else if c = 80 then .ok (some demoPayload, rest)
          else .error (.lib 2) }

/-- An `HS256` token for the secret `"k"` whose payload text `PZ` has the
byte `Z` after its JSON value. -/
def trailingToken : Bytes :=
  base64.Encode (ascii "H\n") ++ dot :: (base64.Encode (ascii "PZ\n") ++ dot ::
    base64.Encode (demoLibStream.digest .SHA256 (some (ascii "k"))
      (base64.Encode (ascii "H\n") ++ dot :: base64.Encode (ascii "PZ\n"))))

/-- The verifier that `verifierPool` holds after `Verify` accepted
`trailingToken`: its JSON decoder still buffers `Z` and a line feed. -/
def staleVerifier : verifier :=
  { newVerifier with
    headerToken := base64.Encode (ascii "H\n")
    payloadToken := base64.Encode (ascii "PZ\n")
    headerPayloadToken := base64.Encode (ascii "H\n") ++ dot :: base64.Encode (ascii "PZ\n")
    signToken := base64.Encode (demoLibStream.digest .SHA256 (some (ascii "k"))
      (base64.Encode (ascii "H\n") ++ dot :: base64.Encode (ascii "PZ\n")))
    jsonPending := ascii "Z\n"
    jsonBuffer := ascii "PZ\n"
    base64Buffer := ascii "PZ\n"
    hashBuffer := demoLibStream.digest .SHA256 (some (ascii "k"))
      (base64.Encode (ascii "H\n") ++ dot :: base64.Encode (ascii "PZ\n")) }

/-! # Theorems -/

/-! ## base64 -/

namespace base64

theorem decodeMap_encodeURL (n : Nat) (h : n < 64) : decodeMap (encodeURL n) = some n := by
  have key : ∀ m : Fin 64, decodeMap (encodeURL m.val) = some m.val := by decide
  exact key ⟨n, h⟩

theorem Encode_eq_map (bs : Bytes) : Encode bs = (values bs).map encodeURL := by
  induction bs using values.induct with
  | case1 a b c rest ih => simp [Encode, values, ih]
  | case2 a b => simp [Encode, values]
  | case3 a => simp [Encode, values]
  | case4 => simp [Encode, values]

theorem values_lt (bs : Bytes) : ∀ v ∈ values bs, v < 64 := by
  induction bs using values.induct with
  | case1 a b c rest ih =>
      intro v hv
      simp only [values, List.mem_cons] at hv
      have ha := a.isLt
      have hb := b.isLt
      have hc := c.isLt
      rcases hv with h | h | h | h | h
      · omega
      · omega
      · omega
      · omega
      · exact ih v h
  | case2 a b =>
      intro v hv
      simp only [values, List.mem_cons, List.mem_singleton, List.not_mem_nil, or_false] at hv
      have ha := a.isLt
      have hb := b.isLt
      rcases hv with h | h | h <;> omega
  | case3 a =>
      intro v hv
      simp only [values, List.mem_cons, List.mem_singleton, List.not_mem_nil, or_false] at hv
      have ha := a.isLt
      rcases hv with h | h <;> omega
  | case4 => intro v hv; simp [values] at hv

theorem sextets_map (vs : List Nat) (h : ∀ v ∈ vs, v < 64) :
    sextets (vs.map encodeURL) = .ok vs := by
  induction vs with
  | nil => rfl
  | cons v vs ih =>
      have hv : v < 64 := h v (List.mem_cons_self _ _)
      have hvs : ∀ x ∈ vs, x < 64 := fun x hx => h x (List.mem_cons_of_mem _ hx)
      simp [sextets, decodeMap_encodeURL v hv, ih hvs]

theorem pack_values (bs : Bytes) : pack (values bs) = .ok bs := by
  induction bs using values.induct with
  | case1 a b c rest ih =>
      have ha := a.isLt
      have hb := b.isLt
      have hc := c.isLt
      simp only [values, pack, ih]
      have e1 : byte (a.val / 4 * 4 + (a.val % 4 * 16 + b.val / 16) / 16) = a := by
        apply Fin.ext; simp only [byte]; omega
      have e2 : byte ((a.val % 4 * 16 + b.val / 16) % 16 * 16 + (b.val % 16 * 4 + c.val / 64) / 4)
          = b := by
        apply Fin.ext; simp only [byte]; omega
      have e3 : byte ((b.val % 16 * 4 + c.val / 64) % 4 * 64 + c.val % 64) = c := by
        apply Fin.ext; simp only [byte]; omega
      rw [e1, e2, e3]
  | case2 a b =>
      have ha := a.isLt
      have hb := b.isLt
      simp only [values, pack]
      have e1 : byte (a.val / 4 * 4 + (a.val % 4 * 16 + b.val / 16) / 16) = a := by
        apply Fin.ext; simp only [byte]; omega
      have e2 : byte ((a.val % 4 * 16 + b.val / 16) % 16 * 16 + (b.val % 16 * 4) / 4) = b := by
        apply Fin.ext; simp only [byte]; omega
      rw [e1, e2]
  | case3 a =>
      have ha := a.isLt
      simp only [values, pack]
      have e1 : byte (a.val / 4 * 4 + (a.val % 4 * 16) / 16) = a := by
        apply Fin.ext; simp only [byte]; omega
      rw [e1]
  | case4 => rfl

/-- Decoding undoes encoding. -/
theorem Decode_Encode (bs : Bytes) : Decode (Encode bs) = .ok bs := by
  simp only [Decode, Encode_eq_map, sextets_map _ (values_lt bs), pack_values]

/-- Every character written by `Encode` belongs to the URL alphabet. -/
theorem decodeMap_of_mem_Encode (bs : Bytes) (c : Byte) (h : c ∈ Encode bs) :
    ∃ v, decodeMap c = some v := by
  rw [Encode_eq_map] at h
  obtain ⟨v, hv, rfl⟩ := List.mem_map.mp h
  exact ⟨v, decodeMap_encodeURL v (values_lt bs v hv)⟩

theorem dot_not_mem_Encode (bs : Bytes) : dot ∉ Encode bs := by
  intro h
  obtain ⟨v, hv⟩ := decodeMap_of_mem_Encode bs dot h
  have hn : decodeMap dot = none := by decide
  rw [hn] at hv
  cases hv

theorem pad_not_mem_Encode (bs : Bytes) : (61 : Byte) ∉ Encode bs := by
  intro h
  obtain ⟨v, hv⟩ := decodeMap_of_mem_Encode bs 61 h
  have hn : decodeMap 61 = none := by decide
  rw [hn] at hv
  cases hv

theorem Encode_injective (a b : Bytes) (h : Encode a = Encode b) : a = b := by
  have ha := Decode_Encode a
  rw [h, Decode_Encode b] at ha
  injection ha with ha
  exact ha.symm

end base64

/-! ## parseToken -/

theorem IndexByte_none (s : Bytes) (c : Byte) (h : IndexByte s c = none) : c ∉ s := by
  induction s with
  | nil => simp
  | cons b bs ih =>
      simp only [IndexByte] at h
      split at h
      · cases h
      · rename_i hb
        split at h
        · cases h
        · rename_i hn
          intro hm
          rcases List.mem_cons.mp hm with h1 | h1
          · exact hb h1.symm
          · exact ih hn h1

theorem IndexByte_some (s : Bytes) (c : Byte) (i : Nat) (h : IndexByte s c = some i) :
    ∃ a rest, s = a ++ c :: rest ∧ c ∉ a ∧ i = a.length := by
  induction s generalizing i with
  | nil => simp [IndexByte] at h
  | cons b bs ih =>
      simp only [IndexByte] at h
      split at h
      · rename_i hb
        injection h with h
        exact ⟨[], bs, by simp [hb], by simp, by simp [← h]⟩
      · rename_i hb
        split at h
        · rename_i j hj
          injection h with h
          obtain ⟨a, rest, h1, h2, h3⟩ := ih j hj
          refine ⟨b :: a, rest, by simp [h1], ?_, by simp [← h, h3]⟩
          intro hm
          rcases List.mem_cons.mp hm with h4 | h4
          · exact hb h4.symm
          · exact h2 h4
        · cases h

theorem IndexByte_append (a rest : Bytes) (c : Byte) (h : c ∉ a) :
    IndexByte (a ++ c :: rest) c = some a.length := by
  induction a with
  | nil => simp [IndexByte]
  | cons b bs ih =>
      have hb : b ≠ c := fun e => h (by simp [e])
      have hbs : c ∉ bs := fun e => h (List.mem_cons_of_mem _ e)
      simp [IndexByte, hb, ih hbs]

/-- Splitting performed by `parseToken` on a token with two separators. -/
theorem parseToken_split (v : verifier) (a b c : Bytes) (ha : dot ∉ a) (hb : dot ∉ b) :
    v.parseToken (a ++ dot :: (b ++ dot :: c)) =
      ({ v with headerToken := a, payloadToken := b, headerPayloadToken := a ++ dot :: b,
                signToken := c }, none) := by
  have e1 : (a ++ dot :: (b ++ dot :: c)).drop (a.length + 1) = b ++ dot :: c := by
    rw [show a ++ dot :: (b ++ dot :: c) = (a ++ [dot]) ++ (b ++ dot :: c) by simp]
    rw [List.drop_left' (by simp)]
  have e2 : (a ++ dot :: (b ++ dot :: c)).take (b.length + (a.length + 1)) = a ++ dot :: b := by
    rw [show a ++ dot :: (b ++ dot :: c) = (a ++ dot :: b) ++ (dot :: c) by simp]
    rw [List.take_left' (by simp; omega)]
  have e3 : (a ++ dot :: (b ++ dot :: c)).drop (b.length + (a.length + 1) + 1) = c := by
    rw [show a ++ dot :: (b ++ dot :: c) = (a ++ dot :: b ++ [dot]) ++ c by simp]
    rw [List.drop_left' (by simp; omega)]
  have e4 : (a ++ dot :: b).drop (a.length + 1) = b := by
    rw [show a ++ dot :: b = (a ++ [dot]) ++ b by simp]
    rw [List.drop_left' (by simp)]
  have e5 : (a ++ dot :: (b ++ dot :: c)).take a.length = a := by
    rw [List.take_left' rfl]
  simp only [verifier.parseToken, IndexByte_append a _ dot ha, e1, IndexByte_append b _ dot hb,
    e2, e3, e4, e5]

theorem parseToken_ok_iff (v : verifier) (token : Bytes) :
    (v.parseToken token).2 = none ↔ 2 ≤ token.count dot := by
  constructor
  · intro h
    simp only [verifier.parseToken] at h
    split at h
    · cases h
    · rename_i i1 h1
      obtain ⟨a, rest, e, ha, hi⟩ := IndexByte_some _ _ _ h1
      split at h
      · cases h
      · rename_i i2 h2
        subst hi
        have e1 : token.drop (a.length + 1) = rest := by
          rw [e, show a ++ dot :: rest = (a ++ [dot]) ++ rest by simp]
          rw [List.drop_left' (by simp)]
        rw [e1] at h2
        obtain ⟨b, c, e', hb, hi'⟩ := IndexByte_some _ _ _ h2
        rw [e, e']
        simp [List.count_append, List.count_cons]
        omega
  · intro h
    by_cases h1 : dot ∈ token
    · obtain ⟨a, rest, e, ha⟩ : ∃ a rest, token = a ++ dot :: rest ∧ dot ∉ a := by
        cases hI : IndexByte token dot with
        | none => exact absurd h1 (IndexByte_none _ _ hI)
        | some i =>
            obtain ⟨a, rest, e, ha, _⟩ := IndexByte_some _ _ _ hI
            exact ⟨a, rest, e, ha⟩
      by_cases h2 : dot ∈ rest
      · obtain ⟨b, c, e', hb⟩ : ∃ b c, rest = b ++ dot :: c ∧ dot ∉ b := by
          cases hI : IndexByte rest dot with
          | none => exact absurd h2 (IndexByte_none _ _ hI)
          | some i =>
              obtain ⟨a, rest, e, ha, _⟩ := IndexByte_some _ _ _ hI
              exact ⟨a, rest, e, ha⟩
        rw [e, e', parseToken_split v a b c ha hb]
      · exfalso
        rw [e] at h
        simp [List.count_append, List.count_cons, List.count_eq_zero_of_not_mem ha,
          List.count_eq_zero_of_not_mem h2] at h
    · exfalso
      rw [List.count_eq_zero_of_not_mem h1] at h
      omega

theorem parseToken_err (v : verifier) (token : Bytes) (e : Error)
    (h : (v.parseToken token).2 = some e) : e = .ErrInvalidToken := by
  simp only [verifier.parseToken] at h
  split at h
  · injection h with h; exact h.symm
  · split at h
    · injection h with h; exact h.symm
    · cases h



/-! ## big.Int bytes -/

theorem natWords_fuel (w : Nat) (hw : 0 < w) (f g x : Nat) (hf : x ≤ f) (hg : x ≤ g) :
    natWords w f x = natWords w g x := by
  induction f generalizing g x with
  | zero =>
      have hx : x = 0 := by omega
      subst hx
      cases g <;> simp [natWords]
  | succ f ih =>
      cases g with
      | zero =>
          have hx : x = 0 := by omega
          subst hx
          simp [natWords]
      | succ g =>
          simp only [natWords]
          by_cases hx : x = 0
          · simp [hx]
          · have hB : 1 < 256 ^ w := Nat.one_lt_pow (by omega) (by decide)
            have hlt : x / 256 ^ w < x := Nat.div_lt_self (by omega) hB
            simp only [hx, if_false]
            rw [ih g (x / 256 ^ w) (by omega) (by omega)]

theorem natWords_zero (w x : Nat) : natWords w x 0 = [] := by
  cases x <;> simp [natWords]

theorem natWords_pos (w : Nat) (hw : 0 < w) (x : Nat) (hx : 0 < x) :
    natWords w x x = x % 256 ^ w :: natWords w (x / 256 ^ w) (x / 256 ^ w) := by
  obtain ⟨y, rfl⟩ : ∃ y, x = y + 1 := ⟨x - 1, by omega⟩
  have hB : 1 < 256 ^ w := Nat.one_lt_pow (by omega) (by decide)
  have hlt : (y + 1) / 256 ^ w < y + 1 := Nat.div_lt_self (by omega) hB
  simp only [natWords]
  rw [if_neg (by omega)]
  rw [natWords_fuel w hw y ((y + 1) / 256 ^ w) ((y + 1) / 256 ^ w) (by omega) (le_refl _)]

theorem byte_mod (x : Nat) : byte (x % 256) = byte x := by
  apply Fin.ext; simp [byte]

theorem bigBytes_zero : bigBytes 0 = [] := by simp [bigBytes, natWords_zero]

theorem bigBytes_pos (x : Nat) (hx : 0 < x) : bigBytes x = bigBytes (x / 256) ++ [byte x] := by
  simp only [bigBytes]
  rw [natWords_pos 1 (by decide) x hx]
  simp [byte_mod]

theorem bigBytes_ne_nil (x : Nat) (hx : 0 < x) : bigBytes x ≠ [] := by
  rw [bigBytes_pos x hx]; simp

/-- The minimal encoding has no leading zero byte. -/
theorem bigBytes_head (x : Nat) : (bigBytes x).head? ≠ some 0 := by
  induction x using Nat.strong_induction_on with
  | _ x ih =>
      by_cases hx : x = 0
      · subst hx; simp [bigBytes_zero]
      · rw [bigBytes_pos x (by omega)]
        by_cases hq : x / 256 = 0
        · rw [hq, bigBytes_zero]
          have hlt : x < 256 := by
            by_contra hge
            have : 0 < x / 256 := Nat.div_pos (by omega) (by decide)
            omega
          simp only [List.nil_append, List.head?_cons, ne_eq, Option.some.injEq]
          intro h0
          have := congrArg Fin.val h0
          simp [byte] at this
          omega
        · have hlt : x / 256 < x := Nat.div_lt_self (by omega) (by decide)
          have h1 := ih (x / 256) hlt
          have h2 := bigBytes_ne_nil (x / 256) (by omega)
          cases hb : bigBytes (x / 256) with
          | nil => exact absurd hb h2
          | cons a t =>
              rw [hb] at h1
              simpa using h1

theorem SetBytes_append (l : Bytes) (b : Byte) : SetBytes (l ++ [b]) = SetBytes l * 256 + b.val := by
  simp [SetBytes, List.foldl_append]

/-- Reading back the minimal encoding gives the number. -/
theorem SetBytes_bigBytes (x : Nat) : SetBytes (bigBytes x) = x := by
  induction x using Nat.strong_induction_on with
  | _ x ih =>
      by_cases hx : x = 0
      · subst hx; simp [bigBytes_zero, SetBytes]
      · rw [bigBytes_pos x (by omega), SetBytes_append]
        have hlt : x / 256 < x := Nat.div_lt_self (by omega) (by decide)
        rw [ih _ hlt]
        simp only [byte]
        omega

theorem beBytes_length (k x : Nat) : (beBytes k x).length = k := by
  induction k generalizing x with
  | zero => rfl
  | succ k ih => simp [beBytes, ih]

theorem beBytes_zero (k : Nat) : beBytes k 0 = List.replicate k 0 := by
  induction k with
  | zero => rfl
  | succ k ih =>
      simp only [beBytes, Nat.zero_div, ih]
      rw [List.replicate_succ']
      rfl

/-- A fixed width block is the minimal encoding behind zero bytes. -/
theorem beBytes_eq (k x : Nat) (h : x < 256 ^ k) :
    (bigBytes x).length ≤ k ∧
      beBytes k x = List.replicate (k - (bigBytes x).length) 0 ++ bigBytes x := by
  induction k generalizing x with
  | zero =>
      have hx : x = 0 := by simpa using h
      subst hx
      simp [bigBytes_zero, beBytes]
  | succ k ih =>
      by_cases hx : x = 0
      · subst hx
        simp [bigBytes_zero, beBytes_zero]
      · have hq : x / 256 < 256 ^ k := by
          rw [Nat.div_lt_iff_lt_mul (by decide)]
          rw [pow_succ] at h
          exact h
        obtain ⟨h1, h2⟩ := ih (x / 256) hq
        rw [bigBytes_pos x (by omega)]
        constructor
        · simp; omega
        · simp only [beBytes, h2, List.length_append, List.length_singleton,
            List.append_assoc]
          congr 2
          omega

theorem beBytes_add (a b x : Nat) :
    beBytes (a + b) x = beBytes a (x / 256 ^ b) ++ beBytes b x := by
  induction b generalizing x with
  | zero => simp [beBytes]
  | succ b ih =>
      rw [← Nat.add_assoc]
      simp only [beBytes, ih, List.append_assoc]
      rw [Nat.div_div_eq_div_mul, pow_succ, Nat.mul_comm]

theorem beBytes_mod (k x : Nat) : beBytes k (x % 256 ^ k) = beBytes k x := by
  induction k generalizing x with
  | zero => rfl
  | succ k ih =>
      simp only [beBytes]
      have e1 : x % 256 ^ (k + 1) / 256 = x / 256 % 256 ^ k := by
        rw [pow_succ, Nat.mul_comm, Nat.mod_mul_right_div_self]
      have e2 : byte (x % 256 ^ (k + 1)) = byte x := by
        apply Fin.ext
        simp only [byte]
        rw [pow_succ, Nat.mul_comm]
        exact Nat.mod_mul_right_mod x 256 (256 ^ k)
      rw [e1, e2, ih]

theorem wordsBE_natWords (f x : Nat) (hf : x ≤ f) :
    wordsBE (natWords _s f x) = beBytes (_s * (natWords _s f x).length) x ∧
      x < 256 ^ (_s * (natWords _s f x).length) := by
  induction f generalizing x with
  | zero =>
      have hx : x = 0 := by omega
      subst hx
      simp [natWords, wordsBE, beBytes]
  | succ f ih =>
      simp only [natWords]
      by_cases hx : x = 0
      · subst hx
        simp [wordsBE, beBytes]
      · have hB : 1 < 256 ^ _s := Nat.one_lt_pow (by decide) (by decide)
        have hlt : x / 256 ^ _s < x := Nat.div_lt_self (by omega) hB
        obtain ⟨h1, h2⟩ := ih (x / 256 ^ _s) (by omega)
        simp only [hx, if_false, wordsBE, List.length_cons, h1]
        constructor
        · rw [Nat.mul_succ, beBytes_add, beBytes_mod]
        · rw [Nat.mul_succ, pow_add]
          rw [Nat.div_lt_iff_lt_mul (by omega)] at h2
          exact h2

/-! ## The loops of bigint.Encode -/

theorem putWord_spec (j : Nat) (p m q : Bytes) (d : Nat) (hm : m.length = j) :
    putWord j (p ++ m ++ q) (p.length + j) d = some (p ++ beBytes j d ++ q, p.length) := by
  induction j generalizing m q d with
  | zero =>
      have : m = [] := List.length_eq_zero.mp hm
      subst this
      simp [putWord, beBytes]
  | succ j ih =>
      obtain ⟨m1, y, rfl⟩ : ∃ m1 y, m = m1 ++ [y] := by
        rcases List.eq_nil_or_concat m with h | ⟨m1, y, h⟩
        · subst h; simp at hm
        · exact ⟨m1, y, by simpa using h⟩
      have hm1 : m1.length = j := by simpa using hm
      have hlen : p.length + (j + 1) - 1 = (p ++ m1).length := by simp [hm1]
      have hset : (p ++ (m1 ++ [y]) ++ q).set (p.length + (j + 1) - 1) (byte d)
          = p ++ m1 ++ (byte d :: q) := by
        rw [hlen]
        rw [show p ++ (m1 ++ [y]) ++ q = (p ++ m1) ++ (y :: q) by simp]
        rw [List.set_append_right _ _ (le_refl _)]
        simp
      have hcond : 0 < p.length + (j + 1) ∧
          p.length + (j + 1) - 1 < (p ++ (m1 ++ [y]) ++ q).length := by
        simp; omega
      simp only [putWord]
      rw [if_pos hcond, hset]
      rw [show p.length + (j + 1) - 1 = p.length + j by omega]
      rw [ih m1 (byte d :: q) (d / 256) hm1]
      simp [beBytes]

theorem putWords_spec (ds : List Nat) (p m q : Bytes) (hm : m.length = _s * ds.length) :
    putWords ds (p ++ m ++ q) (p.length + _s * ds.length) =
      some (p ++ wordsBE ds ++ q, p.length) := by
  induction ds generalizing m q with
  | nil =>
      have : m = [] := List.length_eq_zero.mp (by simpa using hm)
      subst this
      simp [putWords, wordsBE]
  | cons d ds ih =>
      have hlen : m.length = _s * ds.length + _s := by
        rw [hm, List.length_cons, Nat.mul_succ]
      have hsplit : m = m.take (_s * ds.length) ++ m.drop (_s * ds.length) :=
        (List.take_append_drop _ _).symm
      have h1 : (m.take (_s * ds.length)).length = _s * ds.length := by
        rw [List.length_take]; omega
      have h2 : (m.drop (_s * ds.length)).length = _s := by
        rw [List.length_drop]; omega
      generalize m.take (_s * ds.length) = m1 at hsplit h1
      generalize m.drop (_s * ds.length) = m2 at hsplit h2
      subst hsplit
      have e1 : p ++ (m1 ++ m2) ++ q = (p ++ m1) ++ m2 ++ q := by simp
      have e2 : p.length + _s * (d :: ds).length = (p ++ m1).length + _s := by
        rw [List.length_cons, Nat.mul_succ, List.length_append, h1]; omega
      simp only [putWords]
      rw [e1, e2, putWord_spec _s (p ++ m1) m2 q d h2]
      simp only
      rw [show p ++ m1 ++ beBytes _s d ++ q = p ++ m1 ++ (beBytes _s d ++ q) by simp]
      rw [show (p ++ m1).length = p.length + _s * ds.length by
        rw [List.length_append, h1]]
      rw [ih m1 (beBytes _s d ++ q) h1]
      simp [wordsBE]

theorem skipZeros_spec (z fuel : Nat) (p t : Bytes) (ht : t.head? ≠ some 0) (hz : z ≤ fuel) :
    skipZeros fuel (p ++ List.replicate z 0 ++ t) p.length = p.length + z := by
  induction z generalizing p fuel with
  | zero =>
      cases fuel with
      | zero => rfl
      | succ f =>
          simp only [skipZeros, List.replicate_zero, List.append_nil]
          rw [if_neg]
          · rfl
          · rintro ⟨h1, h2⟩
            cases t with
            | nil => simp at h1
            | cons a t =>
                rw [List.getD_append_right _ _ _ _ (le_refl _)] at h2
                simp at h2
                simp [h2] at ht
  | succ z ih =>
      cases fuel with
      | zero => omega
      | succ f =>
          simp only [skipZeros]
          rw [if_pos]
          · have e : p ++ List.replicate (z + 1) 0 ++ t = (p ++ [0]) ++ List.replicate z 0 ++ t := by
              simp [List.replicate_succ]
            rw [e]
            have := ih f (p ++ [0]) (by omega)
            rw [List.length_append, List.length_singleton] at this
            rw [this]
            omega
          · constructor
            · simp
            · rw [List.append_assoc, List.getD_append_right _ _ _ _ (le_refl _)]
              simp [List.replicate_succ]

/-! ## What bigint.Encode returns -/

theorem head_bigBytes_append (r s : Nat) : (bigBytes r ++ bigBytes s).head? ≠ some 0 := by
  cases h : bigBytes r with
  | nil => simpa using bigBytes_head s
  | cons a t =>
      have := bigBytes_head r
      rw [h] at this
      simpa using this

theorem Bits_spec (x : Nat) :
    (bigBytes x).length ≤ _s * (Bits x).length ∧
      wordsBE (Bits x) =
        List.replicate (_s * (Bits x).length - (bigBytes x).length) 0 ++ bigBytes x := by
  obtain ⟨h1, h2⟩ := wordsBE_natWords x x (le_refl _)
  obtain ⟨h3, h4⟩ := beBytes_eq _ x h2
  exact ⟨h3, by rw [Bits, h1, h4]⟩

/-- The two word loops and the two zero skipping loops of `Encode`, run on a
buffer of the computed length, leave the minimal encoding of `r` followed by
the minimal encoding of `s` at the returned index. -/
theorem Encode_loops (buf : Bytes) (r s : Nat)
    (hlen : buf.length = ((Bits s).length + (Bits r).length) * _s) :
    ∃ buf1 buf2 pre,
      putWords (Bits s) buf buf.length = some (buf1, _s * (Bits r).length) ∧
      putWords (Bits r) buf1 (skipZeros buf1.length buf1 (_s * (Bits r).length))
        = some (buf2, pre.length) ∧
      buf2.length = buf.length ∧
      ∃ z, buf2 = pre ++ List.replicate z 0 ++ (bigBytes r ++ bigBytes s) ∧
        skipZeros buf2.length buf2 pre.length = pre.length + z := by
  obtain ⟨hs1, hs2⟩ := Bits_spec s
  obtain ⟨hr1, hr2⟩ := Bits_spec r
  generalize hLs : (Bits s).length = Ls at *
  generalize hLr : (Bits r).length = Lr at *
  generalize hzs : _s * Ls - (bigBytes s).length = zs at *
  generalize hzr : _s * Lr - (bigBytes r).length = zr at *
  -- first word loop
  have hp : (buf.take (_s * Lr)).length = _s * Lr := by
    rw [List.length_take, hlen, Nat.add_mul, Nat.mul_comm Lr]; omega
  have hm : (buf.drop (_s * Lr)).length = _s * Ls := by
    rw [List.length_drop, hlen, Nat.add_mul, Nat.mul_comm Lr, Nat.mul_comm Ls]; omega
  have hsplit : buf = buf.take (_s * Lr) ++ buf.drop (_s * Lr) ++ [] := by simp
  generalize buf.take (_s * Lr) = p at hp hsplit
  generalize buf.drop (_s * Lr) = m at hm hsplit
  have hbl : buf.length = p.length + _s * (Bits s).length := by
    rw [hsplit, hLs]; simp [hm]
  have step1 : putWords (Bits s) buf buf.length
      = some (p ++ List.replicate zs 0 ++ bigBytes s, _s * Lr) := by
    rw [hbl]
    conv => lhs; arg 2; rw [hsplit]
    rw [putWords_spec (Bits s) p m [] (by rw [hm, hLs]), hs2, hp]
    simp
  -- first skip
  have hb1len : (p ++ List.replicate zs 0 ++ bigBytes s).length = buf.length := by
    rw [hsplit]; simp [hm]; omega
  have step2 : skipZeros (p ++ List.replicate zs 0 ++ bigBytes s).length
      (p ++ List.replicate zs 0 ++ bigBytes s) (_s * Lr) = p.length + zs := by
    rw [← hp]
    exact skipZeros_spec zs _ p (bigBytes s) (bigBytes_head s) (by simp; omega)
  -- second word loop
  have hp1 : ((p ++ List.replicate zs 0).take zs).length = zs := by
    rw [List.length_take]; simp
  have hm1 : ((p ++ List.replicate zs 0).drop zs).length = _s * Lr := by
    rw [List.length_drop]; simp [hp]
  have hsplit1 : p ++ List.replicate zs 0
      = (p ++ List.replicate zs 0).take zs ++ (p ++ List.replicate zs 0).drop zs := by simp
  generalize (p ++ List.replicate zs 0).take zs = p1 at hp1 hsplit1
  generalize (p ++ List.replicate zs 0).drop zs = m1 at hm1 hsplit1
  have step3 : putWords (Bits r) (p ++ List.replicate zs 0 ++ bigBytes s) (p.length + zs)
      = some (p1 ++ List.replicate zr 0 ++ (bigBytes r ++ bigBytes s), p1.length) := by
    rw [hsplit1, show p.length + zs = p1.length + _s * (Bits r).length by rw [hp1, hp, hLr]; omega]
    rw [putWords_spec (Bits r) p1 m1 (bigBytes s) (by rw [hm1, hLr]), hr2]
    simp
  have hb2len : (p1 ++ List.replicate zr 0 ++ (bigBytes r ++ bigBytes s)).length = buf.length := by
    rw [← hb1len, hsplit1]
    simp [hm1]
    omega
  refine ⟨_, _, p1, step1, ?_, hb2len, zr, rfl, ?_⟩
  · rw [step2, step3]
  · exact skipZeros_spec zr _ p1 _ (head_bigBytes_append r s) (by simp; omega)

/-- What `Encode` returns: the minimal big-endian bytes of `r` followed by the
minimal big-endian bytes of `s`.  The call never panics, whatever the reused
buffer held. -/
theorem Encode_eq (b : bigint) (r s : Nat) :
    ∃ b1, b.Encode r s = some (b1, bigBytes r ++ bigBytes s) ∧ b1.r = b.r ∧ b1.s = b.s := by
  have hbuf : ∀ buf : Bytes, buf.length = ((Bits s).length + (Bits r).length) * _s →
      ∀ tail : Bytes, ∃ b1,
      (match putWords (Bits s) buf buf.length with
        | none => none
        | some (buf1, i1) =>
            match putWords (Bits r) buf1 (skipZeros buf1.length buf1 i1) with
            | none => none
            | some (buf2, i3) =>
                some ({ b with b := buf2 ++ tail }, buf2.drop (skipZeros buf2.length buf2 i3)))
        = some (b1, bigBytes r ++ bigBytes s) ∧ b1.r = b.r ∧ b1.s = b.s := by
    intro buf hlen tail
    obtain ⟨buf1, buf2, pre, h1, h2, _, z, h4, h5⟩ := Encode_loops buf r s hlen
    refine ⟨{ b with b := buf2 ++ tail }, ?_, rfl, rfl⟩
    rw [h1]
    simp only
    rw [h2]
    simp only
    rw [h5]
    congr 2
    rw [h4, show pre.length + z = (pre ++ List.replicate z 0).length by simp]
    rw [List.drop_left' rfl]
  simp only [bigint.Encode]
  apply hbuf
  split
  · simp
  · rw [List.length_take]
    omega

/-! ## Claims maps -/

theorem Claims.get_set_self (m : Claims) (k : String) (v : Value) : (m.set k v).get k = some v := by
  induction m with
  | nil => simp [Claims.set, Claims.get]
  | cons kv rest ih =>
      obtain ⟨k1, v1⟩ := kv
      by_cases h : k1 = k
      · simp [Claims.set, Claims.get, h]
      · simp [Claims.set, Claims.get, h, ih]

theorem Claims.get_set_other (m : Claims) (k k1 : String) (v : Value) (h : k ≠ k1) :
    (m.set k v).get k1 = m.get k1 := by
  induction m with
  | nil => simp [Claims.set, Claims.get, h]
  | cons kv rest ih =>
      obtain ⟨k2, v2⟩ := kv
      by_cases h2 : k2 = k
      · subst h2
        simp [Claims.set, Claims.get, h]
      · by_cases h3 : k2 = k1
        · subst h3
          simp [Claims.set, Claims.get, h2]
        · simp [Claims.set, Claims.get, h2, h3, ih]

theorem Claims.isSome_get_set (m : Claims) (k k1 : String) (v : Value)
    (h : (m.get k1).isSome = true) : ((m.set k v).get k1).isSome = true := by
  by_cases hk : k = k1
  · subst hk; simp [Claims.get_set_self]
  · rw [Claims.get_set_other m k k1 v hk]; exact h

/-! ## The signer -/

/-- The header map after the encoder ran on a non-nil header. -/
theorem encode_header (L : Lib) (s : signer) (alg : String) (H : Claims) (P : Option Claims) :
    (s.encode L alg (some H) P).2.1 = some ((H.set "jwt" (.str "JWT")).set "alg" (.alg alg)) := by
  simp only [signer.encode]
  split
  · rfl
  · split <;> rfl

/-- The signing input built by the encoder. -/
theorem encode_ok (L : Lib) (s : signer) (alg : String) (H : Claims) (P : Option Claims)
    (hb pb : Bytes)
    (hH : L.jsonEncode (some ((H.set "jwt" (.str "JWT")).set "alg" (.alg alg))) = .ok hb)
    (hP : L.jsonEncode P = .ok pb) :
    ∃ s1, s.encode L alg (some H) P =
        (s1, some ((H.set "jwt" (.str "JWT")).set "alg" (.alg alg)), .returned none) ∧
      s1.tokenBuffer = base64.Encode hb ++ dot :: base64.Encode pb ∧ s1.bigint = s.bigint := by
  simp only [signer.encode, hH, hP, signer.base64]
  exact ⟨_, rfl, by simp, rfl⟩

/-- What the HS signer writes. -/
theorem hs_ok (L : Lib) (s : signer) (w : Writer) (alg : String) (H : Claims) (P : Option Claims)
    (h : Hash) (hb pb : Bytes)
    (hH : L.jsonEncode (some ((H.set "jwt" (.str "JWT")).set "alg" (.alg alg))) = .ok hb)
    (hP : L.jsonEncode P = .ok pb) :
    (s.hs L w alg (some H) P (some h)).header =
        some ((H.set "jwt" (.str "JWT")).set "alg" (.alg alg)) ∧
      (s.hs L w alg (some H) P (some h)).hash =
        some (h.Write (base64.Encode hb ++ dot :: base64.Encode pb)) ∧
      (s.hs L w alg (some H) P (some h)).written =
        [base64.Encode hb ++ dot :: (base64.Encode pb ++ dot ::
          base64.Encode (L.digest h.sha h.key
            (h.data ++ (base64.Encode hb ++ dot :: base64.Encode pb))))] ∧
      (s.hs L w alg (some H) P (some h)).result =
        .returned (w (base64.Encode hb ++ dot :: (base64.Encode pb ++ dot ::
          base64.Encode (L.digest h.sha h.key
            (h.data ++ (base64.Encode hb ++ dot :: base64.Encode pb)))))) := by
  obtain ⟨s1, h1, h2, _⟩ := encode_ok L s alg H P hb pb hH hP
  simp only [signer.hs, h1, signer.finish, signer.base64, Hash.Sum, Hash.Write, h2]
  simp

/-! ## The HS check -/

theorem compareLoop_spec (a b : Bytes) (hlen : a.length = b.length) (fuel i : Nat)
    (hf : a.length ≤ fuel + i) :
    compareLoop a b fuel i = if a.drop i = b.drop i then none else some .ErrInvalidToken := by
  induction fuel generalizing i with
  | zero =>
      have h1 : a.drop i = [] := List.drop_eq_nil_of_le (by omega)
      have h2 : b.drop i = [] := List.drop_eq_nil_of_le (by omega)
      simp [compareLoop, h1, h2]
  | succ fuel ih =>
      simp only [compareLoop]
      by_cases hi : i < a.length
      · have hi2 : i < b.length := by omega
        rw [if_pos hi]
        have ea : a.drop i = a[i] :: a.drop (i + 1) := List.drop_eq_getElem_cons hi
        have eb : b.drop i = b[i] :: b.drop (i + 1) := List.drop_eq_getElem_cons hi2
        have ga : a.getD i 0 = a[i] := List.getD_eq_getElem _ _ hi
        have gb : b.getD i 0 = b[i] := List.getD_eq_getElem _ _ hi2
        rw [ga, gb, ea, eb, ih (i + 1) (by omega)]
        by_cases hne : a[i] = b[i]
        · rw [if_neg (not_not.mpr hne), hne]
          simp only [List.cons.injEq, true_and]
        · rw [if_pos hne, if_neg]
          intro hc
          injection hc with hc1 _
          exact hne hc1
      · rw [if_neg hi]
        have h1 : a.drop i = [] := List.drop_eq_nil_of_le (by omega)
        have h2 : b.drop i = [] := List.drop_eq_nil_of_le (by omega)
        simp [h1, h2]

/-- The HS family check compares the signature segment with the recomputed
one. -/
theorem hs_spec (L : Lib) (v : verifier) (h : Hash) :
    (v.hs L (some h)).2.2 =
      if v.signToken = base64.Encode (L.digest h.sha h.key (h.data ++ v.headerPayloadToken))
      then none else some .ErrInvalidToken := by
  simp only [verifier.hs, verifier.hashHeaderPayload, verifier.base64Encode, Hash.Sum,
    Hash.Write, List.nil_append]
  split
  · rename_i hne
    rw [if_neg]
    intro he
    exact hne (by rw [he])
  · rename_i heq
    have heq1 : v.signToken.length =
        (base64.Encode (L.digest h.sha h.key (h.data ++ v.headerPayloadToken))).length := by
      by_contra hc
      exact heq hc
    rw [compareLoop_spec _ _ heq1 _ 0 (by omega)]
    simp

theorem hs_fst (L : Lib) (v : verifier) (h : Hash) :
    (v.hs L (some h)).1 =
      { v with hashBuffer := L.digest h.sha h.key (h.data ++ v.headerPayloadToken),
               base64Buffer :=
                 base64.Encode (L.digest h.sha h.key (h.data ++ v.headerPayloadToken)) } ∧
    (v.hs L (some h)).2.1 = some (h.Write v.headerPayloadToken) := by
  simp only [verifier.hs, verifier.hashHeaderPayload, verifier.base64Encode, Hash.Sum,
    Hash.Write, List.nil_append]
  split <;> exact ⟨rfl, rfl⟩

/-! ## Verify on an HS token -/

theorem dispatch_hs (L : Lib) (v : verifier) (a alg : String) (p : Provider) (h : Hash)
    (halg : alg = "HS256" ∨ alg = "HS384" ∨ alg = "HS512") (hU : L.toUpper a = alg)
    (hget : p.GetHS alg = some h) :
    (v.dispatch L a p).1 = (v.hs L (some h)).1 ∧ (v.dispatch L a p).2.2 = (v.hs L (some h)).2.2 := by
  rcases halg with rfl | rfl | rfl
  · simp [Provider.GetHS] at hget
    simp [verifier.dispatch, hU, hget]
  · simp [Provider.GetHS] at hget
    simp [verifier.dispatch, hU, hget]
  · simp [Provider.GetHS] at hget
    simp [verifier.dispatch, hU, hget]

theorem hs_payloadToken (L : Lib) (v : verifier) (h : Option Hash) :
    (v.hs L h).1.payloadToken = v.payloadToken := by
  cases h with
  | none => rfl
  | some h => rw [(hs_fst L v h).1]

theorem hs_jsonPending (L : Lib) (v : verifier) (h : Option Hash) :
    (v.hs L h).1.jsonPending = v.jsonPending := by
  cases h with
  | none => rfl
  | some h => rw [(hs_fst L v h).1]

/-- `Verify` on a token of three segments whose header names an HS
algorithm and whose signature segment is the recomputed one. -/
theorem Verify_hs_ok (L : Lib) (v : verifier) (p : Provider) (h : Hash) (alg a : String)
    (hb pb : Bytes) (Hd : Claims) (Pd : Option Claims) (pend1 pend2 : Bytes)
    (halg : alg = "HS256" ∨ alg = "HS384" ∨ alg = "HS512") (hU : L.toUpper a = alg)
    (hget : p.GetHS alg = some h)
    (hdH : L.jsonDecode v.jsonPending hb = .ok (some Hd, pend1))
    (ha : Hd.get "alg" = some (.str a))
    (hdP : L.jsonDecode pend1 pb = .ok (Pd, pend2)) :
    ∃ v1 calls,
      Verify L v (base64.Encode hb ++ dot :: (base64.Encode pb ++ dot ::
        base64.Encode (L.digest h.sha h.key
          (h.data ++ (base64.Encode hb ++ dot :: base64.Encode pb))))) p =
      { header := some Hd, payload := Pd, err := none, calls := calls, pooled := some v1 } ∧
      v1.jsonPending = pend2 := by
  simp only [Verify, parseToken_split v _ _ _ (base64.dot_not_mem_Encode hb)
    (base64.dot_not_mem_Encode pb), verifier.base64Decode, base64.Decode_Encode, hdH, ha]
  rcases hdisp : verifier.dispatch L _ a p with ⟨v5, calls, e⟩
  obtain ⟨h1, h2⟩ := dispatch_hs L
    (v := { v with headerToken := base64.Encode hb, payloadToken := base64.Encode pb,
                   headerPayloadToken := base64.Encode hb ++ dot :: base64.Encode pb,
                   signToken := base64.Encode (L.digest h.sha h.key
                      (h.data ++ (base64.Encode hb ++ dot :: base64.Encode pb))),
                   base64Buffer := hb, jsonBuffer := hb, jsonPending := pend1 })
    a alg p h halg hU hget
  rw [hdisp] at h1 h2
  simp only at h1 h2
  rw [hs_spec] at h2
  simp only [if_true] at h2
  subst h2
  subst h1
  simp only [hs_payloadToken, hs_jsonPending]
  simp only [base64.Decode_Encode, hdP]
  exact ⟨_, _, rfl, rfl⟩

/-! ## SignTo on the HS algorithms -/

theorem ofFamily_fields (pre : List Call) (put : Option Hash → Call) (e : SignerEffect) :
    (SignEffect.ofFamily pre put e).written = e.written ∧
      (SignEffect.ofFamily pre put e).header = e.header ∧
      (SignEffect.ofFamily pre put e).result = e.result ∧
      (SignEffect.ofFamily pre put e).s = e.s := by
  simp only [SignEffect.ofFamily]
  split
  · rename_i h; simp [h]
  · rename_i err h; simp [h]

theorem SignTo_hs (L : Lib) (s : signer) (w : Writer) (rnd : Nat) (alg : String)
    (hdr P : Option Claims) (p : Provider)
    (halg : alg = "HS256" ∨ alg = "HS384" ∨ alg = "HS512") :
    (SignTo L s w rnd alg hdr P p).written = (s.hs L w alg hdr P (p.GetHS alg)).written ∧
      (SignTo L s w rnd alg hdr P p).header = (s.hs L w alg hdr P (p.GetHS alg)).header ∧
      (SignTo L s w rnd alg hdr P p).result = (s.hs L w alg hdr P (p.GetHS alg)).result := by
  rcases halg with rfl | rfl | rfl
  · simp [SignTo, SignHS256To, Provider.GetHS, ofFamily_fields]
  · simp [SignTo, SignHS384To, Provider.GetHS, ofFamily_fields]
  · simp [SignTo, SignHS512To, Provider.GetHS, ofFamily_fields]

theorem Claims.mem_of_get (m : Claims) (k : String) (v : Value) (h : m.get k = some v) :
    (k, v) ∈ m := by
  induction m with
  | nil => simp [Claims.get] at h
  | cons kv rest ih =>
      obtain ⟨k1, v1⟩ := kv
      simp only [Claims.get] at h
      split at h
      · rename_i hk
        injection h with h
        subst hk; subst h
        exact List.mem_cons_self _ _
      · exact List.mem_cons_of_mem _ (ih h)

theorem jsonImage_of_imageOK (m m1 : Claims) (h : imageOK m m1 = true) :
    JsonImage (some m) (some m1) := by
  simp only [imageOK, List.all_eq_true] at h
  constructor
  · intro k hk
    cases hg : m.get k with
    | none => rw [hg] at hk; cases hk
    | some v =>
        have := h (k, v) (Claims.mem_of_get m k v hg)
        cases v <;> simp_all
  · intro k a hk
    rcases hk with hk | hk
    · simpa using h (k, .str a) (Claims.mem_of_get m k _ hk)
    · simpa using h (k, .alg a) (Claims.mem_of_get m k _ hk)

/-! ## The sign functions on map references -/

theorem inject_same (M : Heap) (alg : String) (a : Ref) :
    M.inject alg a a = ((M a).set "jwt" (.str "JWT")).set "alg" (.alg alg) := by
  simp [Heap.inject, Heap.store]

theorem inject_other (M : Heap) (alg : String) (a c : Ref) (h : c ≠ a) :
    M.inject alg a c = M c := by
  simp [Heap.inject, Heap.store, h]

/-- The payload map as the encoder serialises it: unchanged when it is not the
header's map object. -/
theorem inject_payload (M : Heap) (alg : String) (a : Ref) (payload : Option Ref)
    (h : payload ≠ some a) : payload.map (M.inject alg a) = payload.map M := by
  cases payload with
  | none => rfl
  | some c =>
      have hc : c ≠ a := fun e => h (by rw [e])
      simp only [Option.map_some']
      rw [inject_other M alg a c hc]

/-- The encoder on references, once both maps JSON-encode. -/
theorem encodeRef_ok (L : Lib) (s : signer) (alg : String) (M : Heap) (a : Ref)
    (payload : Option Ref) (hb pb : Bytes)
    (hH : L.jsonEncode (some (M.inject alg a a)) = .ok hb)
    (hP : L.jsonEncode (payload.map (M.inject alg a)) = .ok pb) :
    ∃ s1, s.encodeRef L alg M (some a) payload = (s1, M.inject alg a, .returned none) ∧
      s1.tokenBuffer = base64.Encode hb ++ dot :: base64.Encode pb ∧ s1.bigint = s.bigint := by
  simp only [Heap.inject] at hH hP
  simp only [signer.encodeRef, hH, hP, signer.base64, Heap.inject]
  exact ⟨_, rfl, by simp, rfl⟩

/-- What the HS signer writes. -/
theorem hsRef_ok (L : Lib) (s : signer) (w : Writer) (alg : String) (M : Heap) (a : Ref)
    (payload : Option Ref) (h : Hash) (hb pb : Bytes)
    (hH : L.jsonEncode (some (M.inject alg a a)) = .ok hb)
    (hP : L.jsonEncode (payload.map (M.inject alg a)) = .ok pb) :
    (s.hsRef L w alg M (some a) payload (some h)).written =
        [base64.Encode hb ++ dot :: (base64.Encode pb ++ dot ::
          base64.Encode (L.digest h.sha h.key
            (h.data ++ (base64.Encode hb ++ dot :: base64.Encode pb))))] ∧
      (s.hsRef L w alg M (some a) payload (some h)).maps = M.inject alg a := by
  obtain ⟨s1, h1, h2, _⟩ := encodeRef_ok L s alg M a payload hb pb hH hP
  simp only [signer.hsRef, h1, signer.finishRef, signer.base64, Hash.Sum, Hash.Write, h2]
  simp

/-- What the RS signer writes once `rsa.SignPKCS1v15` returned `sig`. -/
theorem rsRef_ok (L : Lib) (s0 : signer) (w : Writer) (rnd : Nat) (alg : String) (M : Heap)
    (a : Ref) (payload : Option Ref) (h : Hash) (sha : Sha) (k : RSAKey) (hb pb sig : Bytes)
    (hH : L.jsonEncode (some (M.inject alg a a)) = .ok hb)
    (hP : L.jsonEncode (payload.map (M.inject alg a)) = .ok pb)
    (hsig : L.signPKCS1v15 rnd k sha
      (L.digest h.sha h.key (h.data ++ (base64.Encode hb ++ dot :: base64.Encode pb))) = .ok sig) :
    (s0.rsRef L w rnd alg M (some a) payload (some h) sha (some k)).written =
      [base64.Encode hb ++ dot :: (base64.Encode pb ++ dot :: base64.Encode sig)] := by
  obtain ⟨s1, h1, h2, h3⟩ := encodeRef_ok L s0 alg M a payload hb pb hH hP
  simp only [signer.rsRef, h1, Hash.Sum, Hash.Write, h2, List.nil_append, hsig,
    signer.finishRef, signer.base64]
  simp

/-- What the PS signer writes once `rsa.SignPSS` returned `sig`. -/
theorem psRef_ok (L : Lib) (s0 : signer) (w : Writer) (rnd : Nat) (alg : String) (M : Heap)
    (a : Ref) (payload : Option Ref) (h : Hash) (sha : Sha) (k : RSAKey)
    (o : Option PSSOptions) (hb pb sig : Bytes)
    (hH : L.jsonEncode (some (M.inject alg a a)) = .ok hb)
    (hP : L.jsonEncode (payload.map (M.inject alg a)) = .ok pb)
    (hsig : L.signPSS rnd k sha
      (L.digest h.sha h.key (h.data ++ (base64.Encode hb ++ dot :: base64.Encode pb))) o
        = .ok sig) :
    (s0.psRef L w rnd alg M (some a) payload (some h) sha (some k) o).written =
      [base64.Encode hb ++ dot :: (base64.Encode pb ++ dot :: base64.Encode sig)] := by
  obtain ⟨s1, h1, h2, h3⟩ := encodeRef_ok L s0 alg M a payload hb pb hH hP
  simp only [signer.psRef, h1, Hash.Sum, Hash.Write, h2, List.nil_append, hsig,
    signer.finishRef, signer.base64]
  simp

theorem ofFamilyRef_fields (pre : List Call) (put : Option Hash → Call) (e : SignerEffectRef) :
    (SignEffectRef.ofFamily pre put e).written = e.written ∧
      (SignEffectRef.ofFamily pre put e).maps = e.maps ∧
      (SignEffectRef.ofFamily pre put e).result = e.result ∧
      (SignEffectRef.ofFamily pre put e).s = e.s := by
  simp only [SignEffectRef.ofFamily]
  split
  · rename_i h; simp [h]
  · rename_i err h; simp [h]

theorem SignToRef_hs (L : Lib) (s : signer) (w : Writer) (rnd : Nat) (alg : String) (M : Heap)
    (hdr P : Option Ref) (p : Provider)
    (halg : alg = "HS256" ∨ alg = "HS384" ∨ alg = "HS512") :
    (SignToRef L s w rnd alg M hdr P p).written = (s.hsRef L w alg M hdr P (p.GetHS alg)).written ∧
      (SignToRef L s w rnd alg M hdr P p).maps = (s.hsRef L w alg M hdr P (p.GetHS alg)).maps ∧
      (SignToRef L s w rnd alg M hdr P p).result =
        (s.hsRef L w alg M hdr P (p.GetHS alg)).result := by
  rcases halg with rfl | rfl | rfl
  · simp [SignToRef, SignHS256ToRef, Provider.GetHS, ofFamilyRef_fields]
  · simp [SignToRef, SignHS384ToRef, Provider.GetHS, ofFamilyRef_fields]
  · simp [SignToRef, SignHS512ToRef, Provider.GetHS, ofFamilyRef_fields]

/-- What `SignTo` writes for an RS or PS code. -/
theorem SignToRef_rsa (L : Lib) (s : signer) (w : Writer) (rnd : Nat) (alg : String) (M : Heap)
    (a : Ref) (payload : Option Ref) (p : Provider) (h : Hash) (k : RSAKey) (hb pb sig : Bytes)
    (halg : isRS alg = true ∨ isPS alg = true)
    (hget : p.shaOf alg = some h) (hk : p.rsaKeyOf alg = some k)
    (hH : L.jsonEncode (some (M.inject alg a a)) = .ok hb)
    (hP : L.jsonEncode (payload.map (M.inject alg a)) = .ok pb)
    (hsig : rsaSign L alg rnd k
      (L.digest h.sha h.key (h.data ++ (base64.Encode hb ++ dot :: base64.Encode pb)))
      (p.pssOptOf alg) = .ok sig) :
    (SignToRef L s w rnd alg M (some a) payload p).written =
      [base64.Encode hb ++ dot :: (base64.Encode pb ++ dot :: base64.Encode sig)] := by
  simp only [isRS, isPS, decide_eq_true_eq] at halg
  rcases halg with (rfl | rfl | rfl) | (rfl | rfl | rfl) <;>
    (simp [Provider.shaOf, Provider.rsaKeyOf] at hget hk
     simp [rsaSign, isRS, cryptoHashOf, Provider.pssOptOf] at hsig
     simp [SignToRef, SignRS256ToRef, SignRS384ToRef, SignRS512ToRef, SignPS256ToRef,
       SignPS384ToRef, SignPS512ToRef, ofFamilyRef_fields, hget, hk]
     first
       | exact rsRef_ok L s w rnd _ M a payload h _ k hb pb sig hH hP hsig
       | exact psRef_ok L s w rnd _ M a payload h _ k _ hb pb sig hH hP hsig)

/-- On the sample library every decoder state reads the sample texts back. -/
theorem demoLib_readsBack :
    JsonReadsBack demoLib (ascii "H\n") (some demoHeaderDecoded) ∧
      JsonReadsBack demoLib (ascii "R\n") (some demoHeaderDecodedRS) ∧
      JsonReadsBack demoLib (ascii "P\n") (some demoPayload) := by
  have hsp : onlySpace [10] := by
    intro x hx
    simp only [List.mem_singleton] at hx
    subst hx
    decide
  exact ⟨fun _ _ => ⟨[10], rfl, hsp⟩, fun _ _ => ⟨[10], rfl, hsp⟩, fun _ _ => ⟨[10], rfl, hsp⟩⟩

/-! ## C1 : HS round trip -/

/-- C1 (counterexample). `Verify` accepts the `HS256` token `SAo.UFoK.awg`,
whose payload text has the byte `Z` after its JSON value, and hands the
verifier back to the pool with `Z` still buffered in its JSON decoder.  Run on
that verifier, `Verify` rejects the token `SAo.UAo.awc` that `SignTo` wrote for
the sample header and payload with the same provider: the header text is read
after the buffered `Z`, the decoder fails, and no digest is asked for.  On a
new verifier the same token is accepted. -/
theorem HS_round_trip_stale_counterexample :
    trailingToken = ascii "SAo.UFoK.awg" ∧
    (Verify demoLibStream newVerifier trailingToken demoProvider).err = none ∧
    (Verify demoLibStream newVerifier trailingToken demoProvider).pooled = some staleVerifier ∧
    staleVerifier.jsonPending = ascii "Z\n" ∧
    (SignToRef demoLibStream newSigner Builder.writer 0 "HS256" demoHeap (some 0) (some 1)
      demoProvider).written = [ascii "SAo.UAo.awc"] ∧
    (Verify demoLibStream newVerifier (ascii "SAo.UAo.awc") demoProvider).err = none ∧
    Verify demoLibStream staleVerifier (ascii "SAo.UAo.awc") demoProvider =
      { header := none, payload := none, err := some (.lib 2), calls := [], pooled := none } := by
  decide

/-- C1 (amended). HS round trip.  For HS256, HS384 and HS512, a provider that
hands out, when signing (`p`) and when verifying (`p1`), a freshly reset
digest object of the same hash function and secret; a header map object `a`
and a payload map reference (nil, another map object, or `a` itself) whose
contents JSON-encode to `hb` and `pb` when the encoder serialises them; a JSON
library that reads `hb` back as a map `Hd` that keeps the keys and the string
values of the header, and reads `pb` back as `Pd`; and a pooled verifier whose
JSON decoder buffers white space only.  Then `SignTo` writes one token, and
`Verify` accepts that token: the error is nil, the payload is `Pd`, the header
is `Hd`, which has every key of the caller's header and the algorithm as a
string, and the verifier is handed back with white space buffered only.  The
payload that is serialised is the caller's payload unless it is the header's
own map object. -/
theorem HS_round_trip (L : Lib) (alg : String)
    (halg : alg = "HS256" ∨ alg = "HS384" ∨ alg = "HS512") (hU : L.toUpper alg = alg)
    (p p1 : Provider) (h h1 : Hash) (hget : p.GetHS alg = some h) (hreset : h.data = [])
    (hget1 : p1.GetHS alg = some h1) (hreset1 : h1.data = [])
    (hsha : h1.sha = h.sha) (hkey : h1.key = h.key)
    (s : signer) (w : Writer) (rnd : Nat) (M : Heap) (a : Ref) (payload : Option Ref)
    (hb pb : Bytes) (Hd : Claims) (Pd : Option Claims)
    (hH : L.jsonEncode (some (M.inject alg a a)) = .ok hb)
    (hP : L.jsonEncode (payload.map (M.inject alg a)) = .ok pb)
    (hHd : JsonReadsBack L hb (some Hd))
    (himg : JsonImage (some (M.inject alg a a)) (some Hd))
    (hPd : JsonReadsBack L pb Pd)
    (v : verifier) (hv : onlySpace v.jsonPending) :
    ∃ tok calls v1,
      (SignToRef L s w rnd alg M (some a) payload p).written = [tok] ∧
      Verify L v tok p1 =
        { header := some Hd, payload := Pd, err := none, calls := calls, pooled := some v1 } ∧
      (∀ k, ((M a).get k).isSome = true → (Hd.get k).isSome = true) ∧
      Hd.get "alg" = some (.str alg) ∧
      onlySpace v1.jsonPending ∧
      (SignToRef L s w rnd alg M (some a) payload p).maps = M.inject alg a ∧
      (payload ≠ some a → payload.map (M.inject alg a) = payload.map M) := by
  obtain ⟨hkeys, hstr⟩ := himg
  obtain ⟨pend1, hd1, hs1⟩ := hHd v.jsonPending hv
  obtain ⟨pend2, hd2, hs2⟩ := hPd pend1 hs1
  have halgHd : Hd.get "alg" = some (.str alg) :=
    hstr "alg" alg (Or.inr (by rw [inject_same]; exact Claims.get_set_self _ _ _))
  obtain ⟨v1, calls, hV, hpend⟩ :=
    Verify_hs_ok L v p1 h1 alg alg hb pb Hd Pd pend1 pend2 halg hU hget1 hd1 halgHd hd2
  have hS := SignToRef_hs L s w rnd alg M (some a) payload p halg
  have hO := hsRef_ok L s w alg M a payload h hb pb hH hP
  rw [hget] at hS
  rw [hO.1, hreset] at hS
  rw [hsha, hkey, hreset1] at hV
  refine ⟨_, calls, v1, hS.1, hV, ?_, halgHd, ?_, ?_, inject_payload M alg a payload⟩
  · intro k hk
    apply hkeys k
    rw [inject_same]
    exact Claims.isSome_get_set _ _ _ _ (Claims.isSome_get_set _ _ _ _ hk)
  · rw [hpend]; exact hs2
  · rw [hS.2.1, hO.2]

/-- Witness of C1 (amended): the sample header at address 0, the sample
payload at address 1, a new verifier. -/
theorem HS_round_trip_witness :
    ∃ tok calls v1,
      (SignToRef demoLib newSigner Builder.writer 0 "HS256" demoHeap (some 0) (some 1)
        demoProvider).written = [tok] ∧
      Verify demoLib newVerifier tok demoProvider =
        { header := some demoHeaderDecoded, payload := some demoPayload, err := none,
          calls := calls, pooled := some v1 } ∧
      (∀ k, ((demoHeap 0).get k).isSome = true → (demoHeaderDecoded.get k).isSome = true) ∧
      demoHeaderDecoded.get "alg" = some (.str "HS256") ∧
      onlySpace v1.jsonPending ∧
      (SignToRef demoLib newSigner Builder.writer 0 "HS256" demoHeap (some 0) (some 1)
        demoProvider).maps = demoHeap.inject "HS256" 0 ∧
      ((some 1 : Option Ref) ≠ some 0 →
        (some 1 : Option Ref).map (demoHeap.inject "HS256" 0) = (some 1 : Option Ref).map demoHeap) :=
  HS_round_trip demoLib "HS256" (Or.inl rfl) (by decide) demoProvider
    demoProvider (hmac.New .SHA256 (ascii "k")) (hmac.New .SHA256 (ascii "k")) (by decide)
    (by decide) (by decide) (by decide) rfl rfl newSigner Builder.writer 0 demoHeap 0 (some 1)
    (ascii "H\n") (ascii "P\n") demoHeaderDecoded (some demoPayload) (by decide) (by decide)
    demoLib_readsBack.1 (jsonImage_of_imageOK _ _ (by decide)) demoLib_readsBack.2.2 newVerifier
    (by intro x hx; cases hx)

/-! ## C2, C3, C8 : the ECDSA codec -/

theorem dropWhile_zeros (z : Nat) (t : Bytes) (ht : t.head? ≠ some 0) :
    (List.replicate z (0 : Byte) ++ t).dropWhile (fun b => decide (b = 0)) = t := by
  induction z with
  | zero =>
      cases t with
      | nil => rfl
      | cons a t =>
          have ha : a ≠ 0 := by simpa using ht
          simp [List.dropWhile, ha]
  | succ z ih => simpa [List.replicate_succ, List.dropWhile] using ih

/-- The minimal encoding is the fixed width block without its leading zero
bytes. -/
theorem bigBytes_eq_dropWhile (k x : Nat) (h : x < 256 ^ k) :
    bigBytes x = (beBytes k x).dropWhile (fun b => decide (b = 0)) := by
  rw [(beBytes_eq k x h).2, dropWhile_zeros _ _ (bigBytes_head x)]

theorem bigBytes_length_eq_iff (k x : Nat) (hk : 0 < k) (h : x < 256 ^ k) :
    (bigBytes x).length = k ↔ 256 ^ (k - 1) ≤ x := by
  obtain ⟨j, rfl⟩ : ∃ j, k = j + 1 := ⟨k - 1, by omega⟩
  simp only [Nat.add_sub_cancel]
  constructor
  · intro hl
    by_contra hlt
    have := (beBytes_eq j x (by omega)).1
    omega
  · intro hge
    have h1 := (beBytes_eq (j + 1) x h).1
    by_contra hne
    have hle : (bigBytes x).length ≤ j := by omega
    have h2 : SetBytes (bigBytes x) < 256 ^ j := by
      have : ∀ l : Bytes, SetBytes l < 256 ^ l.length := by
        intro l
        induction l using List.reverseRecOn with
        | nil => simp [SetBytes]
        | append_singleton l b ih =>
            rw [SetBytes_append, List.length_append, List.length_singleton, pow_succ]
            have := b.isLt
            omega
      exact lt_of_lt_of_le (this _) (Nat.pow_le_pow_right (by decide) hle)
    rw [SetBytes_bigBytes] at h2
    omega

/-- What the ES signer writes once `ecdsa.Sign` returned the pair `(r, s)`. -/
theorem es_ok (L : Lib) (s0 : signer) (w : Writer) (rnd : Nat) (alg : String) (H : Claims)
    (P : Option Claims) (h : Hash) (k : ECKey) (hb pb : Bytes) (r s : Nat)
    (hH : L.jsonEncode (some ((H.set "jwt" (.str "JWT")).set "alg" (.alg alg))) = .ok hb)
    (hP : L.jsonEncode P = .ok pb)
    (hsig : L.ecdsaSign rnd k
      (L.digest h.sha h.key (h.data ++ (base64.Encode hb ++ dot :: base64.Encode pb))) = .ok (r, s)) :
    (s0.es L w rnd alg (some H) P (some h) (some k)).written =
      [base64.Encode hb ++ dot :: (base64.Encode pb ++ dot ::
        base64.Encode (bigBytes r ++ bigBytes s))] := by
  obtain ⟨s1, h1, h2, h3⟩ := encode_ok L s0 alg H P hb pb hH hP
  obtain ⟨b1, hE, _, _⟩ := Encode_eq s0.bigint r s
  simp only [signer.es, h1, Hash.Sum, Hash.Write, h2, List.nil_append, hsig, h3, hE,
    signer.finish, signer.base64]
  simp

/-- C8 (the code at the failing input). For `r = s = 1`, both below
`256 ^ 32`, `Encode` returns the two bytes `[1, 1]`, not `2 * 32` bytes.  For
`r = 256`, `s = 1`, the pair the sample library's `ecdsa.Sign` returns, the
`ES256` signer base64url-encodes the three bytes `[1, 0, 1]` (`AQAB`) as the
signature segment of the token it writes. -/
theorem Encode_fixed_width_counterexample :
    (1 : Nat) < 256 ^ 32 ∧
      ((bigint.Encode { b := [], r := 0, s := 0 } 1 1).map fun x => x.2) = some [1, 1] ∧
      ([1, 1] : Bytes).length ≠ 2 * 32 ∧
      demoLib.ecdsaSign 0 { id := 7 } [] = .ok (256, 1) ∧
      ((bigint.Encode { b := [], r := 0, s := 0 } 256 1).map fun x => x.2) = some [1, 0, 1] ∧
      base64.Encode [1, 0, 1] = ascii "AQAB" ∧
      (SignTo demoLib newSigner Builder.writer 0 "ES256" (some demoHeader) (some demoPayload)
        demoProviderES).written = [ascii "RQo.UAo.AQAB"] := by
  decide

/-- C3 (the code at the failing input). `r = 256` and `s = 1` are both
representable in 32 bytes; `Encode` returns the three bytes `[1, 0, 1]`, and
`Decode` of these bytes sets `r = 1` and `s = 1`. -/
theorem Decode_Encode_256_1 :
    (256 < 256 ^ 32 ∧ 1 < 256 ^ 32) ∧
      ((bigint.Encode { b := [], r := 0, s := 0 } 256 1).map fun x => x.2) = some [1, 0, 1] ∧
      ((bigint.Encode { b := [], r := 0, s := 0 } 256 1).map fun x =>
          ((x.1.Decode x.2).r, (x.1.Decode x.2).s)) = some (1, 1) := by
  decide

/-- C2 (the code at the failing input). With a library whose `ecdsa.Sign`
returns the pair `(256, 1)` and whose `ecdsa.Verify` accepts exactly that
pair, `SignTo` for `ES256` writes a token whose signature segment is the
base64url text of the bytes `[1, 0, 1]`; the ES check of `Verify` recovers the
pair `(1, 1)` from it, and `Verify` fails with `ErrInvalidToken`. -/
theorem ES_round_trip_256_1 :
    (SignTo demoLib newSigner Builder.writer 0 "ES256" (some demoHeader) (some demoPayload)
        demoProviderES).written = [ascii "RQo.UAo." ++ base64.Encode [1, 0, 1]] ∧
      (SignTo demoLib newSigner Builder.writer 0 "ES256" (some demoHeader) (some demoPayload)
        demoProviderES).result = .returned none ∧
      demoLib.ecdsaVerify { id := 7 } [byte 7] 256 1 = true ∧
      (({ newVerifier with
            headerPayloadToken := ascii "RQo.UAo", signToken := base64.Encode [1, 0, 1] }
          : verifier).es demoLib demoProviderES.GetSha256 demoProviderES.ES256Key).1.bigint
        = { b := [], r := 1, s := 1 } ∧
      (Verify demoLib newVerifier (ascii "RQo.UAo." ++ base64.Encode [1, 0, 1])
        demoProviderES).err = some .ErrInvalidToken := by
  decide

/-! ## C4 : the string returning sign functions -/

/-- C4 (the code at every input). Each of the sixteen string returning sign
functions returns the empty string, whatever its `...To` function wrote:
`str.String()` is evaluated before the `...To` call.  On the sample input
`SignTo` writes the eleven byte token `SAo.UAo.awc`, which ends up in the
builder, while `Sign` returns the empty string together with a nil error. -/
theorem Sign_returns_empty (L : Lib) (s : signer) (rnd : Nat) (alg : String)
    (header payload : Option Claims) (provider : Provider) (secret : Bytes) :
    ((Sign L s rnd alg header payload provider).token = [] ∧
      (SignHS256 L s header payload provider).token = [] ∧
      (SignHS384 L s header payload provider).token = [] ∧
      (SignHS512 L s header payload provider).token = [] ∧
      (SignRS256 L s rnd header payload provider).token = [] ∧
      (SignRS384 L s rnd header payload provider).token = [] ∧
      (SignRS512 L s rnd header payload provider).token = [] ∧
      (SignES256 L s rnd header payload provider).token = [] ∧
      (SignES384 L s rnd header payload provider).token = [] ∧
      (SignES512 L s rnd header payload provider).token = [] ∧
      (SignPS256 L s rnd header payload provider).token = [] ∧
      (SignPS384 L s rnd header payload provider).token = [] ∧
      (SignPS512 L s rnd header payload provider).token = [] ∧
      (SignHS256WithSecret L s header payload secret).token = [] ∧
      (SignHS384WithSecret L s header payload secret).token = [] ∧
      (SignHS512WithSecret L s header payload secret).token = []) ∧
    ((Sign demoLib newSigner 0 "HS256" (some demoHeader) (some demoPayload) demoProvider).token
        = [] ∧
      (Sign demoLib newSigner 0 "HS256" (some demoHeader) (some demoPayload)
        demoProvider).effect.written = [ascii "SAo.UAo.awc"] ∧
      (Sign demoLib newSigner 0 "HS256" (some demoHeader) (some demoPayload)
        demoProvider).effect.result = .returned none ∧
      (Sign demoLib newSigner 0 "HS256" (some demoHeader) (some demoPayload) demoProvider).str.buf
        = ascii "SAo.UAo.awc") := by
  refine ⟨⟨rfl, rfl, rfl, rfl, rfl, rfl, rfl, rfl, rfl, rfl, rfl, rfl, rfl, rfl, rfl, rfl⟩, ?_⟩
  decide

/-! ## C5 : the HS check -/

/-- C5. The HS family check, run with a freshly made or reset HMAC digest of
the secret, returns nil exactly when the signature segment equals
`base64url(HMAC(secret, headerPayloadToken))` and `ErrInvalidToken` in every
other case.  On a token whose signature segment was made with another secret
it returns nil when the two HMAC values of the input are equal and
`ErrInvalidToken` when they differ.  After `parseToken` split a token
`a.b.c`, the compared segment is `c` and the HMAC input is the literal
`a.b`. -/
theorem hs_signature_check (L : Lib) (v : verifier) (sha : Sha) (secret secret1 : Bytes)
    (input : Bytes) :
    ((v.hs L (some (hmac.New sha secret))).2.2 = none ↔
        v.signToken = base64.Encode (L.digest sha (some secret) v.headerPayloadToken)) ∧
      ((v.hs L (some (hmac.New sha secret))).2.2 = none ∨
        (v.hs L (some (hmac.New sha secret))).2.2 = some .ErrInvalidToken) ∧
      (({ v with headerPayloadToken := input,
                 signToken := base64.Encode (L.digest sha (some secret1) input) } : verifier).hs L
          (some (hmac.New sha secret))).2.2 =
        (if L.digest sha (some secret1) input = L.digest sha (some secret) input then none
        else some .ErrInvalidToken) ∧
      (∀ a b c : Bytes, dot ∉ a → dot ∉ b →
        ((v.parseToken (a ++ dot :: (b ++ dot :: c))).1.hs L (some (hmac.New sha secret))).2.2 =
          if c = base64.Encode (L.digest sha (some secret) (a ++ dot :: b)) then none
          else some .ErrInvalidToken) := by
  refine ⟨?_, ?_, ?_, ?_⟩
  · rw [hs_spec]
    simp only [hmac.New, List.nil_append]
    split <;> simp_all
  · rw [hs_spec]
    split
    · exact Or.inl rfl
    · exact Or.inr rfl
  · rw [hs_spec]
    simp only [hmac.New, List.nil_append]
    by_cases hd : L.digest sha (some secret1) input = L.digest sha (some secret) input
    · rw [if_pos hd, if_pos (by rw [hd])]
    · rw [if_neg hd, if_neg]
      intro hc
      exact hd (base64.Encode_injective _ _ hc)
  · intro a b c ha hb
    rw [parseToken_split v a b c ha hb, hs_spec]
    simp only [hmac.New, List.nil_append]

/-- Witness of C5: the sample token `SAo.UAo.awc` is accepted with the secret
`k` and rejected with the secret `k2`. -/
theorem hs_signature_check_witness :
    ((newVerifier.parseToken (ascii "SAo" ++ dot :: (ascii "UAo" ++ dot :: ascii "awc"))).1.hs
        demoLib (some (hmac.New .SHA256 (ascii "k")))).2.2 = none ∧
      ((newVerifier.parseToken (ascii "SAo" ++ dot :: (ascii "UAo" ++ dot :: ascii "awc"))).1.hs
        demoLib (some (hmac.New .SHA256 (ascii "k2")))).2.2 = some .ErrInvalidToken :=
  ⟨((hs_signature_check demoLib newVerifier .SHA256 (ascii "k") [] []).2.2.2 (ascii "SAo")
      (ascii "UAo") (ascii "awc") (by decide) (by decide)).trans (by decide),
    ((hs_signature_check demoLib newVerifier .SHA256 (ascii "k2") [] []).2.2.2 (ascii "SAo")
      (ascii "UAo") (ascii "awc") (by decide) (by decide)).trans (by decide)⟩

/-! ## C6 : wire format of an HS token -/

/-- C6. For an HS algorithm, a provider whose digest for it is freshly
reset, and a header map object `a` and a payload map reference whose contents
JSON-encode to `hb` and `pb` when the encoder serialises them (the header
after injection; the payload as the caller passed it, unless it is the
header's own map object, in which case it is the header after injection and
`pb = hb`): the one byte string `SignTo` writes is
`input ++ "." ++ b64(HMAC(secret, input))` with
`input = b64(hb) ++ "." ++ b64(pb)`; it has exactly two `'.'` and no `'='`. -/
theorem HS_wire_format (L : Lib) (alg : String)
    (halg : alg = "HS256" ∨ alg = "HS384" ∨ alg = "HS512")
    (p : Provider) (h : Hash) (hget : p.GetHS alg = some h) (hreset : h.data = [])
    (s : signer) (w : Writer) (rnd : Nat) (M : Heap) (a : Ref) (payload : Option Ref)
    (hb pb : Bytes)
    (hH : L.jsonEncode (some ((s.encodeRef L alg M (some a) payload).2.1 a)) = .ok hb)
    (hP : L.jsonEncode (payload.map (s.encodeRef L alg M (some a) payload).2.1) = .ok pb) :
    (SignToRef L s w rnd alg M (some a) payload p).written =
        [(base64.Encode hb ++ dot :: base64.Encode pb) ++ dot ::
          base64.Encode (L.digest h.sha h.key (base64.Encode hb ++ dot :: base64.Encode pb))] ∧
      ((base64.Encode hb ++ dot :: base64.Encode pb) ++ dot ::
          base64.Encode (L.digest h.sha h.key (base64.Encode hb ++ dot :: base64.Encode pb))).count
        dot = 2 ∧
      (61 : Byte) ∉ (base64.Encode hb ++ dot :: base64.Encode pb) ++ dot ::
          base64.Encode (L.digest h.sha h.key (base64.Encode hb ++ dot :: base64.Encode pb)) ∧
      (s.encodeRef L alg M (some a) payload).2.1 a =
        ((M a).set "jwt" (.str "JWT")).set "alg" (.alg alg) ∧
      (payload ≠ some a →
        payload.map (s.encodeRef L alg M (some a) payload).2.1 = payload.map M) ∧
      (payload = some a → pb = hb) := by
  have hheap : (s.encodeRef L alg M (some a) payload).2.1 = M.inject alg a := by
    simp only [signer.encodeRef, Heap.inject]
    split
    · rfl
    · split <;> rfl
  rw [hheap] at hH hP ⊢
  refine ⟨?_, ?_, ?_, inject_same M alg a, inject_payload M alg a payload, ?_⟩
  · have hw := (SignToRef_hs L s w rnd alg M (some a) payload p halg).1
    rw [hget, (hsRef_ok L s w alg M a payload h hb pb hH hP).1, hreset] at hw
    rw [hw]
    simp
  · simp only [List.count_append, List.count_cons,
      List.count_eq_zero_of_not_mem (base64.dot_not_mem_Encode _)]
    simp
  · have h1 := base64.pad_not_mem_Encode hb
    have h2 := base64.pad_not_mem_Encode pb
    have h3 := base64.pad_not_mem_Encode
      (L.digest h.sha h.key (base64.Encode hb ++ dot :: base64.Encode pb))
    have h4 : (61 : Byte) ≠ dot := by decide
    simp only [List.mem_append, List.mem_cons, not_or]
    exact ⟨⟨h1, h4, h2⟩, h4, h3⟩
  · intro hp
    subst hp
    simp only [Option.map_some'] at hP
    rw [hH] at hP
    injection hP with hP
    exact hP.symm

/-- Witness of C6 on the sample header (address 0) and payload (address 1). -/
theorem HS_wire_format_witness :
    (SignToRef demoLib newSigner Builder.writer 0 "HS256" demoHeap (some 0) (some 1)
        demoProvider).written =
        [(base64.Encode (ascii "H\n") ++ dot :: base64.Encode (ascii "P\n")) ++ dot ::
          base64.Encode (demoLib.digest .SHA256 (some (ascii "k"))
            (base64.Encode (ascii "H\n") ++ dot :: base64.Encode (ascii "P\n")))] ∧
      ((base64.Encode (ascii "H\n") ++ dot :: base64.Encode (ascii "P\n")) ++ dot ::
          base64.Encode (demoLib.digest .SHA256 (some (ascii "k"))
            (base64.Encode (ascii "H\n") ++ dot :: base64.Encode (ascii "P\n")))).count dot = 2 ∧
      (61 : Byte) ∉ (base64.Encode (ascii "H\n") ++ dot :: base64.Encode (ascii "P\n")) ++ dot ::
          base64.Encode (demoLib.digest .SHA256 (some (ascii "k"))
            (base64.Encode (ascii "H\n") ++ dot :: base64.Encode (ascii "P\n"))) ∧
      (signer.encodeRef demoLib newSigner "HS256" demoHeap (some 0) (some 1)).2.1 0 =
        ((demoHeap 0).set "jwt" (.str "JWT")).set "alg" (.alg "HS256") ∧
      ((some 1 : Option Ref) ≠ some 0 →
        (some 1 : Option Ref).map
            (signer.encodeRef demoLib newSigner "HS256" demoHeap (some 0) (some 1)).2.1 =
          (some 1 : Option Ref).map demoHeap) ∧
      ((some 1 : Option Ref) = some 0 → ascii "P\n" = ascii "H\n") :=
  HS_wire_format demoLib "HS256" (Or.inl rfl) demoProvider (hmac.New .SHA256 (ascii "k"))
    (by decide) (by decide) newSigner Builder.writer 0 demoHeap 0 (some 1)
    (ascii "H\n") (ascii "P\n") (by decide) (by decide)

/-! ## C7 : header injection -/

/-- C7 (the code at every header). After the encoder ran, the header has
`"alg"` set to the algorithm and `"jwt"` set to `"JWT"`; the key `"typ"` is
not written: it keeps the value it had, and is absent from the header when the
caller did not set it.  On the empty header the result is exactly the two
entries `"jwt"` and `"alg"`. -/
theorem encode_sets_jwt_not_typ (L : Lib) (s : signer) (alg : String) (H : Claims)
    (P : Option Claims) :
    ∃ H1, (s.encode L alg (some H) P).2.1 = some H1 ∧
      H1.get "alg" = some (.alg alg) ∧
      H1.get "jwt" = some (.str "JWT") ∧
      H1.get "typ" = H.get "typ" ∧
      (s.encode L alg (some []) P).2.1 = some [("jwt", .str "JWT"), ("alg", .alg alg)] ∧
      Claims.get [("jwt", .str "JWT"), ("alg", .alg alg)] "typ" = none ∧
      (Header.SetTYP []).get "typ" = some (.str "JWT") := by
  refine ⟨_, encode_header L s alg H P, Claims.get_set_self _ _ _, ?_, ?_, ?_, ?_, ?_⟩
  · rw [Claims.get_set_other _ _ _ _ (by decide), Claims.get_set_self]
  · rw [Claims.get_set_other _ _ _ _ (by decide), Claims.get_set_other _ _ _ _ (by decide)]
  · rw [encode_header]
    simp [Claims.set]
  · simp [Claims.get]
  · decide

/-! ## C9, C10 : malformed tokens -/

/-- C9. On a string with fewer than two `'.'`, `Verify` returns a nil header,
a nil payload and `ErrInvalidToken`, and makes no call on the provider. -/
theorem Verify_fewer_than_two_dots (L : Lib) (v : verifier) (token : Bytes) (provider : Provider)
    (h : token.count dot < 2) :
    Verify L v token provider =
      { header := none, payload := none, err := some .ErrInvalidToken, calls := [],
        pooled := none } := by
  have hne : (v.parseToken token).2 ≠ none := by
    intro hc
    have := (parseToken_ok_iff v token).mp hc
    omega
  rcases hp : v.parseToken token with ⟨v1, e⟩
  rw [hp] at hne
  cases e with
  | none => exact absurd rfl hne
  | some e =>
      have he := parseToken_err v token e (by rw [hp])
      subst he
      simp only [Verify, hp]

/-- Witness of C9: the strings `abc.def` and `abcdef`. -/
theorem Verify_fewer_than_two_dots_witness :
    ((ascii "abc.def").count dot < 2 ∧
      Verify demoLib newVerifier (ascii "abc.def") demoProvider =
        { header := none, payload := none, err := some .ErrInvalidToken, calls := [],
          pooled := none }) ∧
    ((ascii "abcdef").count dot < 2 ∧
      Verify demoLib newVerifier (ascii "abcdef") demoProvider =
        { header := none, payload := none, err := some .ErrInvalidToken, calls := [],
          pooled := none }) :=
  ⟨⟨by decide, Verify_fewer_than_two_dots demoLib newVerifier (ascii "abc.def") demoProvider
      (by decide)⟩,
    ⟨by decide, Verify_fewer_than_two_dots demoLib newVerifier (ascii "abcdef") demoProvider
      (by decide)⟩⟩

/-- C10 (counterexample). The string `a.b.c.d` has three `'.'`, and
`parseToken` succeeds on it: the signature segment is `c.d`. -/
theorem parseToken_three_dots_counterexample :
    (ascii "a.b.c.d").count dot = 3 ∧
      (newVerifier.parseToken (ascii "a.b.c.d")).2 = none ∧
      (newVerifier.parseToken (ascii "a.b.c.d")).1.headerToken = ascii "a" ∧
      (newVerifier.parseToken (ascii "a.b.c.d")).1.payloadToken = ascii "b" ∧
      (newVerifier.parseToken (ascii "a.b.c.d")).1.signToken = ascii "c.d" := by
  decide

/-- C10 (amended). `parseToken` succeeds on a token if and only if the token
has at least two `'.'`; every token with fewer is rejected with
`ErrInvalidToken`, and `parseToken` returns no other error. -/
theorem parseToken_succeeds_iff (v : verifier) (token : Bytes) :
    ((v.parseToken token).2 = none ↔ 2 ≤ token.count dot) ∧
      ((v.parseToken token).2 = some .ErrInvalidToken ↔ token.count dot < 2) := by
  have h1 := parseToken_ok_iff v token
  refine ⟨h1, ?_⟩
  constructor
  · intro h
    by_contra hc
    have := h1.mpr (by omega)
    rw [this] at h
    cases h
  · intro h
    cases he : (v.parseToken token).2 with
    | none =>
        have := h1.mp he
        omega
    | some e => rw [parseToken_err v token e he]

/-! ## C11 : what parseToken stores -/

/-- A successful `parseToken` split the token at its first two separators. -/
theorem parseToken_some (v v1 : verifier) (token : Bytes) (h : v.parseToken token = (v1, none)) :
    ∃ a b c, token = a ++ dot :: (b ++ dot :: c) ∧ dot ∉ a ∧ dot ∉ b ∧
      v1 = { v with headerToken := a, payloadToken := b, headerPayloadToken := a ++ dot :: b,
                    signToken := c } := by
  have h0 := h
  simp only [verifier.parseToken] at h
  split at h
  · cases h
  · rename_i i1 h1
    obtain ⟨a, rest, e, ha, hi⟩ := IndexByte_some _ _ _ h1
    split at h
    · cases h
    · rename_i i2 h2
      subst hi
      have e1 : token.drop (a.length + 1) = rest := by
        rw [e, show a ++ dot :: rest = (a ++ [dot]) ++ rest by simp]
        rw [List.drop_left' (by simp)]
      rw [e1] at h2
      obtain ⟨b, c, e2, hb, _⟩ := IndexByte_some _ _ _ h2
      refine ⟨a, b, c, by rw [e, e2], ha, hb, ?_⟩
      rw [e, e2, parseToken_split v a b c ha hb] at h0
      injection h0 with h0 _
      exact h0.symm

/-- C11. After a successful `parseToken`, the three stored segments joined
with `'.'` are the token, the header and payload segments contain no `'.'`,
and `headerPayloadToken`, the byte string that `hashHeaderPayload` writes to
the digest, is the token's prefix before its second `'.'`: the literal
`headerToken ++ "." ++ payloadToken`. -/
theorem parseToken_literal (v v1 : verifier) (token : Bytes)
    (h : v.parseToken token = (v1, none)) :
    v1.headerToken ++ dot :: (v1.payloadToken ++ dot :: v1.signToken) = token ∧
      dot ∉ v1.headerToken ∧ dot ∉ v1.payloadToken ∧
      v1.headerPayloadToken = v1.headerToken ++ dot :: v1.payloadToken ∧
      v1.headerPayloadToken ++ dot :: v1.signToken = token ∧
      v1.headerPayloadToken.count dot = 1 ∧
      (∀ (L : Lib) (d : Hash),
        (v1.hashHeaderPayload L d).2 = d.Write (v1.headerToken ++ dot :: v1.payloadToken) ∧
        (v1.hashHeaderPayload L d).1.hashBuffer =
          L.digest d.sha d.key (d.data ++ (v1.headerToken ++ dot :: v1.payloadToken))) := by
  obtain ⟨a, b, c, e, ha, hb, hv⟩ := parseToken_some v v1 token h
  subst hv
  subst e
  refine ⟨rfl, ha, hb, rfl, by simp, ?_, ?_⟩
  · simp only [List.count_append, List.count_cons, List.count_eq_zero_of_not_mem ha,
      List.count_eq_zero_of_not_mem hb]
    simp
  · intro L d
    simp [verifier.hashHeaderPayload, Hash.Sum, Hash.Write]

/-- Witness of C11: the token `SAo.UAo.awc`. -/
theorem parseToken_literal_witness :
    ascii "SAo" ++ dot :: (ascii "UAo" ++ dot :: ascii "awc") = ascii "SAo.UAo.awc" ∧
      (newVerifier.parseToken (ascii "SAo.UAo.awc")).1.headerPayloadToken = ascii "SAo.UAo" ∧
      (newVerifier.parseToken (ascii "SAo.UAo.awc")).1.headerPayloadToken ++ dot ::
        (newVerifier.parseToken (ascii "SAo.UAo.awc")).1.signToken = ascii "SAo.UAo.awc" :=
  ⟨by decide, by decide,
    (parseToken_literal newVerifier (newVerifier.parseToken (ascii "SAo.UAo.awc")).1
      (ascii "SAo.UAo.awc") (by decide)).2.2.2.2.1⟩

/-! ## Errors of the family checks -/

theorem base64.sextets_err (b : Bytes) (e : Error) (h : base64.sextets b = .error e) :
    e = .corruptInput := by
  induction b with
  | nil => simp [base64.sextets] at h
  | cons c cs ih =>
      simp only [base64.sextets] at h
      split at h
      · split at h
        · cases h
        · rename_i e1 h1
          injection h with h
          subst h
          exact ih h1
      · split at h
        · exact ih h
        · injection h with h
          exact h.symm

theorem base64.pack_err (vs : List Nat) (e : Error) (h : base64.pack vs = .error e) :
    e = .corruptInput := by
  induction vs using base64.pack.induct with
  | case1 s1 s2 s3 s4 rest bs hok ih =>
      simp [base64.pack, hok] at h
  | case2 s1 s2 s3 s4 rest e1 herr ih =>
      simp only [base64.pack, herr] at h
      injection h with h
      subst h
      exact ih herr
  | case3 s1 s2 s3 => simp [base64.pack] at h
  | case4 s1 s2 => simp [base64.pack] at h
  | case5 s1 =>
      simp only [base64.pack] at h
      injection h with h
      exact h.symm
  | case6 => simp [base64.pack] at h

theorem base64.Decode_err (b : Bytes) (e : Error) (h : base64.Decode b = .error e) :
    e = .corruptInput := by
  simp only [base64.Decode] at h
  split at h
  · exact base64.pack_err _ e h
  · rename_i e1 h1
    injection h with h
    subst h
    exact base64.sextets_err _ _ h1

theorem base64Decode_err (v : verifier) (b : Bytes) (e : Error)
    (h : (v.base64Decode b).2 = some e) : e = .corruptInput := by
  simp only [verifier.base64Decode] at h
  split at h
  · rename_i e1 h1
    injection h with h
    subst h
    exact base64.Decode_err _ _ h1
  · cases h

theorem hs_err (L : Lib) (v : verifier) (h : Option Hash) (e : Error)
    (he : (v.hs L h).2.2 = some e) : e = .ErrInvalidToken ∨ e = .ErrUnsupportedAlg := by
  cases h with
  | none =>
      simp only [verifier.hs] at he
      injection he with he
      exact Or.inr he.symm
  | some h =>
      rw [hs_spec] at he
      split at he
      · cases he
      · injection he with he
        exact Or.inl he.symm

theorem es_err (L : Lib) (v : verifier) (h : Option Hash) (k : Option ECKey) (e : Error)
    (he : (v.es L h k).2.2 = some e) :
    e = .ErrInvalidToken ∨ e = .ErrUnsupportedAlg ∨ e = .corruptInput := by
  simp only [verifier.es] at he
  split at he
  · injection he with he; exact Or.inr (Or.inl he.symm)
  · injection he with he; exact Or.inr (Or.inl he.symm)
  · simp only [verifier.hashHeaderPayload] at he
    split at he
    · rename_i v2 err h2
      injection he with he
      subst he
      exact Or.inr (Or.inr (base64Decode_err _ _ _ (by rw [h2])))
    · split at he
      · injection he with he; exact Or.inl he.symm
      · cases he

theorem rs_err (L : Lib) (v : verifier) (h : Option Hash) (c : Sha) (k : Option RSAKey)
    (e : Error) (he : (v.rs L h c k).2.2 = some e) :
    e = .ErrUnsupportedAlg ∨ e = .corruptInput ∨
      ∃ k0 d sg, L.verifyPKCS1v15 k0 c d sg = some e := by
  simp only [verifier.rs] at he
  split at he
  · injection he with he; exact Or.inl he.symm
  · injection he with he; exact Or.inl he.symm
  · simp only [verifier.hashHeaderPayload] at he
    split at he
    · rename_i v2 err h2
      injection he with he
      subst he
      exact Or.inr (Or.inl (base64Decode_err _ _ _ (by rw [h2])))
    · exact Or.inr (Or.inr ⟨_, _, _, he⟩)

theorem ps_err (L : Lib) (v : verifier) (h : Option Hash) (c : Sha) (k : Option RSAKey)
    (o : Option PSSOptions) (e : Error) (he : (v.ps L h c k o).2.2 = some e) :
    e = .ErrUnsupportedAlg ∨ e = .corruptInput ∨
      ∃ k0 d sg, L.verifyPSS k0 c d sg o = some e := by
  simp only [verifier.ps] at he
  split at he
  · injection he with he; exact Or.inl he.symm
  · injection he with he; exact Or.inl he.symm
  · simp only [verifier.hashHeaderPayload] at he
    split at he
    · rename_i v2 err h2
      injection he with he
      subst he
      exact Or.inr (Or.inl (base64Decode_err _ _ _ (by rw [h2])))
    · exact Or.inr (Or.inr ⟨_, _, _, he⟩)

/-- Case analysis on the `switch` of `Verify`. -/
theorem dispatch_elim (L : Lib) (v : verifier) (a : String) (p : Provider)
    (motive : verifier × List Call × Option Error → Prop)
    (hs : ∀ h (put : Option Hash → Call) (get : Call),
      motive ((v.hs L h).1, [get, put (v.hs L h).2.1], (v.hs L h).2.2))
    (es : ∀ h k (put : Option Hash → Call) (get key : Call),
      motive ((v.es L h k).1, [get, key, put (v.es L h k).2.1], (v.es L h k).2.2))
    (rs : ∀ h c k (put : Option Hash → Call) (get key : Call),
      motive ((v.rs L h c k).1, [get, key, put (v.rs L h c k).2.1], (v.rs L h c k).2.2))
    (ps : ∀ h c k o (put : Option Hash → Call) (get key opt : Call),
      motive ((v.ps L h c k o).1, [get, key, opt, put (v.ps L h c k o).2.1],
        (v.ps L h c k o).2.2))
    (dflt : IsSupportedAlg (L.toUpper a) = false →
      motive (v, [], some (.unsupportedAlgorithm a))) :
    motive (v.dispatch L a p) := by
  unfold verifier.dispatch
  by_cases c1 : L.toUpper a = "HS256"
  · rw [if_pos c1]; exact hs _ _ _
  rw [if_neg c1]
  by_cases c2 : L.toUpper a = "HS384"
  · rw [if_pos c2]; exact hs _ _ _
  rw [if_neg c2]
  by_cases c3 : L.toUpper a = "HS512"
  · rw [if_pos c3]; exact hs _ _ _
  rw [if_neg c3]
  by_cases c4 : L.toUpper a = "ES256"
  · rw [if_pos c4]; exact es _ _ _ _ _
  rw [if_neg c4]
  by_cases c5 : L.toUpper a = "ES384"
  · rw [if_pos c5]; exact es _ _ _ _ _
  rw [if_neg c5]
  by_cases c6 : L.toUpper a = "ES512"
  · rw [if_pos c6]; exact es _ _ _ _ _
  rw [if_neg c6]
  by_cases c7 : L.toUpper a = "RS256"
  · rw [if_pos c7]; exact rs _ _ _ _ _ _
  rw [if_neg c7]
  by_cases c8 : L.toUpper a = "RS384"
  · rw [if_pos c8]; exact rs _ _ _ _ _ _
  rw [if_neg c8]
  by_cases c9 : L.toUpper a = "RS512"
  · rw [if_pos c9]; exact rs _ _ _ _ _ _
  rw [if_neg c9]
  by_cases c10 : L.toUpper a = "PS256"
  · rw [if_pos c10]; exact ps _ _ _ _ _ _ _ _
  rw [if_neg c10]
  by_cases c11 : L.toUpper a = "PS384"
  · rw [if_pos c11]; exact ps _ _ _ _ _ _ _ _
  rw [if_neg c11]
  by_cases c12 : L.toUpper a = "PS512"
  · rw [if_pos c12]; exact ps _ _ _ _ _ _ _ _
  rw [if_neg c12]
  apply dflt
  simp [IsSupportedAlg, c1, c2, c3, c4, c5, c6, c7, c8, c9, c10, c11, c12]

/-- The errors of the `switch` of `Verify`. -/
theorem dispatch_err (L : Lib) (v : verifier) (a : String) (p : Provider) (e : Error)
    (he : (v.dispatch L a p).2.2 = some e) :
    e = .ErrInvalidToken ∨ e = .ErrUnsupportedAlg ∨ LibraryError L e ∨
      e = .unsupportedAlgorithm a := by
  have hsE : ∀ h, (v.hs L h).2.2 = some e →
      e = .ErrInvalidToken ∨ e = .ErrUnsupportedAlg ∨ LibraryError L e ∨
        e = .unsupportedAlgorithm a := by
    intro h hh
    rcases hs_err L v h e hh with h1 | h1
    · exact Or.inl h1
    · exact Or.inr (Or.inl h1)
  have esE : ∀ h k, (v.es L h k).2.2 = some e →
      e = .ErrInvalidToken ∨ e = .ErrUnsupportedAlg ∨ LibraryError L e ∨
        e = .unsupportedAlgorithm a := by
    intro h k hh
    rcases es_err L v h k e hh with h1 | h1 | h1
    · exact Or.inl h1
    · exact Or.inr (Or.inl h1)
    · exact Or.inr (Or.inr (Or.inl (Or.inl h1)))
  have rsE : ∀ h c k, (v.rs L h c k).2.2 = some e →
      e = .ErrInvalidToken ∨ e = .ErrUnsupportedAlg ∨ LibraryError L e ∨
        e = .unsupportedAlgorithm a := by
    intro h c k hh
    rcases rs_err L v h c k e hh with h1 | h1 | ⟨k0, d, sg, h1⟩
    · exact Or.inr (Or.inl h1)
    · exact Or.inr (Or.inr (Or.inl (Or.inl h1)))
    · exact Or.inr (Or.inr (Or.inl (Or.inr (Or.inr (Or.inl ⟨k0, c, d, sg, h1⟩)))))
  have psE : ∀ h c k o, (v.ps L h c k o).2.2 = some e →
      e = .ErrInvalidToken ∨ e = .ErrUnsupportedAlg ∨ LibraryError L e ∨
        e = .unsupportedAlgorithm a := by
    intro h c k o hh
    rcases ps_err L v h c k o e hh with h1 | h1 | ⟨k0, d, sg, h1⟩
    · exact Or.inr (Or.inl h1)
    · exact Or.inr (Or.inr (Or.inl (Or.inl h1)))
    · exact Or.inr (Or.inr (Or.inl (Or.inr (Or.inr (Or.inr ⟨k0, c, d, sg, o, h1⟩)))))
  revert he
  apply dispatch_elim L v a p
    (fun r => r.2.2 = some e → e = .ErrInvalidToken ∨ e = .ErrUnsupportedAlg ∨ LibraryError L e ∨
      e = .unsupportedAlgorithm a)
  · intro h _ _ he; exact hsE _ he
  · intro h k _ _ _ he; exact esE _ _ he
  · intro h c k _ _ _ he; exact rsE _ _ _ he
  · intro h c k o _ _ _ _ he; exact psE _ _ _ _ he
  · intro _ he
    injection he with he
    exact Or.inr (Or.inr (Or.inr he.symm))

/-! ## The steps of Verify -/

theorem parseToken_jsonPending (v v1 : verifier) (token : Bytes)
    (h : v.parseToken token = (v1, none)) : v1.jsonPending = v.jsonPending := by
  obtain ⟨a, b, c, _, _, _, hv⟩ := parseToken_some v v1 token h
  rw [hv]

/-- `Verify` up to the `switch`: after a successful parse, base64 decoding and
JSON decoding of the header segment. -/
theorem Verify_decoded (L : Lib) (v v1 : verifier) (token : Bytes) (p : Provider) (hb : Bytes)
    (hdr : Option Claims) (pend : Bytes)
    (hp : v.parseToken token = (v1, none))
    (hb64 : base64.Decode v1.headerToken = .ok hb)
    (hd : L.jsonDecode v.jsonPending hb = .ok (hdr, pend)) :
    Verify L v token p =
      match (match hdr with
        | none => none
        | some m => m.get "alg") with
      | some (.str alg) =>
          match ({ v1 with base64Buffer := hb, jsonBuffer := hb, jsonPending := pend }
              : verifier).dispatch L alg p with
          | (_, calls, some err) =>
              { header := none, payload := none, err := some err, calls := calls,
                pooled := none }
          | (v5, calls, none) =>
              match v5.base64Decode v5.payloadToken with
              | (_, some err) =>
                  { header := none, payload := none, err := some err, calls := calls,
                    pooled := none }
              | (v6, none) =>
                  match L.jsonDecode v6.jsonPending v6.base64Buffer with
                  | .error err =>
                      { header := none, payload := none, err := some err,
                        calls := calls, pooled := none }
                  | .ok (payload, pending1) =>
                      { header := hdr, payload := payload, err := none, calls := calls,
                        pooled := some { v6 with jsonBuffer := v6.base64Buffer,
                                                 jsonPending := pending1 } }
      | _ =>
          { header := none, payload := none, err := some .ErrInvalidToken, calls := [],
            pooled := none } := by
  have hj := parseToken_jsonPending v v1 token hp
  rw [← hj] at hd
  simp only [Verify, hp, verifier.base64Decode, hb64, hd]

/-- Every run of `Verify` either fails with nil claims, with an error of one
of the listed kinds, or succeeds with the decoded header (a non-nil map whose
`alg` is a string) and with the payload the JSON decoder produced. -/
theorem Verify_outcome (L : Lib) (v : verifier) (token : Bytes) (p : Provider) :
    (∃ e calls,
        Verify L v token p =
          { header := none, payload := none, err := some e, calls := calls, pooled := none } ∧
        (e = .ErrInvalidToken ∨ e = .ErrUnsupportedAlg ∨ LibraryError L e ∨
          ∃ a, e = .unsupportedAlgorithm a)) ∨
    (∃ m a pl calls v1,
        Verify L v token p =
          { header := some m, payload := pl, err := none, calls := calls, pooled := some v1 } ∧
        m.get "alg" = some (.str a) ∧
        ∃ pend b pend1, L.jsonDecode pend b = .ok (pl, pend1)) := by
  rcases hp : v.parseToken token with ⟨v1, e⟩
  cases e with
  | some e =>
      left
      refine ⟨e, [], by simp only [Verify, hp], Or.inl ?_⟩
      exact parseToken_err v token e (by rw [hp])
  | none =>
      cases hb64 : base64.Decode v1.headerToken with
      | error e =>
          left
          refine ⟨e, [], by simp only [Verify, hp, verifier.base64Decode, hb64], ?_⟩
          exact Or.inr (Or.inr (Or.inl (Or.inl (base64.Decode_err _ _ hb64))))
      | ok hb =>
          cases hd : L.jsonDecode v.jsonPending hb with
          | error e =>
              left
              have hj := parseToken_jsonPending v v1 token hp
              refine ⟨e, [], ?_, Or.inr (Or.inr (Or.inl (Or.inr (Or.inl ⟨_, _, hd⟩))))⟩
              rw [← hj] at hd
              simp only [Verify, hp, verifier.base64Decode, hb64, hd]
          | ok r =>
              obtain ⟨hdr, pend⟩ := r
              rw [Verify_decoded L v v1 token p hb hdr pend hp hb64 hd]
              split
              · rename_i alg halg
                have hm : ∃ m, hdr = some m ∧ m.get "alg" = some (.str alg) := by
                  cases hdr with
                  | none => cases halg
                  | some m => exact ⟨m, rfl, halg⟩
                obtain ⟨m, rfl, hma⟩ := hm
                rcases hdisp : verifier.dispatch L _ alg p with ⟨v5, calls, e⟩
                cases e with
                | some e =>
                    left
                    refine ⟨e, calls, rfl, ?_⟩
                    have := dispatch_err L _ alg p e (by rw [hdisp])
                    rcases this with h1 | h1 | h1 | h1
                    · exact Or.inl h1
                    · exact Or.inr (Or.inl h1)
                    · exact Or.inr (Or.inr (Or.inl h1))
                    · exact Or.inr (Or.inr (Or.inr ⟨alg, h1⟩))
                | none =>
                    simp only
                    rcases hpb : v5.base64Decode v5.payloadToken with ⟨v6, e⟩
                    cases e with
                    | some e =>
                        left
                        refine ⟨e, calls, rfl, ?_⟩
                        exact Or.inr (Or.inr (Or.inl (Or.inl
                          (base64Decode_err _ _ _ (by rw [hpb])))))
                    | none =>
                        simp only
                        cases hdp : L.jsonDecode v6.jsonPending v6.base64Buffer with
                        | error e =>
                            left
                            exact ⟨e, calls, rfl,
                              Or.inr (Or.inr (Or.inl (Or.inr (Or.inl ⟨_, _, hdp⟩))))⟩
                        | ok r =>
                            obtain ⟨pl, pend1⟩ := r
                            right
                            exact ⟨m, alg, pl, calls, _, rfl, hma, _, _, _, hdp⟩
              · left
                exact ⟨_, [], rfl, Or.inl rfl⟩

/-! ## C12 : unknown algorithm -/

/-- C12 (the code at the failing input). The header segment `WAo` of the
token `WAo.UAo.x` decodes to a JSON object whose `alg` is the string `XX999`,
which upper-cases to itself and is none of the twelve codes.  `Verify`
returns the value built by `fmt.Errorf("unsupported algorithm <%s>", alg)`,
which is not the value `ErrUnsupportedAlg`; no provider call is made. -/
theorem Verify_unknown_alg_XX999 :
    base64.Decode (ascii "WAo") = .ok (ascii "X\n") ∧
      demoLib.jsonDecode [] (ascii "X\n") = .ok (some [("alg", .str "XX999")], [10]) ∧
      demoLib.toUpper "XX999" = "XX999" ∧
      IsSupportedAlg "XX999" = false ∧
      Verify demoLib newVerifier (ascii "WAo.UAo.x") demoProvider =
        { header := none, payload := none, err := some (.unsupportedAlgorithm "XX999"),
          calls := [], pooled := none } ∧
      Error.unsupportedAlgorithm "XX999" ≠ Error.ErrUnsupportedAlg := by
  decide

/-! ## C13 : the errors of Verify -/

/-- C13 (counterexample). Three tokens on which `Verify` returns an error
that is neither `ErrInvalidToken` nor `ErrUnsupportedAlg`: `!.a.b`, whose
header segment is not base64url text (`base64.CorruptInputError`); `YQ.a.b`,
whose header segment decodes to bytes the JSON decoder rejects (the decoder's
error); and the RS256 token `Ugo.UAo.AA`, whose signature the RSA primitive
rejects (the primitive's error). -/
theorem Verify_error_counterexample :
    ((Verify demoLib newVerifier (ascii "!.a.b") demoProvider).err = some .corruptInput ∧
        Error.corruptInput ≠ Error.ErrInvalidToken ∧
        Error.corruptInput ≠ Error.ErrUnsupportedAlg) ∧
      ((Verify demoLib newVerifier (ascii "YQ.a.b") demoProvider).err = some (.lib 2) ∧
        demoLib.jsonDecode [] (ascii "a") = .error (.lib 2) ∧
        Error.lib 2 ≠ Error.ErrInvalidToken ∧ Error.lib 2 ≠ Error.ErrUnsupportedAlg) ∧
      ((Verify demoLib newVerifier (ascii "Ugo.UAo.AA") demoProviderRS).err = some (.lib 4) ∧
        demoLib.verifyPKCS1v15 { id := 9 } .SHA256 [byte 7] [0] = some (.lib 4) ∧
        Error.lib 4 ≠ Error.ErrInvalidToken ∧ Error.lib 4 ≠ Error.ErrUnsupportedAlg) := by
  decide

/-- C13 (amended). If `Verify` returns a non-nil error other than the value
built for an unknown algorithm, the error is `ErrInvalidToken`,
`ErrUnsupportedAlg`, or the error value of the failing library call handed on
unchanged (`base64.CorruptInputError`, the JSON decoder's error, the error of
`rsa.VerifyPKCS1v15` or `rsa.VerifyPSS`).  A parse failure is reported as
`ErrInvalidToken`; a base64url failure of the header segment is reported as
the base64 error, and a JSON failure of the header as the decoder's error; the
RS and PS checks return what the RSA primitive returns for the decoded
signature. -/
theorem Verify_error_kinds (L : Lib) (v : verifier) (token : Bytes) (p : Provider) (e : Error)
    (h : (Verify L v token p).err = some e) (hknown : ∀ a, e ≠ .unsupportedAlgorithm a) :
    (e = .ErrInvalidToken ∨ e = .ErrUnsupportedAlg ∨ LibraryError L e) ∧
      ((v.parseToken token).2 ≠ none → e = .ErrInvalidToken) ∧
      (∀ v1 e1, v.parseToken token = (v1, none) → base64.Decode v1.headerToken = .error e1 →
        e = e1 ∧ e = .corruptInput) ∧
      (∀ v1 hb e1, v.parseToken token = (v1, none) → base64.Decode v1.headerToken = .ok hb →
        L.jsonDecode v.jsonPending hb = .error e1 → e = e1) ∧
      (∀ (v2 : verifier) (d : Hash) (c : Sha) (k : RSAKey) (o : Option PSSOptions) (sig : Bytes),
        (({ v2 with signToken := base64.Encode sig } : verifier).rs L (some d) c (some k)).2.2 =
            L.verifyPKCS1v15 k c (L.digest d.sha d.key (d.data ++ v2.headerPayloadToken)) sig ∧
          (({ v2 with signToken := base64.Encode sig } : verifier).ps L (some d) c (some k) o).2.2 =
            L.verifyPSS k c (L.digest d.sha d.key (d.data ++ v2.headerPayloadToken)) sig o) := by
  refine ⟨?_, ?_, ?_, ?_, ?_⟩
  rotate_right
  · intro v2 d c k o sig
    simp only [verifier.rs, verifier.ps, verifier.hashHeaderPayload, verifier.base64Decode,
      Hash.Sum, Hash.Write, List.nil_append, base64.Decode_Encode, and_self]
  · rcases Verify_outcome L v token p with ⟨e1, calls, h1, hk⟩ | ⟨m, a, pl, calls, v1, h1, _⟩
    · rw [h1] at h
      injection h with h
      subst h
      rcases hk with hk | hk | hk | ⟨a, hk⟩
      · exact Or.inl hk
      · exact Or.inr (Or.inl hk)
      · exact Or.inr (Or.inr hk)
      · exact absurd hk (hknown a)
    · rw [h1] at h
      cases h
  · intro hne
    rcases hp : v.parseToken token with ⟨v1, e1⟩
    rw [hp] at hne
    cases e1 with
    | none => exact absurd rfl hne
    | some e1 =>
        have he1 := parseToken_err v token e1 (by rw [hp])
        simp only [Verify, hp] at h
        injection h with h
        rw [← h, he1]
  · intro v1 e1 hp hb64
    simp only [Verify, hp, verifier.base64Decode, hb64] at h
    injection h with h
    exact ⟨h.symm, by rw [← h]; exact base64.Decode_err _ _ hb64⟩
  · intro v1 hb e1 hp hb64 hd
    have hj := parseToken_jsonPending v v1 token hp
    rw [← hj] at hd
    simp only [Verify, hp, verifier.base64Decode, hb64, hd] at h
    injection h with h
    exact h.symm

/-- Witness of C13 (amended): the token `!.a.b`. -/
theorem Verify_error_kinds_witness :
    (Verify demoLib newVerifier (ascii "!.a.b") demoProvider).err = some .corruptInput ∧
      (Error.corruptInput = .ErrInvalidToken ∨ Error.corruptInput = .ErrUnsupportedAlg ∨
        LibraryError demoLib .corruptInput) :=
  ⟨by decide,
    (Verify_error_kinds demoLib newVerifier (ascii "!.a.b") demoProvider .corruptInput
      (by decide) (by intro a h; cases h)).1⟩

/-! ## C14 : missing or non-string alg -/

/-- C14. On a token with two separators whose header segment decodes (base64
and JSON) to a map that has no `"alg"`, or whose `"alg"` is not of type
`string`, `Verify` returns nil claims and `ErrInvalidToken`, and makes no call
on the provider: no digest is acquired and no signature check runs. -/
theorem Verify_alg_not_string (L : Lib) (v v1 : verifier) (token : Bytes) (p : Provider)
    (hb : Bytes) (m : Claims) (pend : Bytes)
    (hp : v.parseToken token = (v1, none))
    (hb64 : base64.Decode v1.headerToken = .ok hb)
    (hd : L.jsonDecode v.jsonPending hb = .ok (some m, pend))
    (hna : ∀ a, m.get "alg" ≠ some (.str a)) :
    Verify L v token p =
      { header := none, payload := none, err := some .ErrInvalidToken, calls := [],
        pooled := none } := by
  rw [Verify_decoded L v v1 token p hb (some m) pend hp hb64 hd]
  split
  · rename_i alg halg
    exact absurd halg (hna alg)
  · rfl

/-- Witness of C14: the header segment `UAo` decodes to the sample payload
map, which has no `"alg"`. -/
theorem Verify_alg_not_string_witness :
    demoPayload.get "alg" = none ∧
      Verify demoLib newVerifier (ascii "UAo.UAo.x") demoProvider =
        { header := none, payload := none, err := some .ErrInvalidToken, calls := [],
          pooled := none } :=
  ⟨by decide,
    Verify_alg_not_string demoLib newVerifier (newVerifier.parseToken (ascii "UAo.UAo.x")).1
      (ascii "UAo.UAo.x") demoProvider (ascii "P\n") demoPayload [10] (by decide) (by decide)
      (by decide)
      (by intro a h; have h0 : demoPayload.get "alg" = none := by decide
          rw [h0] at h; cases h)⟩

/-! ## The switch of Verify and letter case -/

theorem IsSupportedAlg_iff (a : String) :
    IsSupportedAlg a = true ↔
      (a = "HS256" ∨ a = "HS384" ∨ a = "HS512" ∨ a = "RS256" ∨ a = "RS384" ∨ a = "RS512" ∨
        a = "ES256" ∨ a = "ES384" ∨ a = "ES512" ∨ a = "PS256" ∨ a = "PS384" ∨ a = "PS512") := by
  unfold IsSupportedAlg
  constructor
  · intro h
    by_contra hc
    rw [if_neg hc] at h
    cases h
  · intro h
    rw [if_pos h]

/-- The `switch` of `Verify` depends on the header's `alg` through
`strings.ToUpper(alg)` only, as long as that is one of the twelve codes. -/
theorem dispatch_congr (L : Lib) (v : verifier) (a b : String) (p : Provider)
    (hab : L.toUpper a = L.toUpper b) (hs : IsSupportedAlg (L.toUpper a) = true) :
    v.dispatch L a p = v.dispatch L b p ∧ (v.dispatch L a p).2.1 ≠ [] := by
  have h12 := (IsSupportedAlg_iff _).mp hs
  rcases h12 with h | h | h | h | h | h | h | h | h | h | h | h <;>
    (have hb := hab.symm.trans h
     simp [verifier.dispatch, h, hb])

theorem demoLib_toUpper : ToUpperASCII demoLib := fun _ _ => rfl

/-! ## C16 : absent key on verify -/

theorem es_nokey (L : Lib) (v : verifier) (h : Option Hash) :
    v.es L h none = (v, h, some .ErrUnsupportedAlg) := by
  cases h <;> rfl

theorem rs_nokey (L : Lib) (v : verifier) (h : Option Hash) (c : Sha) :
    v.rs L h c none = (v, h, some .ErrUnsupportedAlg) := by
  cases h <;> rfl

theorem ps_nokey (L : Lib) (v : verifier) (h : Option Hash) (c : Sha) (o : Option PSSOptions) :
    v.ps L h c none o = (v, h, some .ErrUnsupportedAlg) := by
  cases h <;> rfl

/-- The `switch` of `Verify` for an RS, PS or ES code without a key. -/
theorem dispatch_nokey (L : Lib) (v : verifier) (a : String) (p : Provider)
    (hcode : isRS (L.toUpper a) = true ∨ isPS (L.toUpper a) = true ∨ isES (L.toUpper a) = true)
    (hr : p.rsaKeyOf (L.toUpper a) = none) (he : p.ecKeyOf (L.toUpper a) = none) :
    v.dispatch L a p = (v, absentKeyCalls p (L.toUpper a), some .ErrUnsupportedAlg) := by
  simp only [isRS, isPS, isES, decide_eq_true_eq] at hcode
  rcases hcode with (h | h | h) | (h | h | h) | (h | h | h) <;>
    (rw [h] at hr he
     simp [Provider.rsaKeyOf, Provider.ecKeyOf] at hr he
     simp [verifier.dispatch, h, hr, he, es_nokey, rs_nokey, ps_nokey, absentKeyCalls])

/-- C16. On a token whose header decodes with an `alg` that upper-cases to an
RS, PS or ES code for which the provider has no key, `Verify` returns nil
claims and `ErrUnsupportedAlg`.  The provider is asked for the digest and the
key (and the PSS options) and gets the digest back untouched; the family check
leaves the verifier as it was, so the signature segment is not base64-decoded,
and no library primitive enters the result. -/
theorem Verify_absent_key (L : Lib) (v v1 : verifier) (token : Bytes) (p : Provider)
    (hb : Bytes) (m : Claims) (pend : Bytes) (a : String)
    (hp : v.parseToken token = (v1, none))
    (hb64 : base64.Decode v1.headerToken = .ok hb)
    (hd : L.jsonDecode v.jsonPending hb = .ok (some m, pend))
    (ha : m.get "alg" = some (.str a))
    (hcode : isRS (L.toUpper a) = true ∨ isPS (L.toUpper a) = true ∨ isES (L.toUpper a) = true)
    (hr : p.rsaKeyOf (L.toUpper a) = none) (he : p.ecKeyOf (L.toUpper a) = none) :
    Verify L v token p =
      { header := none, payload := none, err := some .ErrUnsupportedAlg,
        calls := absentKeyCalls p (L.toUpper a), pooled := none } ∧
    (({ v1 with base64Buffer := hb, jsonBuffer := hb, jsonPending := pend } : verifier).dispatch
        L a p).1 = { v1 with base64Buffer := hb, jsonBuffer := hb, jsonPending := pend } := by
  constructor
  · rw [Verify_decoded L v v1 token p hb (some m) pend hp hb64 hd]
    simp only [ha, dispatch_nokey L _ a p hcode hr he]
  · rw [dispatch_nokey L _ a p hcode hr he]

/-- Witness of C16: the RS256 token `Ugo.UAo.CQc` and the sample provider
without keys. -/
theorem Verify_absent_key_witness :
    demoProvider.RS256Key = none ∧
      Verify demoLib newVerifier (ascii "Ugo.UAo.CQc") demoProvider =
        { header := none, payload := none, err := some .ErrUnsupportedAlg,
          calls := [.GetSha256, .RS256Key,
            .PutSha256 (some { sha := .SHA256, key := none, data := [] })],
          pooled := none } :=
  ⟨rfl,
    (Verify_absent_key demoLib newVerifier (newVerifier.parseToken (ascii "Ugo.UAo.CQc")).1
      (ascii "Ugo.UAo.CQc") demoProvider (ascii "R\n") demoHeaderDecodedRS [10] "RS256"
      (by decide) (by decide) (by decide) (by decide) (by decide) (by decide) (by decide)).1⟩

/-! ## C15 : letter case of the algorithm on verify -/

/-- The errors of the `switch` of `Verify` for an `alg` that upper-cases to
one of the twelve codes: the default case is not taken. -/
theorem dispatch_err_supported (L : Lib) (v : verifier) (a : String) (p : Provider) (e : Error)
    (hs : IsSupportedAlg (L.toUpper a) = true) (he : (v.dispatch L a p).2.2 = some e) :
    e = .ErrInvalidToken ∨ e = .ErrUnsupportedAlg ∨ LibraryError L e := by
  revert he
  apply dispatch_elim L v a p
    (fun r => r.2.2 = some e → e = .ErrInvalidToken ∨ e = .ErrUnsupportedAlg ∨ LibraryError L e)
  · intro h _ _ he
    rcases hs_err L v h e he with h1 | h1
    · exact Or.inl h1
    · exact Or.inr (Or.inl h1)
  · intro h k _ _ _ he
    rcases es_err L v h k e he with h1 | h1 | h1
    · exact Or.inl h1
    · exact Or.inr (Or.inl h1)
    · exact Or.inr (Or.inr (Or.inl h1))
  · intro h c k _ _ _ he
    rcases rs_err L v h c k e he with h1 | h1 | ⟨k0, d, sg, h1⟩
    · exact Or.inr (Or.inl h1)
    · exact Or.inr (Or.inr (Or.inl h1))
    · exact Or.inr (Or.inr (Or.inr (Or.inr (Or.inl ⟨k0, c, d, sg, h1⟩))))
  · intro h c k o _ _ _ _ he
    rcases ps_err L v h c k o e he with h1 | h1 | ⟨k0, d, sg, h1⟩
    · exact Or.inr (Or.inl h1)
    · exact Or.inr (Or.inr (Or.inl h1))
    · exact Or.inr (Or.inr (Or.inr (Or.inr (Or.inr ⟨k0, c, d, sg, o, h1⟩))))
  · intro hf _
    rw [hs] at hf
    cases hf

/-- The `switch` of `Verify` for a code whose digest the provider returns as
nil. -/
theorem dispatch_nodigest (L : Lib) (v : verifier) (a : String) (p : Provider)
    (hcode : IsSupportedAlg (L.toUpper a) = true)
    (hh : p.GetHS (L.toUpper a) = none) (hsha : p.shaOf (L.toUpper a) = none) :
    (v.dispatch L a p).2.2 = some .ErrUnsupportedAlg ∧ (v.dispatch L a p).1 = v := by
  have h12 := (IsSupportedAlg_iff _).mp hcode
  rcases h12 with h | h | h | h | h | h | h | h | h | h | h | h <;>
    (rw [h] at hh hsha
     simp [Provider.GetHS, Provider.shaOf] at hh hsha
     simp [verifier.dispatch, h, hh, hsha, verifier.hs, verifier.es, verifier.rs, verifier.ps])

/-- `Verify` from the `switch` on: the provider calls are those of the
`switch`, and an error of the `switch` is returned with nil claims. -/
theorem Verify_switch (L : Lib) (v v1 : verifier) (token : Bytes) (p : Provider) (hb : Bytes)
    (m : Claims) (pend : Bytes) (a : String)
    (hp : v.parseToken token = (v1, none))
    (hb64 : base64.Decode v1.headerToken = .ok hb)
    (hd : L.jsonDecode v.jsonPending hb = .ok (some m, pend))
    (ha : m.get "alg" = some (.str a)) :
    (Verify L v token p).calls =
        (({ v1 with base64Buffer := hb, jsonBuffer := hb, jsonPending := pend } : verifier).dispatch
          L a p).2.1 ∧
      ∀ e, (({ v1 with base64Buffer := hb, jsonBuffer := hb, jsonPending := pend } :
            verifier).dispatch L a p).2.2 = some e →
        Verify L v token p =
          { header := none, payload := none, err := some e,
            calls := (({ v1 with base64Buffer := hb, jsonBuffer := hb, jsonPending := pend } :
              verifier).dispatch L a p).2.1,
            pooled := none } := by
  rw [Verify_decoded L v v1 token p hb (some m) pend hp hb64 hd]
  simp only [ha]
  rcases hdisp : verifier.dispatch L _ a p with ⟨v5, calls, e⟩
  cases e with
  | some e =>
      refine ⟨rfl, ?_⟩
      intro e1 he1
      injection he1 with he1
      subst he1
      rfl
  | none =>
      simp only
      refine ⟨?_, fun e1 he1 => by cases he1⟩
      rcases hpb : v5.base64Decode v5.payloadToken with ⟨v6, e⟩
      cases e with
      | some e => rfl
      | none =>
          simp only
          cases hdp : L.jsonDecode v6.jsonPending v6.base64Buffer with
          | error e => rfl
          | ok r => rfl

/-- C15 (counterexample). The header of the token `cgo.UAo.CQc` names the
algorithm `rs384`, which is `RS384` up to letter case.  With a provider that
has no `RS384` key, `Verify` runs the RS check for `RS384` and returns
`ErrUnsupportedAlg`, the error value "unsupported alg". -/
theorem Verify_lowercase_nokey_counterexample :
    base64.Decode (ascii "cgo") = .ok (ascii "r\n") ∧
    demoLibStream.jsonDecode [] (ascii "r\n") = .ok (some [("alg", .str "rs384")], [10]) ∧
    asciiUpper "rs384" = "RS384" ∧
    demoProviderRS.RS384Key = none ∧
    Verify demoLibStream newVerifier (ascii "cgo.UAo.CQc") demoProviderRS =
      { header := none, payload := none, err := some .ErrUnsupportedAlg,
        calls := [.GetSha384, .RS384Key,
          .PutSha384 (some { sha := .SHA384, key := none, data := [] })],
        pooled := none } := by
  decide

/-- C15 (amended). For a token whose header decodes with an `alg` that equals
one of the twelve codes up to ASCII letter case, `v2` being the verifier at
the `switch` of `Verify`: `strings.ToUpper(alg)` is the upper-case code; the
`switch` does exactly what it does for the upper-case code, namely the family
check listed for that code below, with that code's digest kind, `crypto.Hash`,
key and options, and the provider calls of `Verify` are the calls of that
branch.  The default case is not taken: the provider is called, and an error
of the `switch`, which `Verify` returns with nil claims, is `ErrInvalidToken`,
`ErrUnsupportedAlg` or an error value handed on from a library call.
`ErrUnsupportedAlg` is returned when the provider returns a nil digest for the
code, and when it returns a nil key for an RS, PS or ES code.
`strings.ToUpper` is assumed to be ASCII upper-casing on ASCII strings. -/
theorem Verify_dispatch_case_insensitive (L : Lib) (hL : ToUpperASCII L) (v v1 v2 : verifier)
    (token : Bytes) (p : Provider) (hb : Bytes) (m : Claims) (pend : Bytes) (alg : String)
    (hascii : ∀ c ∈ alg.data, c.toNat < 128)
    (hcode : IsSupportedAlg (asciiUpper alg) = true)
    (hp : v.parseToken token = (v1, none))
    (hb64 : base64.Decode v1.headerToken = .ok hb)
    (hd : L.jsonDecode v.jsonPending hb = .ok (some m, pend))
    (ha : m.get "alg" = some (.str alg))
    (hv2 : v2 = { v1 with base64Buffer := hb, jsonBuffer := hb, jsonPending := pend }) :
    L.toUpper alg = asciiUpper alg ∧
    v2.dispatch L alg p = v2.dispatch L (asciiUpper alg) p ∧
    (Verify L v token p).calls = (v2.dispatch L (asciiUpper alg) p).2.1 ∧
    (v2.dispatch L alg p).2.1 ≠ [] ∧
    (∀ e, (v2.dispatch L alg p).2.2 = some e →
      Verify L v token p =
          { header := none, payload := none, err := some e,
            calls := (v2.dispatch L (asciiUpper alg) p).2.1, pooled := none } ∧
        (e = .ErrInvalidToken ∨ e = .ErrUnsupportedAlg ∨ LibraryError L e)) ∧
    (p.GetHS (asciiUpper alg) = none → p.shaOf (asciiUpper alg) = none →
      (v2.dispatch L alg p).2.2 = some .ErrUnsupportedAlg) ∧
    (isRS (asciiUpper alg) = true ∨ isPS (asciiUpper alg) = true ∨ isES (asciiUpper alg) = true →
      p.rsaKeyOf (asciiUpper alg) = none → p.ecKeyOf (asciiUpper alg) = none →
      v2.dispatch L alg p = (v2, absentKeyCalls p (asciiUpper alg), some .ErrUnsupportedAlg)) ∧
    (asciiUpper alg = "HS256" →
      v2.dispatch L alg p =
        ((v2.hs L p.GetHS256).1,
          [.GetHS256, .PutHS256 (v2.hs L p.GetHS256).2.1],
          (v2.hs L p.GetHS256).2.2)) ∧
    (asciiUpper alg = "HS384" →
      v2.dispatch L alg p =
        ((v2.hs L p.GetHS384).1,
          [.GetHS384, .PutHS384 (v2.hs L p.GetHS384).2.1],
          (v2.hs L p.GetHS384).2.2)) ∧
    (asciiUpper alg = "HS512" →
      v2.dispatch L alg p =
        ((v2.hs L p.GetHS512).1,
          [.GetHS512, .PutHS512 (v2.hs L p.GetHS512).2.1],
          (v2.hs L p.GetHS512).2.2)) ∧
    (asciiUpper alg = "ES256" →
      v2.dispatch L alg p =
        ((v2.es L p.GetSha256 p.ES256Key).1,
          [.GetSha256, .ES256Key, .PutSha256 (v2.es L p.GetSha256 p.ES256Key).2.1],
          (v2.es L p.GetSha256 p.ES256Key).2.2)) ∧
    (asciiUpper alg = "ES384" →
      v2.dispatch L alg p =
        ((v2.es L p.GetSha384 p.ES384Key).1,
          [.GetSha384, .ES384Key, .PutSha384 (v2.es L p.GetSha384 p.ES384Key).2.1],
          (v2.es L p.GetSha384 p.ES384Key).2.2)) ∧
    (asciiUpper alg = "ES512" →
      v2.dispatch L alg p =
        ((v2.es L p.GetSha512 p.ES512Key).1,
          [.GetSha512, .ES512Key, .PutSha512 (v2.es L p.GetSha512 p.ES512Key).2.1],
          (v2.es L p.GetSha512 p.ES512Key).2.2)) ∧
    (asciiUpper alg = "RS256" →
      v2.dispatch L alg p =
        ((v2.rs L p.GetSha256 .SHA256 p.RS256Key).1,
          [.GetSha256, .RS256Key, .PutSha256 (v2.rs L p.GetSha256 .SHA256 p.RS256Key).2.1],
          (v2.rs L p.GetSha256 .SHA256 p.RS256Key).2.2)) ∧
    (asciiUpper alg = "RS384" →
      v2.dispatch L alg p =
        ((v2.rs L p.GetSha384 .SHA384 p.RS384Key).1,
          [.GetSha384, .RS384Key, .PutSha384 (v2.rs L p.GetSha384 .SHA384 p.RS384Key).2.1],
          (v2.rs L p.GetSha384 .SHA384 p.RS384Key).2.2)) ∧
    (asciiUpper alg = "RS512" →
      v2.dispatch L alg p =
        ((v2.rs L p.GetSha512 .SHA512 p.RS512Key).1,
          [.GetSha512, .RS512Key, .PutSha512 (v2.rs L p.GetSha512 .SHA512 p.RS512Key).2.1],
          (v2.rs L p.GetSha512 .SHA512 p.RS512Key).2.2)) ∧
    (asciiUpper alg = "PS256" →
      v2.dispatch L alg p =
        ((v2.ps L p.GetSha256 .SHA256 p.PS256Key p.PS256Opt).1,
          [.GetSha256, .PS256Key, .PS256Opt, .PutSha256 (v2.ps L p.GetSha256 .SHA256 p.PS256Key p.PS256Opt).2.1],
          (v2.ps L p.GetSha256 .SHA256 p.PS256Key p.PS256Opt).2.2)) ∧
    (asciiUpper alg = "PS384" →
      v2.dispatch L alg p =
        ((v2.ps L p.GetSha384 .SHA384 p.PS384Key p.PS384Opt).1,
          [.GetSha384, .PS384Key, .PS384Opt, .PutSha384 (v2.ps L p.GetSha384 .SHA384 p.PS384Key p.PS384Opt).2.1],
          (v2.ps L p.GetSha384 .SHA384 p.PS384Key p.PS384Opt).2.2)) ∧
    (asciiUpper alg = "PS512" →
      v2.dispatch L alg p =
        ((v2.ps L p.GetSha512 .SHA512 p.PS512Key p.PS512Opt).1,
          [.GetSha512, .PS512Key, .PS512Opt, .PutSha512 (v2.ps L p.GetSha512 .SHA512 p.PS512Key p.PS512Opt).2.1],
          (v2.ps L p.GetSha512 .SHA512 p.PS512Key p.PS512Opt).2.2)) := by
  have h1 : L.toUpper alg = asciiUpper alg := hL alg hascii
  have h2 : L.toUpper (asciiUpper alg) = asciiUpper alg := by
    have h12 := (IsSupportedAlg_iff _).mp hcode
    rcases h12 with h | h | h | h | h | h | h | h | h | h | h | h <;>
      (rw [h]; exact hL _ (by decide))
  have hc1 : IsSupportedAlg (L.toUpper alg) = true := by rw [h1]; exact hcode
  have hcong := dispatch_congr L v2 alg (asciiUpper alg) p (by rw [h1, h2]) hc1
  have hsw := Verify_switch L v v1 token p hb m pend alg hp hb64 hd ha
  rw [← hv2] at hsw
  refine ⟨h1, hcong.1, ?_, hcong.2, ?_, ?_, ?_, ?_, ?_, ?_, ?_, ?_, ?_, ?_, ?_, ?_, ?_, ?_, ?_⟩
  · rw [hsw.1, hcong.1]
  · intro e he
    refine ⟨?_, dispatch_err_supported L v2 alg p e hc1 he⟩
    rw [hsw.2 e he, hcong.1]
  · intro hh hsha
    exact (dispatch_nodigest L v2 alg p hc1 (by rw [h1]; exact hh) (by rw [h1]; exact hsha)).1
  · intro hk hr he
    have := dispatch_nokey L v2 alg p (by rw [h1]; exact hk) (by rw [h1]; exact hr)
      (by rw [h1]; exact he)
    rw [h1] at this
    exact this
  all_goals (intro hc; rw [hc] at h1; simp [verifier.dispatch, h1])

theorem demoLibStream_toUpper : ToUpperASCII demoLibStream := fun _ _ => rfl

/-- Witness of C15 (amended): the token `cgo.UAo.CQc`, whose header names the
algorithm `rs384`. -/
theorem Verify_dispatch_case_insensitive_witness :
    asciiUpper "rs384" = "RS384" ∧
    (Verify demoLibStream newVerifier (ascii "cgo.UAo.CQc") demoProviderRS).calls =
      (({ (newVerifier.parseToken (ascii "cgo.UAo.CQc")).1 with
          base64Buffer := ascii "r\n", jsonBuffer := ascii "r\n", jsonPending := [10] } :
        verifier).dispatch demoLibStream "RS384" demoProviderRS).2.1 ∧
    ({ (newVerifier.parseToken (ascii "cgo.UAo.CQc")).1 with
          base64Buffer := ascii "r\n", jsonBuffer := ascii "r\n", jsonPending := [10] } :
        verifier).dispatch demoLibStream "rs384" demoProviderRS =
      ({ (newVerifier.parseToken (ascii "cgo.UAo.CQc")).1 with
          base64Buffer := ascii "r\n", jsonBuffer := ascii "r\n", jsonPending := [10] } :
        verifier).dispatch demoLibStream "RS384" demoProviderRS :=
  ⟨by decide,
    (Verify_dispatch_case_insensitive demoLibStream demoLibStream_toUpper newVerifier
      (newVerifier.parseToken (ascii "cgo.UAo.CQc")).1 _ (ascii "cgo.UAo.CQc") demoProviderRS
      (ascii "r\n") [("alg", .str "rs384")] [10] "rs384" (by decide) (by decide) (by decide)
      (by decide) (by decide) (by decide) rfl).2.2.1,
    (Verify_dispatch_case_insensitive demoLibStream demoLibStream_toUpper newVerifier
      (newVerifier.parseToken (ascii "cgo.UAo.CQc")).1 _ (ascii "cgo.UAo.CQc") demoProviderRS
      (ascii "r\n") [("alg", .str "rs384")] [10] "rs384" (by decide) (by decide) (by decide)
      (by decide) (by decide) (by decide) rfl).2.1⟩

/-! ## C17 : no partial claims -/

/-- C17 (counterexample). `SignTo` for `HS256` with a nil payload map writes
the token `SAo.bnVsbAo.aws`, whose payload segment is the JSON text `null`.
`Verify` accepts it with a nil error and returns a nil payload map. -/
theorem Verify_nil_payload_counterexample :
    (SignTo demoLib newSigner Builder.writer 0 "HS256" (some demoHeader) none
        demoProvider).written = [ascii "SAo.bnVsbAo.aws"] ∧
      base64.Decode (ascii "bnVsbAo") = .ok (ascii "null\n") ∧
      (Verify demoLib newVerifier (ascii "SAo.bnVsbAo.aws") demoProvider).err = none ∧
      (Verify demoLib newVerifier (ascii "SAo.bnVsbAo.aws") demoProvider).header =
        some demoHeaderDecoded ∧
      (Verify demoLib newVerifier (ascii "SAo.bnVsbAo.aws") demoProvider).payload = none := by
  decide

theorem base64Decode_frame (v v2 : verifier) (b : Bytes) (e : Option Error)
    (h : v.base64Decode b = (v2, e)) :
    v2.payloadToken = v.payloadToken ∧ v2.jsonPending = v.jsonPending := by
  simp only [verifier.base64Decode] at h
  split at h <;> (injection h with h1 _; subst h1; exact ⟨rfl, rfl⟩)

theorem es_frame (L : Lib) (v : verifier) (h : Option Hash) (k : Option ECKey) :
    (v.es L h k).1.payloadToken = v.payloadToken ∧ (v.es L h k).1.jsonPending = v.jsonPending := by
  simp only [verifier.es]
  split
  · exact ⟨rfl, rfl⟩
  · exact ⟨rfl, rfl⟩
  · simp only [verifier.hashHeaderPayload]
    split
    · rename_i v2 err h2
      have := base64Decode_frame _ _ _ _ h2
      exact this
    · rename_i v2 h2
      have := base64Decode_frame _ _ _ _ h2
      split <;> exact this

theorem rs_frame (L : Lib) (v : verifier) (h : Option Hash) (c : Sha) (k : Option RSAKey) :
    (v.rs L h c k).1.payloadToken = v.payloadToken ∧
      (v.rs L h c k).1.jsonPending = v.jsonPending := by
  simp only [verifier.rs]
  split
  · exact ⟨rfl, rfl⟩
  · exact ⟨rfl, rfl⟩
  · simp only [verifier.hashHeaderPayload]
    split
    · rename_i v2 err h2
      have := base64Decode_frame _ _ _ _ h2
      exact this
    · rename_i v2 h2
      have := base64Decode_frame _ _ _ _ h2
      exact this

theorem ps_frame (L : Lib) (v : verifier) (h : Option Hash) (c : Sha) (k : Option RSAKey)
    (o : Option PSSOptions) :
    (v.ps L h c k o).1.payloadToken = v.payloadToken ∧
      (v.ps L h c k o).1.jsonPending = v.jsonPending := by
  simp only [verifier.ps]
  split
  · exact ⟨rfl, rfl⟩
  · exact ⟨rfl, rfl⟩
  · simp only [verifier.hashHeaderPayload]
    split
    · rename_i v2 err h2
      have := base64Decode_frame _ _ _ _ h2
      exact this
    · rename_i v2 h2
      have := base64Decode_frame _ _ _ _ h2
      exact this

/-- The `switch` of `Verify` leaves the payload segment and the state of the
JSON decoder as they were. -/
theorem dispatch_frame (L : Lib) (v : verifier) (a : String) (p : Provider) :
    (v.dispatch L a p).1.payloadToken = v.payloadToken ∧
      (v.dispatch L a p).1.jsonPending = v.jsonPending := by
  apply dispatch_elim L v a p
    (fun r => r.1.payloadToken = v.payloadToken ∧ r.1.jsonPending = v.jsonPending)
  · intro h _ _; exact ⟨hs_payloadToken L v h, hs_jsonPending L v h⟩
  · intro h k _ _ _; exact es_frame L v h k
  · intro h c k _ _ _; exact rs_frame L v h c k
  · intro h c k o _ _ _ _; exact ps_frame L v h c k o
  · intro _; exact ⟨rfl, rfl⟩

/-- What a run of `Verify` that returns a nil error went through. -/
theorem Verify_ok_inv (L : Lib) (v : verifier) (token : Bytes) (p : Provider)
    (h : (Verify L v token p).err = none) :
    ∃ hseg pseg sseg hb pb m a pend1 pend2,
      token = hseg ++ dot :: (pseg ++ dot :: sseg) ∧ dot ∉ hseg ∧ dot ∉ pseg ∧
      base64.Decode hseg = .ok hb ∧
      L.jsonDecode v.jsonPending hb = .ok (some m, pend1) ∧
      m.get "alg" = some (.str a) ∧
      base64.Decode pseg = .ok pb ∧
      L.jsonDecode pend1 pb = .ok ((Verify L v token p).payload, pend2) ∧
      (Verify L v token p).header = some m := by
  rcases hp : v.parseToken token with ⟨v1, e⟩
  cases e with
  | some e =>
      simp only [Verify, hp] at h
      cases h
  | none =>
      obtain ⟨sa, sb, sc, htok, hsa, hsb, hv1⟩ := parseToken_some v v1 token hp
      have hht : v1.headerToken = sa := by rw [hv1]
      have hpt : v1.payloadToken = sb := by rw [hv1]
      cases hb64 : base64.Decode v1.headerToken with
      | error e =>
          simp only [Verify, hp, verifier.base64Decode, hb64] at h
          cases h
      | ok hb =>
          cases hd : L.jsonDecode v.jsonPending hb with
          | error e =>
              have hj := parseToken_jsonPending v v1 token hp
              rw [← hj] at hd
              simp only [Verify, hp, verifier.base64Decode, hb64, hd] at h
              cases h
          | ok r =>
              obtain ⟨hdr, pend⟩ := r
              rw [Verify_decoded L v v1 token p hb hdr pend hp hb64 hd] at h ⊢
              split at h
              · rename_i alg halg
                have hm : ∃ m, hdr = some m ∧ m.get "alg" = some (.str alg) := by
                  cases hdr with
                  | none => cases halg
                  | some m => exact ⟨m, rfl, halg⟩
                obtain ⟨m, rfl, hma⟩ := hm
                have hfr := dispatch_frame L
                  ({ v1 with base64Buffer := hb, jsonBuffer := hb, jsonPending := pend } : verifier)
                  alg p
                rcases hdisp : verifier.dispatch L _ alg p with ⟨v5, calls, e⟩
                rw [hdisp] at hfr h
                simp only at hfr
                cases e with
                | some e => cases h
                | none =>
                    simp only at h ⊢
                    simp only [verifier.base64Decode] at h ⊢
                    cases hpb : base64.Decode v5.payloadToken with
                    | error e =>
                        rw [hpb] at h
                        cases h
                    | ok pb =>
                        rw [hpb] at h
                        simp only [hpb] at h ⊢
                        cases hdp : L.jsonDecode v5.jsonPending pb with
                        | error e =>
                            rw [hdp] at h
                            cases h
                        | ok r =>
                            obtain ⟨pl, pend2⟩ := r
                            simp only
                            rw [hfr.1, hpt] at hpb
                            rw [hfr.2] at hdp
                            rw [hht] at hb64
                            exact ⟨sa, sb, sc, hb, pb, m, alg, pend, pend2, htok, hsa, hsb,
                              hb64, hd, hma, hpb, hdp, rfl⟩
              · cases h

/-- C17 (amended). Whenever `Verify` returns a non-nil error, the returned
header and payload are both nil, also when the header had been decoded before
the failing step.  Whenever it returns a nil error, the token has a header and
a payload segment without `'.'`; the returned header is the non-nil map that
the JSON decoder read from the base64url decoding of the header segment, and
its `alg` is a string; the returned payload is exactly what the same decoder,
in the state the header left it in, read from the base64url decoding of the
payload segment.  So the payload is nil exactly when the decoder yields a nil
map for that text (as it does for the JSON text `null`), and a non-nil map
otherwise. -/
theorem Verify_no_partial_claims (L : Lib) (v : verifier) (token : Bytes) (p : Provider) :
    ((Verify L v token p).err ≠ none →
        (Verify L v token p).header = none ∧ (Verify L v token p).payload = none) ∧
      ((Verify L v token p).err = none →
        ∃ hseg pseg sseg hb pb m a pend1 pend2,
          token = hseg ++ dot :: (pseg ++ dot :: sseg) ∧ dot ∉ hseg ∧ dot ∉ pseg ∧
          base64.Decode hseg = .ok hb ∧
          L.jsonDecode v.jsonPending hb = .ok (some m, pend1) ∧
          m.get "alg" = some (.str a) ∧
          (Verify L v token p).header = some m ∧
          base64.Decode pseg = .ok pb ∧
          L.jsonDecode pend1 pb = .ok ((Verify L v token p).payload, pend2) ∧
          ((Verify L v token p).payload = none ↔ L.jsonDecode pend1 pb = .ok (none, pend2))) := by
  constructor
  · intro h
    rcases Verify_outcome L v token p with ⟨e, calls, h1, _⟩ | ⟨m, a, pl, calls, v1, h1, _, _⟩
    · rw [h1]
      exact ⟨rfl, rfl⟩
    · rw [h1] at h
      exact absurd rfl h
  · intro h
    obtain ⟨hseg, pseg, sseg, hb, pb, m, a, pend1, pend2, h1, h2, h3, h4, h5, h6, h7, h8, h9⟩ :=
      Verify_ok_inv L v token p h
    refine ⟨hseg, pseg, sseg, hb, pb, m, a, pend1, pend2, h1, h2, h3, h4, h5, h6, h9, h7, h8, ?_⟩
    constructor
    · intro hn
      rw [hn] at h8
      exact h8
    · intro hn
      rw [h8] at hn
      injection hn with hn
      injection hn with hn _

/-- Witness of C17 (amended): the token `WAo.UAo.x` fails after its header was
decoded; the token `SAo.bnVsbAo.aws`, whose payload text is `null`, is
accepted. -/
theorem Verify_no_partial_claims_witness :
    ((Verify demoLib newVerifier (ascii "WAo.UAo.x") demoProvider).err ≠ none ∧
      (Verify demoLib newVerifier (ascii "SAo.bnVsbAo.aws") demoProvider).err = none) ∧
    ((Verify demoLib newVerifier (ascii "WAo.UAo.x") demoProvider).header = none ∧
        (Verify demoLib newVerifier (ascii "WAo.UAo.x") demoProvider).payload = none) ∧
      ∃ hseg pseg sseg hb pb m a pend1 pend2,
        ascii "SAo.bnVsbAo.aws" = hseg ++ dot :: (pseg ++ dot :: sseg) ∧ dot ∉ hseg ∧
        dot ∉ pseg ∧
        base64.Decode hseg = .ok hb ∧
        demoLib.jsonDecode newVerifier.jsonPending hb = .ok (some m, pend1) ∧
        m.get "alg" = some (.str a) ∧
        (Verify demoLib newVerifier (ascii "SAo.bnVsbAo.aws") demoProvider).header = some m ∧
        base64.Decode pseg = .ok pb ∧
        demoLib.jsonDecode pend1 pb =
          .ok ((Verify demoLib newVerifier (ascii "SAo.bnVsbAo.aws") demoProvider).payload,
            pend2) ∧
        ((Verify demoLib newVerifier (ascii "SAo.bnVsbAo.aws") demoProvider).payload = none ↔
          demoLib.jsonDecode pend1 pb = .ok (none, pend2)) :=
  ⟨⟨by decide, by decide⟩,
    (Verify_no_partial_claims demoLib newVerifier (ascii "WAo.UAo.x") demoProvider).1 (by decide),
    (Verify_no_partial_claims demoLib newVerifier (ascii "SAo.bnVsbAo.aws") demoProvider).2
      (by decide)⟩

/-! ## C18 : RS and PS round trip -/

/-- What the RS signer writes once `rsa.SignPKCS1v15` returned `sig`. -/
theorem rs_ok (L : Lib) (s0 : signer) (w : Writer) (rnd : Nat) (alg : String) (H : Claims)
    (P : Option Claims) (h : Hash) (sha : Sha) (k : RSAKey) (hb pb sig : Bytes)
    (hH : L.jsonEncode (some ((H.set "jwt" (.str "JWT")).set "alg" (.alg alg))) = .ok hb)
    (hP : L.jsonEncode P = .ok pb)
    (hsig : L.signPKCS1v15 rnd k sha
      (L.digest h.sha h.key (h.data ++ (base64.Encode hb ++ dot :: base64.Encode pb))) = .ok sig) :
    (s0.rs L w rnd alg (some H) P (some h) sha (some k)).written =
      [base64.Encode hb ++ dot :: (base64.Encode pb ++ dot :: base64.Encode sig)] := by
  obtain ⟨s1, h1, h2, h3⟩ := encode_ok L s0 alg H P hb pb hH hP
  simp only [signer.rs, h1, Hash.Sum, Hash.Write, h2, List.nil_append, hsig,
    signer.finish, signer.base64]
  simp

/-- What the PS signer writes once `rsa.SignPSS` returned `sig`. -/
theorem ps_ok (L : Lib) (s0 : signer) (w : Writer) (rnd : Nat) (alg : String) (H : Claims)
    (P : Option Claims) (h : Hash) (sha : Sha) (k : RSAKey) (o : Option PSSOptions)
    (hb pb sig : Bytes)
    (hH : L.jsonEncode (some ((H.set "jwt" (.str "JWT")).set "alg" (.alg alg))) = .ok hb)
    (hP : L.jsonEncode P = .ok pb)
    (hsig : L.signPSS rnd k sha
      (L.digest h.sha h.key (h.data ++ (base64.Encode hb ++ dot :: base64.Encode pb))) o
        = .ok sig) :
    (s0.ps L w rnd alg (some H) P (some h) sha (some k) o).written =
      [base64.Encode hb ++ dot :: (base64.Encode pb ++ dot :: base64.Encode sig)] := by
  obtain ⟨s1, h1, h2, h3⟩ := encode_ok L s0 alg H P hb pb hH hP
  simp only [signer.ps, h1, Hash.Sum, Hash.Write, h2, List.nil_append, hsig,
    signer.finish, signer.base64]
  simp

/-- The RS check on a signature segment that is base64url text of `sig`. -/
theorem rs_spec (L : Lib) (v : verifier) (h : Hash) (c : Sha) (k : RSAKey) (sig : Bytes)
    (hs : v.signToken = base64.Encode sig) :
    v.rs L (some h) c (some k) =
      ({ v with hashBuffer := L.digest h.sha h.key (h.data ++ v.headerPayloadToken),
                base64Buffer := sig },
        some (h.Write v.headerPayloadToken),
        L.verifyPKCS1v15 k c (L.digest h.sha h.key (h.data ++ v.headerPayloadToken)) sig) := by
  simp only [verifier.rs, verifier.hashHeaderPayload, verifier.base64Decode, Hash.Sum,
    Hash.Write, List.nil_append, hs, base64.Decode_Encode]

/-- The PS check on a signature segment that is base64url text of `sig`. -/
theorem ps_spec (L : Lib) (v : verifier) (h : Hash) (c : Sha) (k : RSAKey)
    (o : Option PSSOptions) (sig : Bytes) (hs : v.signToken = base64.Encode sig) :
    v.ps L (some h) c (some k) o =
      ({ v with hashBuffer := L.digest h.sha h.key (h.data ++ v.headerPayloadToken),
                base64Buffer := sig },
        some (h.Write v.headerPayloadToken),
        L.verifyPSS k c (L.digest h.sha h.key (h.data ++ v.headerPayloadToken)) sig o) := by
  simp only [verifier.ps, verifier.hashHeaderPayload, verifier.base64Decode, Hash.Sum,
    Hash.Write, List.nil_append, hs, base64.Decode_Encode]

/-- The `switch` of `Verify` for an RS or PS code with a digest and a key. -/
theorem dispatch_rsa (L : Lib) (v : verifier) (a alg : String) (p : Provider) (h : Hash)
    (k : RSAKey) (sig : Bytes)
    (halg : isRS alg = true ∨ isPS alg = true) (hU : L.toUpper a = alg)
    (hget : p.shaOf alg = some h) (hk : p.rsaKeyOf alg = some k)
    (hs : v.signToken = base64.Encode sig) :
    (v.dispatch L a p).2.2 =
        rsaVerify L alg k (L.digest h.sha h.key (h.data ++ v.headerPayloadToken)) sig
          (p.pssOptOf alg) ∧
      (v.dispatch L a p).1.payloadToken = v.payloadToken ∧
      (v.dispatch L a p).1.jsonPending = v.jsonPending := by
  simp only [isRS, isPS, decide_eq_true_eq] at halg
  rcases halg with (rfl | rfl | rfl) | (rfl | rfl | rfl) <;>
    (simp [Provider.shaOf, Provider.rsaKeyOf] at hget hk
     simp [verifier.dispatch, hU, hget, hk, rs_spec L v h _ k sig hs, ps_spec L v h _ k _ sig hs,
       rsaVerify, isRS, cryptoHashOf, Provider.pssOptOf])

/-- What `SignTo` writes for an RS or PS code. -/
theorem SignTo_rsa (L : Lib) (s : signer) (w : Writer) (rnd : Nat) (alg : String) (H : Claims)
    (P : Option Claims) (p : Provider) (h : Hash) (k : RSAKey) (hb pb sig : Bytes)
    (halg : isRS alg = true ∨ isPS alg = true)
    (hget : p.shaOf alg = some h) (hk : p.rsaKeyOf alg = some k)
    (hH : L.jsonEncode (some ((H.set "jwt" (.str "JWT")).set "alg" (.alg alg))) = .ok hb)
    (hP : L.jsonEncode P = .ok pb)
    (hsig : rsaSign L alg rnd k
      (L.digest h.sha h.key (h.data ++ (base64.Encode hb ++ dot :: base64.Encode pb)))
      (p.pssOptOf alg) = .ok sig) :
    (SignTo L s w rnd alg (some H) P p).written =
      [base64.Encode hb ++ dot :: (base64.Encode pb ++ dot :: base64.Encode sig)] := by
  simp only [isRS, isPS, decide_eq_true_eq] at halg
  rcases halg with (rfl | rfl | rfl) | (rfl | rfl | rfl) <;>
    (simp [Provider.shaOf, Provider.rsaKeyOf] at hget hk
     simp [rsaSign, isRS, cryptoHashOf, Provider.pssOptOf] at hsig
     simp [SignTo, SignRS256To, SignRS384To, SignRS512To, SignPS256To, SignPS384To, SignPS512To,
       ofFamily_fields, hget, hk]
     first
       | exact rs_ok L s w rnd _ H P h _ k hb pb sig hH hP hsig
       | exact ps_ok L s w rnd _ H P h _ k _ hb pb sig hH hP hsig)

/-- `Verify` on a token of three segments whose header names an RS or PS
algorithm for which the provider has a digest and a key. -/
theorem Verify_rsa (L : Lib) (v : verifier) (p : Provider) (h : Hash) (k : RSAKey)
    (alg a : String) (hb pb sig : Bytes) (Hd : Claims) (Pd : Option Claims) (pend1 pend2 : Bytes)
    (halg : isRS alg = true ∨ isPS alg = true) (hU : L.toUpper a = alg)
    (hget : p.shaOf alg = some h) (hk : p.rsaKeyOf alg = some k)
    (hdH : L.jsonDecode v.jsonPending hb = .ok (some Hd, pend1))
    (ha : Hd.get "alg" = some (.str a))
    (hdP : L.jsonDecode pend1 pb = .ok (Pd, pend2)) :
    (Verify L v (base64.Encode hb ++ dot :: (base64.Encode pb ++ dot :: base64.Encode sig)) p).err
        = rsaVerify L alg k
            (L.digest h.sha h.key (h.data ++ (base64.Encode hb ++ dot :: base64.Encode pb))) sig
            (p.pssOptOf alg) ∧
      (rsaVerify L alg k
            (L.digest h.sha h.key (h.data ++ (base64.Encode hb ++ dot :: base64.Encode pb))) sig
            (p.pssOptOf alg) = none →
        ∃ v1 calls,
          Verify L v (base64.Encode hb ++ dot :: (base64.Encode pb ++ dot :: base64.Encode sig)) p
            = { header := some Hd, payload := Pd, err := none, calls := calls,
                pooled := some v1 } ∧
          v1.jsonPending = pend2) := by
  have hp := parseToken_split v (base64.Encode hb) (base64.Encode pb) (base64.Encode sig)
    (base64.dot_not_mem_Encode hb) (base64.dot_not_mem_Encode pb)
  rw [Verify_decoded L v _ _ p hb (some Hd) pend1 hp (base64.Decode_Encode hb) hdH]
  simp only [ha]
  rcases hdisp : verifier.dispatch L _ a p with ⟨v5, calls, e⟩
  obtain ⟨h1, h2, h3⟩ := dispatch_rsa L
    (v := { v with headerToken := base64.Encode hb, payloadToken := base64.Encode pb,
                   headerPayloadToken := base64.Encode hb ++ dot :: base64.Encode pb,
                   signToken := base64.Encode sig,
                   base64Buffer := hb, jsonBuffer := hb, jsonPending := pend1 })
    a alg p h k sig halg hU hget hk rfl
  rw [hdisp] at h1 h2 h3
  simp only at h1 h2 h3
  rw [← h1]
  cases e with
  | some e => exact ⟨rfl, fun hc => by cases hc⟩
  | none =>
      simp only [verifier.base64Decode, h2, base64.Decode_Encode, h3, hdP]
      exact ⟨trivial, fun _ => ⟨_, _, rfl, rfl⟩⟩

/-- C18 (counterexample). On the verifier that the pool holds after `Verify`
accepted the token `SAo.UFoK.awg`, whose JSON decoder still buffers `Z`,
`Verify` rejects the `RS256` token `Ugo.UAo.CQc` that `SignTo` wrote with the
same provider: the header text is read after the buffered `Z`, the decoder
fails, and the provider is not called, so the RSA verification primitive is
never handed the digest and the signature.  On a new verifier the same token
is accepted. -/
theorem RSA_round_trip_stale_counterexample :
    (Verify demoLibStream newVerifier trailingToken demoProviderRS).err = none ∧
    (Verify demoLibStream newVerifier trailingToken demoProviderRS).pooled = some staleVerifier ∧
    staleVerifier.jsonPending = ascii "Z\n" ∧
    (SignToRef demoLibStream newSigner Builder.writer 0 "RS256" demoHeap (some 0) (some 1)
      demoProviderRS).written = [ascii "Ugo.UAo.CQc"] ∧
    (Verify demoLibStream newVerifier (ascii "Ugo.UAo.CQc") demoProviderRS).err = none ∧
    Verify demoLibStream staleVerifier (ascii "Ugo.UAo.CQc") demoProviderRS =
      { header := none, payload := none, err := some (.lib 2), calls := [], pooled := none } := by
  decide

/-- C18 (amended). RS and PS round trip.  For RS256/384/512 and
PS256/384/512, a provider that hands out at signing (`p`) and at verification
(`p1`) a freshly reset digest of the same kind, the same key and the same
options; a header map object `a` and a payload map reference whose contents
JSON-encode to `hb` and `pb` when the encoder serialises them; a JSON library
that reads `hb` back as a map `Hd` that keeps the keys and the string values
of the header, and reads `pb` back as `Pd`; and a pooled verifier whose JSON
decoder buffers white space only.  When the RSA signing primitive returned
`sig` for the digest of the signing input, `SignTo` writes the token
`input.b64(sig)`, and the error of `Verify` on that token is exactly what the
RSA verification primitive returns for the same key, hash, digest of the
literal `input`, the same bytes `sig` and the same options.  When the
primitive accepts, `Verify` returns a nil error, the header `Hd`, which has
every key of the caller's header, and the payload `Pd`, and hands the verifier
back with white space buffered only. -/
theorem RSA_round_trip (L : Lib) (alg : String)
    (halg : isRS alg = true ∨ isPS alg = true) (hU : L.toUpper alg = alg)
    (p p1 : Provider) (h h1 : Hash) (k : RSAKey)
    (hget : p.shaOf alg = some h) (hreset : h.data = [])
    (hget1 : p1.shaOf alg = some h1) (hreset1 : h1.data = [])
    (hsha : h1.sha = h.sha) (hkey : h1.key = h.key)
    (hk : p.rsaKeyOf alg = some k) (hk1 : p1.rsaKeyOf alg = some k)
    (ho : p1.pssOptOf alg = p.pssOptOf alg)
    (s : signer) (w : Writer) (rnd : Nat) (M : Heap) (a : Ref) (payload : Option Ref)
    (hb pb sig : Bytes) (Hd : Claims) (Pd : Option Claims)
    (hH : L.jsonEncode (some (M.inject alg a a)) = .ok hb)
    (hP : L.jsonEncode (payload.map (M.inject alg a)) = .ok pb)
    (hHd : JsonReadsBack L hb (some Hd))
    (himg : JsonImage (some (M.inject alg a a)) (some Hd))
    (hPd : JsonReadsBack L pb Pd)
    (hsig : rsaSign L alg rnd k
      (L.digest h.sha h.key (base64.Encode hb ++ dot :: base64.Encode pb)) (p.pssOptOf alg)
        = .ok sig)
    (v : verifier) (hv : onlySpace v.jsonPending) :
    (SignToRef L s w rnd alg M (some a) payload p).written =
        [base64.Encode hb ++ dot :: (base64.Encode pb ++ dot :: base64.Encode sig)] ∧
      (Verify L v (base64.Encode hb ++ dot :: (base64.Encode pb ++ dot :: base64.Encode sig))
          p1).err =
        rsaVerify L alg k (L.digest h.sha h.key (base64.Encode hb ++ dot :: base64.Encode pb)) sig
          (p.pssOptOf alg) ∧
      (rsaVerify L alg k (L.digest h.sha h.key (base64.Encode hb ++ dot :: base64.Encode pb)) sig
          (p.pssOptOf alg) = none →
        ∃ calls v1,
          Verify L v (base64.Encode hb ++ dot :: (base64.Encode pb ++ dot :: base64.Encode sig))
            p1 =
            { header := some Hd, payload := Pd, err := none, calls := calls,
              pooled := some v1 } ∧
          (∀ key, ((M a).get key).isSome = true → (Hd.get key).isSome = true) ∧
          onlySpace v1.jsonPending) ∧
      (payload ≠ some a → payload.map (M.inject alg a) = payload.map M) := by
  obtain ⟨hkeys, hstr⟩ := himg
  obtain ⟨pend1, hd1, hs1⟩ := hHd v.jsonPending hv
  obtain ⟨pend2, hd2, hs2⟩ := hPd pend1 hs1
  have halgHd : Hd.get "alg" = some (.str alg) :=
    hstr "alg" alg (Or.inr (by rw [inject_same]; exact Claims.get_set_self _ _ _))
  have hV := Verify_rsa L v p1 h1 k alg alg hb pb sig Hd Pd pend1 pend2 halg hU hget1 hk1
    hd1 halgHd hd2
  rw [hsha, hkey, hreset1, ho, List.nil_append] at hV
  have hsig1 := hsig
  rw [← List.nil_append (base64.Encode hb ++ dot :: base64.Encode pb), ← hreset] at hsig1
  refine ⟨SignToRef_rsa L s w rnd alg M a payload p h k hb pb sig halg hget hk hH hP hsig1,
    hV.1, ?_, inject_payload M alg a payload⟩
  intro hacc
  obtain ⟨v1, calls, hVe, hpend⟩ := hV.2 hacc
  refine ⟨calls, v1, hVe, ?_, ?_⟩
  · intro key hkey1
    apply hkeys key
    rw [inject_same]
    exact Claims.isSome_get_set _ _ _ _ (Claims.isSome_get_set _ _ _ _ hkey1)
  · rw [hpend]; exact hs2

/-- Witness of C18 (amended): `RS256` on the sample header (address 0) and
payload (address 1), with the key number 9; the signature bytes are `[9, 7]`
and the token is `Ugo.UAo.CQc`. -/
theorem RSA_round_trip_witness :
    base64.Encode (ascii "R\n") ++ dot :: (base64.Encode (ascii "P\n") ++ dot ::
        base64.Encode [9, 7]) = ascii "Ugo.UAo.CQc" ∧
      (SignToRef demoLib newSigner Builder.writer 0 "RS256" demoHeap (some 0) (some 1)
        demoProviderRS).written =
        [base64.Encode (ascii "R\n") ++ dot :: (base64.Encode (ascii "P\n") ++ dot ::
          base64.Encode [9, 7])] ∧
      (Verify demoLib newVerifier
          (base64.Encode (ascii "R\n") ++ dot :: (base64.Encode (ascii "P\n") ++ dot ::
            base64.Encode [9, 7])) demoProviderRS).err =
        rsaVerify demoLib "RS256" { id := 9 }
          (demoLib.digest .SHA256 none
            (base64.Encode (ascii "R\n") ++ dot :: base64.Encode (ascii "P\n"))) [9, 7]
          (demoProviderRS.pssOptOf "RS256") ∧
      rsaVerify demoLib "RS256" { id := 9 }
          (demoLib.digest .SHA256 none
            (base64.Encode (ascii "R\n") ++ dot :: base64.Encode (ascii "P\n"))) [9, 7]
          (demoProviderRS.pssOptOf "RS256") = none ∧
      ∃ calls v1,
        Verify demoLib newVerifier
            (base64.Encode (ascii "R\n") ++ dot :: (base64.Encode (ascii "P\n") ++ dot ::
              base64.Encode [9, 7])) demoProviderRS =
          { header := some demoHeaderDecodedRS, payload := some demoPayload, err := none,
            calls := calls, pooled := some v1 } ∧
        (∀ key, ((demoHeap 0).get key).isSome = true →
          (demoHeaderDecodedRS.get key).isSome = true) ∧
        onlySpace v1.jsonPending :=
  ⟨by decide,
    (RSA_round_trip demoLib "RS256" (Or.inl (by decide)) (by decide)
      demoProviderRS demoProviderRS { sha := .SHA256, key := none, data := [] }
      { sha := .SHA256, key := none, data := [] } { id := 9 } (by decide) rfl (by decide) rfl rfl
      rfl (by decide) (by decide) rfl newSigner Builder.writer 0 demoHeap 0 (some 1)
      (ascii "R\n") (ascii "P\n") [9, 7] demoHeaderDecodedRS (some demoPayload) (by decide)
      (by decide) demoLib_readsBack.2.1 (jsonImage_of_imageOK _ _ (by decide))
      demoLib_readsBack.2.2 (by decide) newVerifier (by intro x hx; cases hx)).1,
    (RSA_round_trip demoLib "RS256" (Or.inl (by decide)) (by decide)
      demoProviderRS demoProviderRS { sha := .SHA256, key := none, data := [] }
      { sha := .SHA256, key := none, data := [] } { id := 9 } (by decide) rfl (by decide) rfl rfl
      rfl (by decide) (by decide) rfl newSigner Builder.writer 0 demoHeap 0 (some 1)
      (ascii "R\n") (ascii "P\n") [9, 7] demoHeaderDecodedRS (some demoPayload) (by decide)
      (by decide) demoLib_readsBack.2.1 (jsonImage_of_imageOK _ _ (by decide))
      demoLib_readsBack.2.2 (by decide) newVerifier (by intro x hx; cases hx)).2.1,
    by decide,
    (RSA_round_trip demoLib "RS256" (Or.inl (by decide)) (by decide)
      demoProviderRS demoProviderRS { sha := .SHA256, key := none, data := [] }
      { sha := .SHA256, key := none, data := [] } { id := 9 } (by decide) rfl (by decide) rfl rfl
      rfl (by decide) (by decide) rfl newSigner Builder.writer 0 demoHeap 0 (some 1)
      (ascii "R\n") (ascii "P\n") [9, 7] demoHeaderDecodedRS (some demoPayload) (by decide)
      (by decide) demoLib_readsBack.2.1 (jsonImage_of_imageOK _ _ (by decide))
      demoLib_readsBack.2.2 (by decide) newVerifier (by intro x hx; cases hx)).2.2.1
      (by decide)⟩

/-! ## C19 : absent key on sign -/

/-- C19 (the code at the failing input). With the sample provider, which has
no RSA and no ECDSA key, `SignTo` for `RS256` and for `ES256` encodes the
header and payload, asks the provider for the digest and the key, and hands
the nil key to the signing primitive, which dereferences it: the call panics.
It does not return `ErrUnsupportedAlg`.  Nothing is written.  `Verify` with
the same provider does return `ErrUnsupportedAlg` for an `RS256` token. -/
theorem SignTo_absent_key :
    (demoProvider.RS256Key = none ∧ demoProvider.ES256Key = none) ∧
      SignTo demoLib newSigner Builder.writer 0 "RS256" (some demoHeader) (some demoPayload)
          demoProvider =
        { s := { newSigner with jsonHeader := ascii "R\n", jsonPayload := ascii "P\n",
                                base64Buffer := ascii "UAo", tokenBuffer := ascii "Ugo.UAo",
                                signBuffer := [7] },
          header := some demoHeaderSignedRS, written := [],
          calls := [.GetSha256, .RS256Key], result := .panicked } ∧
      (SignTo demoLib newSigner Builder.writer 0 "ES256" (some demoHeader) (some demoPayload)
          demoProvider).result = .panicked ∧
      (SignTo demoLib newSigner Builder.writer 0 "ES256" (some demoHeader) (some demoPayload)
          demoProvider).written = [] ∧
      (SignTo demoLib newSigner Builder.writer 0 "ES256" (some demoHeader) (some demoPayload)
          demoProvider).calls = [.GetSha256, .ES256Key] ∧
      (Outcome.panicked : Outcome (Option Error)) ≠ .returned (some .ErrUnsupportedAlg) ∧
      (Verify demoLib newVerifier (ascii "Ugo.UAo.CQc") demoProvider).err
        = some .ErrUnsupportedAlg := by
  decide

/-! ## C20 : the algorithm codes of SignTo -/

theorem ofFamily_calls (pre : List Call) (put : Option Hash → Call) (e : SignerEffect)
    (hpre : pre ≠ []) : (SignEffect.ofFamily pre put e).calls ≠ [] := by
  simp only [SignEffect.ofFamily]
  split
  · exact hpre
  · simp

/-- C20. `SignTo` runs a family signer exactly when `IsSupportedAlg(alg)` is
true, that is when `alg` is one of the twelve upper-case codes, and then it is
the `SignXxxTo` function of that code.  For every other `alg` (for instance
the lower-case spelling `hs256`) it panics at once: the signer, the header
and the writer are untouched and no provider call is made. -/
theorem SignTo_supported_iff (L : Lib) (s : signer) (w : Writer) (rnd : Nat) (alg : String)
    (header payload : Option Claims) (p : Provider) :
    ((SignTo L s w rnd alg header payload p).calls ≠ [] ↔ IsSupportedAlg alg = true) ∧
      (IsSupportedAlg alg = false →
        SignTo L s w rnd alg header payload p =
          { s := s, header := header, written := [], calls := [], result := .panicked }) ∧
      ((alg = "HS256" → SignTo L s w rnd alg header payload p = SignHS256To L s w header payload p) ∧
       (alg = "HS384" → SignTo L s w rnd alg header payload p = SignHS384To L s w header payload p) ∧
       (alg = "HS512" → SignTo L s w rnd alg header payload p = SignHS512To L s w header payload p) ∧
       (alg = "RS256" →
          SignTo L s w rnd alg header payload p = SignRS256To L s w rnd header payload p) ∧
       (alg = "RS384" →
          SignTo L s w rnd alg header payload p = SignRS384To L s w rnd header payload p) ∧
       (alg = "RS512" →
          SignTo L s w rnd alg header payload p = SignRS512To L s w rnd header payload p) ∧
       (alg = "ES256" →
          SignTo L s w rnd alg header payload p = SignES256To L s w rnd header payload p) ∧
       (alg = "ES384" →
          SignTo L s w rnd alg header payload p = SignES384To L s w rnd header payload p) ∧
       (alg = "ES512" →
          SignTo L s w rnd alg header payload p = SignES512To L s w rnd header payload p) ∧
       (alg = "PS256" →
          SignTo L s w rnd alg header payload p = SignPS256To L s w rnd header payload p) ∧
       (alg = "PS384" →
          SignTo L s w rnd alg header payload p = SignPS384To L s w rnd header payload p) ∧
       (alg = "PS512" →
          SignTo L s w rnd alg header payload p = SignPS512To L s w rnd header payload p)) ∧
      IsSupportedAlg "hs256" = false := by
  have hfam :
      (alg = "HS256" → SignTo L s w rnd alg header payload p = SignHS256To L s w header payload p) ∧
       (alg = "HS384" → SignTo L s w rnd alg header payload p = SignHS384To L s w header payload p) ∧
       (alg = "HS512" → SignTo L s w rnd alg header payload p = SignHS512To L s w header payload p) ∧
       (alg = "RS256" →
          SignTo L s w rnd alg header payload p = SignRS256To L s w rnd header payload p) ∧
       (alg = "RS384" →
          SignTo L s w rnd alg header payload p = SignRS384To L s w rnd header payload p) ∧
       (alg = "RS512" →
          SignTo L s w rnd alg header payload p = SignRS512To L s w rnd header payload p) ∧
       (alg = "ES256" →
          SignTo L s w rnd alg header payload p = SignES256To L s w rnd header payload p) ∧
       (alg = "ES384" →
          SignTo L s w rnd alg header payload p = SignES384To L s w rnd header payload p) ∧
       (alg = "ES512" →
          SignTo L s w rnd alg header payload p = SignES512To L s w rnd header payload p) ∧
       (alg = "PS256" →
          SignTo L s w rnd alg header payload p = SignPS256To L s w rnd header payload p) ∧
       (alg = "PS384" →
          SignTo L s w rnd alg header payload p = SignPS384To L s w rnd header payload p) ∧
       (alg = "PS512" →
          SignTo L s w rnd alg header payload p = SignPS512To L s w rnd header payload p) := by
    refine ⟨?_, ?_, ?_, ?_, ?_, ?_, ?_, ?_, ?_, ?_, ?_, ?_⟩ <;>
      (intro h; subst h; simp [SignTo])
  have hpanic : IsSupportedAlg alg = false →
      SignTo L s w rnd alg header payload p =
        { s := s, header := header, written := [], calls := [], result := .panicked } := by
    intro hf
    have hn : ¬ (alg = "HS256" ∨ alg = "HS384" ∨ alg = "HS512" ∨ alg = "RS256" ∨ alg = "RS384" ∨
        alg = "RS512" ∨ alg = "ES256" ∨ alg = "ES384" ∨ alg = "ES512" ∨ alg = "PS256" ∨
        alg = "PS384" ∨ alg = "PS512") := by
      intro hc
      rw [(IsSupportedAlg_iff alg).mpr hc] at hf
      cases hf
    simp only [not_or] at hn
    obtain ⟨h1, h2, h3, h4, h5, h6, h7, h8, h9, h10, h11, h12⟩ := hn
    simp [SignTo, h1, h2, h3, h4, h5, h6, h7, h8, h9, h10, h11, h12]
  refine ⟨?_, hpanic, hfam, by decide⟩
  constructor
  · intro hc
    by_contra hf
    have hf1 : IsSupportedAlg alg = false := by
      cases hx : IsSupportedAlg alg
      · rfl
      · exact absurd hx hf
    rw [hpanic hf1] at hc
    exact hc rfl
  · intro hs
    obtain ⟨f1, f2, f3, f4, f5, f6, f7, f8, f9, f10, f11, f12⟩ := hfam
    rcases (IsSupportedAlg_iff alg).mp hs with h | h | h | h | h | h | h | h | h | h | h | h
    · rw [f1 h]; exact ofFamily_calls _ _ _ (by simp)
    · rw [f2 h]; exact ofFamily_calls _ _ _ (by simp)
    · rw [f3 h]; exact ofFamily_calls _ _ _ (by simp)
    · rw [f4 h]; exact ofFamily_calls _ _ _ (by simp)
    · rw [f5 h]; exact ofFamily_calls _ _ _ (by simp)
    · rw [f6 h]; exact ofFamily_calls _ _ _ (by simp)
    · rw [f7 h]; exact ofFamily_calls _ _ _ (by simp)
    · rw [f8 h]; exact ofFamily_calls _ _ _ (by simp)
    · rw [f9 h]; exact ofFamily_calls _ _ _ (by simp)
    · rw [f10 h]; exact ofFamily_calls _ _ _ (by simp)
    · rw [f11 h]; exact ofFamily_calls _ _ _ (by simp)
    · rw [f12 h]; exact ofFamily_calls _ _ _ (by simp)

/-- Witness of C20: `hs256` panics with everything untouched, `HS256` runs
`SignHS256To`. -/
theorem SignTo_supported_iff_witness :
    (IsSupportedAlg "hs256" = false ∧
      SignTo demoLib newSigner Builder.writer 0 "hs256" (some demoHeader) (some demoPayload)
          demoProvider =
        { s := newSigner, header := some demoHeader, written := [], calls := [],
          result := .panicked }) ∧
    (IsSupportedAlg "HS256" = true ∧
      SignTo demoLib newSigner Builder.writer 0 "HS256" (some demoHeader) (some demoPayload)
          demoProvider =
        SignHS256To demoLib newSigner Builder.writer (some demoHeader) (some demoPayload)
          demoProvider) :=
  ⟨⟨by decide,
      (SignTo_supported_iff demoLib newSigner Builder.writer 0 "hs256" (some demoHeader)
        (some demoPayload) demoProvider).2.1 (by decide)⟩,
    ⟨by decide,
      (SignTo_supported_iff demoLib newSigner Builder.writer 0 "HS256" (some demoHeader)
        (some demoPayload) demoProvider).2.2.1.1 rfl⟩⟩

/-! ## C21, C22 : shape of the codec output and its round-trip domain -/

theorem SetBytes_lt (l : Bytes) : SetBytes l < 256 ^ l.length := by
  induction l using List.reverseRecOn with
  | nil => simp [SetBytes]
  | append_singleton l b ih =>
      rw [SetBytes_append, List.length_append, List.length_singleton, pow_succ]
      have := b.isLt
      omega

/-- No byte string that reads back as `x` is shorter than `bigBytes x`. -/
theorem bigBytes_length_le (l : Bytes) : (bigBytes (SetBytes l)).length ≤ l.length :=
  (beBytes_eq l.length (SetBytes l) (SetBytes_lt l)).1

/-- A number whose minimal encoding has `k + 1` bytes is at least `256 ^ k`. -/
theorem bigBytes_lower (x k : Nat) (h : (bigBytes x).length = k + 1) : 256 ^ k ≤ x := by
  have hlt : x < 256 ^ (k + 1) := by
    have := SetBytes_lt (bigBytes x)
    rwa [SetBytes_bigBytes, h] at this
  exact (bigBytes_length_eq_iff (k + 1) x (by omega) hlt).1 h

/-- Reading a proper suffix or a proper prefix of the minimal encoding gives a
smaller number. -/
theorem SetBytes_part_lt (x : Nat) (l : Bytes) (hl : l.length < (bigBytes x).length) :
    SetBytes l < x := by
  obtain ⟨k, hk⟩ : ∃ k, (bigBytes x).length = k + 1 := ⟨(bigBytes x).length - 1, by omega⟩
  have h1 := bigBytes_lower x k hk
  have h2 := SetBytes_lt l
  have h3 : 256 ^ l.length ≤ 256 ^ k := Nat.pow_le_pow_right (by decide) (by omega)
  omega

/-- Where `Decode` cuts the output of `Encode`, and what it reads. -/
theorem Decode_concat (b : bigint) (r s : Nat) :
    let out := bigBytes r ++ bigBytes s
    (((b.Decode out).r = r ∧ (b.Decode out).s = s) ↔
      ((bigBytes r).length ≤ (bigBytes s).length ∧
        (bigBytes s).length ≤ (bigBytes r).length + 1)) ∧
    ((bigBytes s).length < (bigBytes r).length → (b.Decode out).r < r) ∧
    ((bigBytes r).length + 1 < (bigBytes s).length → (b.Decode out).s < s) := by
  intro out
  have hlen : out.length = (bigBytes r).length + (bigBytes s).length := List.length_append _ _
  have hlo : out.length / 2 < (bigBytes r).length → (b.Decode out).r < r := fun h =>
    SetBytes_part_lt r (out.take (out.length / 2)) (by rw [List.length_take]; omega)
  have hhi : (bigBytes r).length < out.length / 2 → (b.Decode out).s < s := fun h =>
    SetBytes_part_lt s (out.drop (out.length / 2)) (by rw [List.length_drop]; omega)
  refine ⟨?_, fun h => hlo (by omega), fun h => hhi (by omega)⟩
  by_cases hn : out.length / 2 = (bigBytes r).length
  · have h1 : out.take (out.length / 2) = bigBytes r := by
      rw [hn]; exact List.take_left' rfl
    have h2 : out.drop (out.length / 2) = bigBytes s := by
      rw [hn]; exact List.drop_left' rfl
    simp only [bigint.Decode]
    rw [h1, h2, SetBytes_bigBytes, SetBytes_bigBytes]
    constructor
    · intro _; omega
    · intro _; exact ⟨rfl, rfl⟩
  · constructor
    · rintro ⟨hr, hs⟩
      exfalso
      rcases Nat.lt_or_gt_of_ne hn with hlt | hgt
      · have := hlo hlt
        omega
      · have := hhi hgt
        omega
    · intro h
      omega

/-- C21. For all `r` and `s` and every prior state of the reused buffer,
`Encode` returns (it does not panic) the minimal big-endian bytes of `r`
immediately followed by the minimal big-endian bytes of `s`: each part reads
back as its number, has no leading zero byte, is empty for zero and is no
longer than any other byte string that reads back as the same number.  The
length of the output is the sum of the two byte lengths; no width enters. -/
theorem Encode_shape (b : bigint) (r s : Nat) :
    ∃ b1 out,
      b.Encode r s = some (b1, out) ∧
      out = bigBytes r ++ bigBytes s ∧
      out.length = (bigBytes r).length + (bigBytes s).length ∧
      (SetBytes (bigBytes r) = r ∧ SetBytes (bigBytes s) = s) ∧
      ((bigBytes r).head? ≠ some 0 ∧ (bigBytes s).head? ≠ some 0) ∧
      bigBytes 0 = [] ∧
      (∀ l : Bytes, (bigBytes (SetBytes l)).length ≤ l.length) := by
  obtain ⟨b1, hE, _, _⟩ := Encode_eq b r s
  exact ⟨b1, _, hE, rfl, List.length_append _ _,
    ⟨SetBytes_bigBytes r, SetBytes_bigBytes s⟩, ⟨bigBytes_head r, bigBytes_head s⟩,
    bigBytes_zero, bigBytes_length_le⟩

/-- C22. For all `r` and `s` and every prior state of the codec, `Encode`
returns some bytes, and `Decode` of these bytes sets the pair `(r, s)` again
if and only if `bytelen r ≤ bytelen s ≤ bytelen r + 1`, where `bytelen` is the
length of the minimal big-endian encoding.  In particular, when `r` needs more
bytes than `s` the decoded `r` is smaller than `r`, and when `s` needs at
least two bytes more than `r` the decoded `s` is smaller than `s`. -/
theorem Decode_Encode_iff (b : bigint) (r s : Nat) :
    ∃ b1 out,
      b.Encode r s = some (b1, out) ∧
      (((b1.Decode out).r = r ∧ (b1.Decode out).s = s) ↔
        ((bigBytes r).length ≤ (bigBytes s).length ∧
          (bigBytes s).length ≤ (bigBytes r).length + 1)) ∧
      ((bigBytes s).length < (bigBytes r).length → (b1.Decode out).r < r) ∧
      ((bigBytes r).length + 1 < (bigBytes s).length → (b1.Decode out).s < s) := by
  obtain ⟨b1, hE, _, _⟩ := Encode_eq b r s
  exact ⟨b1, _, hE, Decode_concat b1 r s⟩

/-- C22 at `r = 256`, `s = 1`: `r` needs two bytes and `s` one, so the pair is
outside the round-trip domain. -/
theorem Decode_Encode_iff_witness :
    ((bigBytes 1).length < (bigBytes 256).length) ∧
    ∃ b1 out,
      bigint.Encode { b := [], r := 0, s := 0 } 256 1 = some (b1, out) ∧
      (((b1.Decode out).r = 256 ∧ (b1.Decode out).s = 1) ↔
        ((bigBytes 256).length ≤ (bigBytes 1).length ∧
          (bigBytes 1).length ≤ (bigBytes 256).length + 1)) ∧
      ((bigBytes 1).length < (bigBytes 256).length → (b1.Decode out).r < 256) ∧
      ((bigBytes 256).length + 1 < (bigBytes 1).length → (b1.Decode out).s < 1) :=
  ⟨by decide, Decode_Encode_iff { b := [], r := 0, s := 0 } 256 1⟩

/-! ## C23 : rotation of the HS secrets -/

/-- C23 (the code at every secret). On every provider, `SetHS256Key secret`
installs the constructor of HMAC-SHA256 keyed with `secret`, as
`NewDefaultProvider` does for HS256.  `SetHS384Key secret` and
`SetHS512Key secret` install the constructor of HMAC-SHA256 keyed with
`secret` too, whereas `NewDefaultProvider` installs HMAC-SHA384 for HS384 and
HMAC-SHA512 for HS512: the digests differ, `GetHS384` and `GetHS512` of a
provider rotated right after its construction return the HMAC-SHA256 object,
and under a library whose digest tells the hash functions apart the
authentication codes of every message differ. -/
theorem SetHSKey_hash (p : DefaultProvider) (g : KeyGen) (s1 s2 s3 secret data : Bytes) :
    ((p.SetHS256Key secret).hs256.fresh = some (hmac.New .SHA256 secret) ∧
      (NewDefaultProvider g secret s2 s3).hs256.fresh = some (hmac.New .SHA256 secret)) ∧
    ((p.SetHS384Key secret).hs384.fresh = some (hmac.New .SHA256 secret) ∧
      (NewDefaultProvider g s1 secret s3).hs384.fresh = some (hmac.New .SHA384 secret) ∧
      (p.SetHS384Key secret).hs384.fresh ≠ (NewDefaultProvider g s1 secret s3).hs384.fresh) ∧
    ((p.SetHS512Key secret).hs512.fresh = some (hmac.New .SHA256 secret) ∧
      (NewDefaultProvider g s1 s2 secret).hs512.fresh = some (hmac.New .SHA512 secret) ∧
      (p.SetHS512Key secret).hs512.fresh ≠ (NewDefaultProvider g s1 s2 secret).hs512.fresh) ∧
    (((NewDefaultProvider g s1 s2 s3).SetHS384Key secret).GetHS384.1 =
        .returned (hmac.New .SHA256 secret) ∧
      (NewDefaultProvider g s1 secret s3).GetHS384.1 = .returned (hmac.New .SHA384 secret) ∧
      ((NewDefaultProvider g s1 s2 s3).SetHS512Key secret).GetHS512.1 =
        .returned (hmac.New .SHA256 secret) ∧
      (NewDefaultProvider g s1 s2 secret).GetHS512.1 = .returned (hmac.New .SHA512 secret)) ∧
    (Hash.Sum demoLibSha ((hmac.New .SHA256 secret).Write data) [] ≠
        Hash.Sum demoLibSha ((hmac.New .SHA384 secret).Write data) [] ∧
      Hash.Sum demoLibSha ((hmac.New .SHA256 secret).Write data) [] ≠
        Hash.Sum demoLibSha ((hmac.New .SHA512 secret).Write data) []) := by
  refine ⟨⟨rfl, rfl⟩, ⟨rfl, rfl, ?_⟩, ⟨rfl, rfl, ?_⟩, ⟨rfl, rfl, rfl, rfl⟩, ?_, ?_⟩
  · simp [Pool.fresh, DefaultProvider.SetHS384Key, NewDefaultProvider, hmac.New]
  · simp [Pool.fresh, DefaultProvider.SetHS512Key, NewDefaultProvider, hmac.New]
  · simp [Hash.Sum, Hash.Write, hmac.New, demoLibSha]
  · simp [Hash.Sum, Hash.Write, hmac.New, demoLibSha]

/-! ## C24 : what the encoder changes in the caller's maps -/

theorem Heap.store_same (M : Heap) (a : Ref) (k : String) (v : Value) :
    M.store a k v a = (M a).set k v := by
  simp [Heap.store]

theorem Heap.store_other (M : Heap) (a c : Ref) (k : String) (v : Value) (h : c ≠ a) :
    M.store a k v c = M c := by
  simp [Heap.store, h]

/-- The map objects after the encoder ran with a non-nil header. -/
theorem encodeRef_heap (L : Lib) (s : signer) (alg : String) (M : Heap) (a : Ref)
    (payload : Option Ref) :
    (s.encodeRef L alg M (some a) payload).2.1 =
      (M.store a "jwt" (.str "JWT")).store a "alg" (.alg alg) := by
  simp only [signer.encodeRef]
  split
  · rfl
  · split <;> rfl

/-- The encoder on references is the encoder on the content of the header
object and the content that the payload object has after the two header
writes. -/
theorem encodeRef_encode (L : Lib) (s : signer) (alg : String) (M : Heap) (a : Ref)
    (payload : Option Ref) :
    let M2 := (M.store a "jwt" (.str "JWT")).store a "alg" (.alg alg)
    ((s.encodeRef L alg M (some a) payload).1,
      some ((s.encodeRef L alg M (some a) payload).2.1 a),
      (s.encodeRef L alg M (some a) payload).2.2) =
    s.encode L alg (some (M a)) (payload.map M2) := by
  intro M2
  have e : M2 a = ((M a).set "jwt" (.str "JWT")).set "alg" (.alg alg) := by
    simp [M2, Heap.store]
  simp only [signer.encodeRef, signer.encode]
  rw [show (M.store a "jwt" (.str "JWT")).store a "alg" (.alg alg) = M2 from rfl, e]
  split
  · simp only [e]
  · split <;> simp only [e]

/-- C24 (counterexample). When the caller passes the same map object as
header and as payload, the payload map is changed: it gains the keys `"jwt"`
and `"alg"`, and the serialised payload is that of the changed map. -/
theorem encodeRef_alias_counterexample :
    (signer.encodeRef demoLib newSigner "HS256" demoHeap (some 0) (some 0)).2.2 = .returned none ∧
    demoHeap 0 = [("kid", .str "k1")] ∧
    (signer.encodeRef demoLib newSigner "HS256" demoHeap (some 0) (some 0)).2.1 0 =
      [("kid", .str "k1"), ("jwt", .str "JWT"), ("alg", .alg "HS256")] ∧
    (signer.encodeRef demoLib newSigner "HS256" demoHeap (some 0) (some 0)).2.1 0 ≠ demoHeap 0 ∧
    (signer.encodeRef demoLib newSigner "HS256" demoHeap (some 0) (some 0)).1.jsonPayload =
      (signer.encodeRef demoLib newSigner "HS256" demoHeap (some 0) (some 0)).1.jsonHeader := by
  decide

/-- C24 (amended). The encoder changes the caller's maps only through its two
writes `header["jwt"]` and `header["alg"]`.  In the header object both keys
hold the injected values afterwards, every other key keeps its value and no
key is removed; every other map object is left as it was, so the payload map
is unchanged whenever it is not the header's own map object (a nil payload
included).  On a nil header the encoder panics and no map is changed. -/
theorem encodeRef_frame (L : Lib) (s : signer) (alg : String) (M : Heap) (a : Ref)
    (payload : Option Ref) :
    ((s.encodeRef L alg M (some a) payload).2.1 a).get "alg" = some (.alg alg) ∧
    ((s.encodeRef L alg M (some a) payload).2.1 a).get "jwt" = some (.str "JWT") ∧
    (∀ k : String, k ≠ "alg" → k ≠ "jwt" →
      ((s.encodeRef L alg M (some a) payload).2.1 a).get k = (M a).get k) ∧
    (∀ k : String, ((M a).get k).isSome = true →
      (((s.encodeRef L alg M (some a) payload).2.1 a).get k).isSome = true) ∧
    (∀ c : Ref, c ≠ a → (s.encodeRef L alg M (some a) payload).2.1 c = M c) ∧
    (payload ≠ some a →
      payload.map (s.encodeRef L alg M (some a) payload).2.1 = payload.map M) ∧
    ((s.encodeRef L alg M none payload).2.1 = M ∧
      (s.encodeRef L alg M none payload).2.2 = .panicked) := by
  rw [encodeRef_heap]
  have e : (M.store a "jwt" (.str "JWT")).store a "alg" (.alg alg) a =
      ((M a).set "jwt" (.str "JWT")).set "alg" (.alg alg) := by
    simp [Heap.store]
  have o : ∀ c : Ref, c ≠ a →
      (M.store a "jwt" (.str "JWT")).store a "alg" (.alg alg) c = M c := by
    intro c hc
    simp [Heap.store, hc]
  rw [e]
  refine ⟨Claims.get_set_self _ _ _, ?_, ?_, ?_, o, ?_, rfl, rfl⟩
  · rw [Claims.get_set_other _ _ _ _ (by decide), Claims.get_set_self]
  · intro k h1 h2
    rw [Claims.get_set_other _ _ _ _ (Ne.symm h1), Claims.get_set_other _ _ _ _ (Ne.symm h2)]
  · intro k hk
    exact Claims.isSome_get_set _ _ _ _ (Claims.isSome_get_set _ _ _ _ hk)
  · intro hp
    cases payload with
    | none => rfl
    | some c =>
        have hc : c ≠ a := fun h => hp (by rw [h])
        simp only [Option.map_some']
        rw [o c hc]

/-- Witness of C24 (amended): the sample header at address 0 and the sample
payload at address 1. -/
theorem encodeRef_frame_witness :
    ((some 1 : Option Ref) ≠ some 0 ∧ "kid" ≠ "alg" ∧ "kid" ≠ "jwt" ∧
      ((demoHeap 0).get "kid").isSome = true) ∧
    (((signer.encodeRef demoLib newSigner "HS256" demoHeap (some 0) (some 1)).2.1 0).get "kid" =
        (demoHeap 0).get "kid" ∧
      (((signer.encodeRef demoLib newSigner "HS256" demoHeap (some 0) (some 1)).2.1 0).get
        "kid").isSome = true ∧
      (some 1 : Option Ref).map
          (signer.encodeRef demoLib newSigner "HS256" demoHeap (some 0) (some 1)).2.1 =
        (some 1 : Option Ref).map demoHeap) :=
  ⟨by decide,
    (encodeRef_frame demoLib newSigner "HS256" demoHeap 0 (some 1)).2.2.1 "kid" (by decide)
      (by decide),
    (encodeRef_frame demoLib newSigner "HS256" demoHeap 0 (some 1)).2.2.2.1 "kid" (by decide),
    (encodeRef_frame demoLib newSigner "HS256" demoHeap 0 (some 1)).2.2.2.2.2.1 (by decide)⟩

end Jwt
